import Mathlib

/-!
Verification of the bot-procman sheriff against its specification.

This file contains a shallow embedding, in Lean 4, of the two Python sources
of the repository:

* `bot2-procman/python/src/bot_procman/sheriff.py` — the process-supervision
  controller ("sheriff"): per-command state, derived status, deputy tables,
  inbound-message reconciliation, sheriff-id allocation, observer-mode checks
  and the script executor's wait machinery (namespace `Procman`);
* `bot2-procman/python/src/bot_procman/sheriff_config.py` — the configuration
  lexer, recursive-descent parser and canonical serializer (namespace
  `SheriffConfig`).

Conventions of the embedding:

* Python machine integers are modeled as `Int` (Python ints are unbounded;
  all the constants of the source, `2 << 31`, `1 << 30`, `1 << 16`, appear
  literally as powers of two with the source expression noted in a comment).
* Python exceptions are modeled by `Except PyErr`: a function that can raise
  returns `.error e`, and in every embedded function the raise happens before
  any state write, so an `.error` result leaves the state unchanged exactly
  as in the source (each embedded raise point is noted where it occurs).
* Python dicts are association lists in insertion order; dict equality
  (order-insensitive) is modeled where the specification says
  "structurally equal".
* `timestamp_now()` (microseconds since the epoch) is passed explicitly as a
  `now : Int` argument.
* `gobject` signal emission and `gobject.timeout_add` are modeled as values of
  an `Event` inductive collected in an output list.
* Float-valued metrics (`cpu_usage`, `cpu_load`) are opaque pass-through
  values in every code path the claims touch; they are modeled as `Int`.
-/

namespace Procman

/-- Status constants of `sheriff.py` lines 24–31.  Note that four of the
eight named statuses are the very same string, `"Command Sent"`. -/
def TRYING_TO_START : String := "Command Sent"

/-- `RUNNING = "Running"` (sheriff.py line 25). -/
def RUNNING : String := "Running"

/-- `TRYING_TO_STOP = "Command Sent"` (sheriff.py line 26). -/
def TRYING_TO_STOP : String := "Command Sent"

/-- `REMOVING = "Command Sent"` (sheriff.py line 27). -/
def REMOVING : String := "Command Sent"

/-- `STOPPED_OK = "Stopped (OK)"` (sheriff.py line 28). -/
def STOPPED_OK : String := "Stopped (OK)"

/-- `STOPPED_ERROR = "Stopped (Error)"` (sheriff.py line 29). -/
def STOPPED_ERROR : String := "Stopped (Error)"

/-- `UNKNOWN = "Unknown"` (sheriff.py line 30). -/
def UNKNOWN : String := "Unknown"

/-- `RESTARTING = "Command Sent"` (sheriff.py line 31). -/
def RESTARTING : String := "Command Sent"

/-- Python exceptions raised by the embedded code.  The source raises
`ValueError`, `KeyError`, `RuntimeError`, `AttributeError`, `TypeError` and
`AssertionError` with messages; constructors here carry the raise site in
their name instead of a message string. -/
inductive PyErr where
  /-- `ValueError "Can't add commands in Observer mode"` (add_command). -/
  | modeViolationAdd : PyErr
  /-- `ValueError "Can't modify commands in Observer mode"`
      (start/restart/stop_command, set_command_group). -/
  | modeViolationModify : PyErr
  /-- `ValueError "Can't remove commands in Observer mode"`
      (schedule_command_for_removal). -/
  | modeViolationRemove : PyErr
  /-- `ValueError "Can't send orders in Observer mode"` (send_orders). -/
  | modeViolationSend : PyErr
  /-- `KeyError "No such command"` (get_command_deputy). -/
  | keyErrorNoSuchCommand : PyErr
  /-- `RuntimeError "no available sheriff id"` (__get_free_sheriff_id). -/
  | runtimeErrorNoFreeId : PyErr
  /-- `AttributeError`: `NoneType` has no attribute `script`
      (_finish_script_execution with no active context). -/
  | attributeErrorNoneContext : PyErr
  /-- `TypeError`: arithmetic on `last_script_action_time = None`
      (_check_wait_action_status). -/
  | typeErrorNoneArith : PyErr
  /-- `ValueError "Invalid desired status ..."` (_check_wait_action_status). -/
  | valueErrorInvalidStatus : PyErr
  /-- `AssertionError` (`assert newcmd.sheriff_id != 0` in _add_command). -/
  | assertionError : PyErr
deriving DecidableEq

/-- One supervised command: `SheriffDeputyCommand` of sheriff.py.
`force_quit` is an int flag (0/1) in the source; it is modeled as `Bool`. -/
structure SheriffDeputyCommand where
  sheriff_id : Int
  pid : Int
  exit_code : Int
  cpu_usage : Int
  mem_vsize_bytes : Int
  mem_rss_bytes : Int
  name : String
  nickname : String
  group : String
  desired_runid : Int
  force_quit : Bool
  scheduled_for_removal : Bool
  actual_runid : Int
  auto_respawn : Bool
deriving DecidableEq

/-- The field values set by `SheriffDeputyCommand.__init__` (sheriff.py
lines 35–50): in particular `pid = -1` and `exit_code = 0`. -/
def initCmd : SheriffDeputyCommand where
  sheriff_id := 0
  pid := -1
  exit_code := 0
  cpu_usage := 0
  mem_vsize_bytes := 0
  mem_rss_bytes := 0
  name := ""
  nickname := ""
  group := ""
  desired_runid := 0
  force_quit := false
  scheduled_for_removal := false
  actual_runid := 0
  auto_respawn := false

/-- POSIX `WTERMSIG(status) = status & 0x7f`, as used by `os.WTERMSIG`. -/
def WTERMSIG (s : Int) : Int := s % 128

/-- POSIX `WIFSIGNALED(status)`, as used by `os.WIFSIGNALED`: the termination
signal is neither 0 nor 0x7f. -/
def WIFSIGNALED (s : Int) : Bool := WTERMSIG s ≠ 0 ∧ WTERMSIG s ≠ 127

/-- Signal numbers `signal.SIGTERM`, `signal.SIGINT`, `signal.SIGKILL`. -/
def SIGTERM : Int := 15

/-- `signal.SIGINT`. -/
def SIGINT : Int := 2

/-- `signal.SIGKILL`. -/
def SIGKILL : Int := 9

/-- `SheriffDeputyCommand.status` (sheriff.py lines 99–120): the derived
status, computed purely from the command's fields. -/
def statusOf (c : SheriffDeputyCommand) : String :=
  if c.desired_runid ≠ c.actual_runid ∧ c.force_quit = false then
    if c.pid = 0 then TRYING_TO_START else RESTARTING
  else if c.desired_runid = c.actual_runid then
    if c.pid > 0 then
      if c.force_quit = false ∧ c.scheduled_for_removal = false then
        RUNNING
      else
        TRYING_TO_STOP
    else
      if c.scheduled_for_removal then REMOVING
      else if c.exit_code = 0 then STOPPED_OK
      else if c.force_quit ∧ WIFSIGNALED c.exit_code ∧
          (WTERMSIG c.exit_code = SIGTERM ∨ WTERMSIG c.exit_code = SIGINT ∨
           WTERMSIG c.exit_code = SIGKILL) then STOPPED_OK
      else STOPPED_ERROR
  else UNKNOWN

/-- One per-command record of an inbound `PMD_INFO` message (the wire type
`bot_procman.info_t` entries consumed by the sheriff). -/
structure CmdInfo where
  name : String
  nickname : String
  group : String
  sheriff_id : Int
  pid : Int
  actual_runid : Int
  exit_code : Int
  cpu_usage : Int
  mem_vsize_bytes : Int
  mem_rss_bytes : Int
  auto_respawn : Bool
deriving DecidableEq

/-- An inbound `PMD_INFO` message (the wire type `bot_procman.info_t`). -/
structure InfoMsg where
  utime : Int
  host : String
  cpu_load : Int
  phys_mem_total_bytes : Int
  phys_mem_free_bytes : Int
  cmds : List CmdInfo
deriving DecidableEq

/-- `SheriffDeputyCommand._update_from_cmd_info` (sheriff.py lines 52–66):
overwrite the observed fields from the report, then, if the command has run
to completion (`pid == 0` and the reported runid matches the desired one)
and neither respawn nor quit was requested, set `force_quit` to prevent a
respawn when the deputy restarts. -/
def updateFromCmdInfo (c : SheriffDeputyCommand) (ci : CmdInfo) :
    SheriffDeputyCommand :=
  let c := { c with
    pid := ci.pid
    actual_runid := ci.actual_runid
    exit_code := ci.exit_code
    cpu_usage := ci.cpu_usage
    mem_vsize_bytes := ci.mem_vsize_bytes
    mem_rss_bytes := ci.mem_rss_bytes }
  if c.pid = 0 ∧ c.actual_runid = c.desired_runid ∧
      c.auto_respawn = false ∧ c.force_quit = false then
    { c with force_quit := true }
  else c

/-- The runid wrap bound: `2 << 31` in the source, which is `2 ^ 32`
(not `2 ^ 31`). -/
def runidWrapBound : Int := 2 ^ 32

/-- The runid bump shared by `_start` and `_restart` (sheriff.py lines
84–85, 89–90): `desired_runid += 1; if desired_runid > (2 << 31):
desired_runid = 1`. -/
def bumpRunid (r : Int) : Int :=
  if r + 1 > runidWrapBound then 1 else r + 1

/-- `SheriffDeputyCommand._start` (sheriff.py lines 79–86): a no-op when the
command is already running and not force-quit, else bump the runid and clear
`force_quit`. -/
def cmdStart (c : SheriffDeputyCommand) : SheriffDeputyCommand :=
  if c.pid > 0 ∧ c.force_quit = false then c
  else { c with desired_runid := bumpRunid c.desired_runid, force_quit := false }

/-- `SheriffDeputyCommand._restart` (sheriff.py lines 88–91): unconditional
bump and clear. -/
def cmdRestart (c : SheriffDeputyCommand) : SheriffDeputyCommand :=
  { c with desired_runid := bumpRunid c.desired_runid, force_quit := false }

/-- `SheriffDeputyCommand._stop` (sheriff.py lines 93–94). -/
def cmdStop (c : SheriffDeputyCommand) : SheriffDeputyCommand :=
  { c with force_quit := true }

/-- One deputy as seen by the sheriff: `SheriffDeputy` of sheriff.py.
`commands` is the dict from sheriff id to command, in insertion order. -/
structure SheriffDeputy where
  name : String
  commands : List (Int × SheriffDeputyCommand)
  last_update_utime : Int
  cpu_load : Int
  phys_mem_total_bytes : Int
  phys_mem_free_bytes : Int
  vars : List (String × String)
deriving DecidableEq

/-- `SheriffDeputy.__init__` (sheriff.py lines 137–145). -/
def initDeputy (n : String) : SheriffDeputy where
  name := n
  commands := []
  last_update_utime := 0
  cpu_load := 0
  phys_mem_total_bytes := 0
  phys_mem_free_bytes := 0
  vars := []

/-- Dict lookup `commands[sheriff_id]`. -/
def depLookup (d : SheriffDeputy) (cid : Int) : Option SheriffDeputyCommand :=
  (d.commands.find? (fun p => p.1 = cid)).map (·.2)

/-- Dict write `commands[sheriff_id] = cmd`: replace in place when the key
exists, else append (insertion order of a Python dict). -/
def depWrite (d : SheriffDeputy) (cid : Int) (c : SheriffDeputyCommand) :
    SheriffDeputy :=
  if (d.commands.any (fun p => p.1 = cid)) then
    { d with commands :=
        d.commands.map (fun p => if p.1 = cid then (cid, c) else p) }
  else
    { d with commands := d.commands ++ [(cid, c)] }

/-- Dict delete `del commands[sheriff_id]`. -/
def depDelete (d : SheriffDeputy) (cid : Int) : SheriffDeputy :=
  { d with commands := d.commands.filter (fun p => ¬ p.1 = cid) }

/-- A status-change triple `(command, old_status, new_status)`, where `none`
stands for the Python `None` used for newly-added / removed commands. -/
abbrev StatusChange := SheriffDeputyCommand × Option String × Option String

/-- The fresh command built by `_update_from_deputy_info` when a reported
sheriff id is unknown (sheriff.py lines 178–184): note
`desired_runid := cmd_info.actual_runid` (adopt the observed intent). -/
def cmdFromInfo (ci : CmdInfo) : SheriffDeputyCommand :=
  { initCmd with
    sheriff_id := ci.sheriff_id
    name := ci.name
    nickname := ci.nickname
    group := ci.group
    desired_runid := ci.actual_runid
    auto_respawn := ci.auto_respawn }

/-- The per-command loop of `SheriffDeputy._update_from_deputy_info`
(sheriff.py lines 171–192).  `_add_command` asserts a nonzero sheriff id;
the assertion is modeled as an `.error`. -/
def depInfoLoop (d : SheriffDeputy) (changes : List StatusChange) :
    List CmdInfo → Except PyErr (SheriffDeputy × List StatusChange)
  | [] => .ok (d, changes)
  | ci :: rest =>
    match depLookup d ci.sheriff_id with
    | some cmd =>
      let old := some (statusOf cmd)
      let cmd2 := updateFromCmdInfo cmd ci
      let d2 := depWrite d ci.sheriff_id cmd2
      let new := some (statusOf cmd2)
      depInfoLoop d2 (if old ≠ new then changes ++ [(cmd2, old, new)] else changes)
        rest
    | none =>
      if ci.sheriff_id = 0 then .error .assertionError
      else
        let cmd := cmdFromInfo ci
        let d2 := depWrite d ci.sheriff_id cmd
        let cmd2 := updateFromCmdInfo cmd ci
        let d3 := depWrite d2 ci.sheriff_id cmd2
        let new := some (statusOf cmd2)
        depInfoLoop d3 (changes ++ [(cmd2, none, new)]) rest

/-- `SheriffDeputy._update_from_deputy_info` (sheriff.py lines 167–212):
per-command create-or-update, then deletion of commands that were scheduled
for removal and absent from the report, then timestamp and host metrics. -/
def updateFromDeputyInfo (d : SheriffDeputy) (info : InfoMsg) (now : Int) :
    Except PyErr (SheriffDeputy × List StatusChange) :=
  match depInfoLoop d [] info.cmds with
  | .error e => .error e
  | .ok (d2, changes) =>
    let updated_ids := info.cmds.map (·.sheriff_id)
    let removable := d2.commands.filter
      (fun p => p.2.scheduled_for_removal ∧ ¬ updated_ids.contains p.1)
    let changes2 := changes ++
      removable.map (fun p => (p.2, some (statusOf p.2), (none : Option String)))
    let d3 := removable.foldl (fun dd p => depDelete dd p.1) d2
    .ok ({ d3 with
      last_update_utime := now
      cpu_load := info.cpu_load
      phys_mem_total_bytes := info.phys_mem_total_bytes
      phys_mem_free_bytes := info.phys_mem_free_bytes }, changes2)

/-- `SheriffDeputy._schedule_command_for_removal` (sheriff.py lines 250–259):
set the flag; if the deputy has never reported
(`last_update_utime` falsy, i.e. 0), delete immediately with a `None` new
status, else keep with the re-derived status. -/
def depScheduleForRemoval (d : SheriffDeputy) (cmd : SheriffDeputyCommand) :
    SheriffDeputy × List StatusChange :=
  let old := some (statusOf cmd)
  let cmd2 := { cmd with scheduled_for_removal := true }
  if d.last_update_utime = 0 then
    (depDelete d cmd.sheriff_id, [(cmd2, old, none)])
  else
    (depWrite d cmd.sheriff_id cmd2, [(cmd2, old, some (statusOf cmd2))])

/-- One command entry of an outbound `PMD_ORDERS` message
(the wire type `bot_procman.sheriff_cmd_t`). -/
structure SheriffCmdMsg where
  name : String
  nickname : String
  sheriff_id : Int
  desired_runid : Int
  force_quit : Bool
  group : String
  auto_respawn : Bool
deriving DecidableEq

/-- An outbound `PMD_ORDERS` message (the wire type `bot_procman.orders_t`). -/
structure OrdersMsg where
  utime : Int
  host : String
  ncmds : Int
  sheriff_name : String
  cmds : List SheriffCmdMsg
  nvars : Int
  varnames : List String
  varvals : List String
deriving DecidableEq

/-- `SheriffDeputy._make_orders_message` (sheriff.py lines 261–284): every
command except those scheduled for removal, with `ncmds` matching. -/
def makeOrdersMessage (d : SheriffDeputy) (sheriff_name : String) (now : Int) :
    OrdersMsg :=
  let included := d.commands.filter (fun p => p.2.scheduled_for_removal = false)
  { utime := now
    host := d.name
    ncmds := included.length
    sheriff_name := sheriff_name
    cmds := included.map (fun p =>
      { name := p.2.name
        nickname := p.2.nickname
        sheriff_id := p.2.sheriff_id
        desired_runid := p.2.desired_runid
        force_quit := p.2.force_quit
        group := p.2.group
        auto_respawn := p.2.auto_respawn })
    nvars := d.vars.length
    varnames := d.vars.map (·.1)
    varvals := d.vars.map (·.2) }

/-- A script known to the sheriff.  Modelled from the spec: the class
`SheriffScript` lives in `bot_procman/sheriff_script.py`, which is not among
the sources; per the spec a script is a named ordered sequence of actions,
and the embedded functions consult only the name. -/
structure SheriffScript where
  name : String
deriving DecidableEq

/-- One activation frame of the script executor. -/
structure ScriptFrame where
  script : SheriffScript
  current_action : Int
deriving DecidableEq

/-- `ScriptExecutionContext` (sheriff.py lines 286–292): the activation
frame of the script executor.  In the source the sub-script frames hang off
a recursive `subscript_context` attribute; here that linked chain is
flattened into a list of frames (outermost first after the root), which the
embedded functions never consult beyond the root frame. -/
structure ScriptExecutionContext where
  script : SheriffScript
  current_action : Int
  subscript_chain : List ScriptFrame
deriving DecidableEq

/-- Events emitted through the gobject signal surface, plus the cooperative
timer effects (`gobject.timeout_add`). -/
inductive Event where
  | deputyInfoReceived (deputy : String)
  | commandAdded (deputy : String) (cmd : SheriffDeputyCommand)
  | commandRemoved (deputy : String) (cmd : SheriffDeputyCommand)
  | commandStatusChanged (cmd : SheriffDeputyCommand)
      (old_status : String) (new_status : String)
  | commandGroupChanged (cmd : SheriffDeputyCommand)
  | scriptFinished (script : String)
  | ordersPublished (msg : OrdersMsg)
  | timerScheduled (delay_ms : Int)
deriving DecidableEq

/-- The sheriff aggregate: the mutable attributes of class `Sheriff`
(sheriff.py lines 346–362) that the embedded operations read or write.
Python's `self._is_observer` is the field `is_observer` here;
`last_script_action_time` is `None` until the first immediate script action
runs, hence an `Option Int`. -/
structure Sheriff where
  deputies : List (String × SheriffDeputy)
  is_observer : Bool
  name : String
  next_sheriff_id : Int
  scripts : List SheriffScript
  active_script_context : Option ScriptExecutionContext
  waiting_on_commands : List SheriffDeputyCommand
  waiting_for_status : Option String
  last_script_action_time : Option Int
deriving DecidableEq

/-- Dict lookup `self.deputies[name]`. -/
def findDeputy (sh : Sheriff) (dn : String) : Option SheriffDeputy :=
  (sh.deputies.find? (fun p => p.1 = dn)).map (·.2)

/-- `Sheriff._get_or_make_deputy` (sheriff.py lines 364–367), as a state
update: ensure the deputy exists (appending a fresh one in dict insertion
order when absent). -/
def ensureDeputy (sh : Sheriff) (dn : String) : Sheriff :=
  if (sh.deputies.any (fun p => p.1 = dn)) then sh
  else { sh with deputies := sh.deputies ++ [(dn, initDeputy dn)] }

/-- Replace the deputy stored under a name. -/
def writeDeputy (sh : Sheriff) (dn : String) (d : SheriffDeputy) : Sheriff :=
  { sh with deputies :=
      sh.deputies.map (fun p => if p.1 = dn then (dn, d) else p) }

/-- First deputy owning the given sheriff id, as in
`Sheriff.get_command_deputy` (sheriff.py lines 543–547). -/
def getCommandDeputyName (sh : Sheriff) (cid : Int) : Option String :=
  (sh.deputies.find? (fun p => p.2.commands.any (fun q => q.1 = cid))).map (·.1)

/-- The command stored under a sheriff id in a deputy list, searching
deputies in order. -/
def findCommandIn (l : List (String × SheriffDeputy)) (cid : Int) :
    Option SheriffDeputyCommand :=
  match l.find? (fun p => p.2.commands.any (fun q => q.1 = cid)) with
  | none => none
  | some p => depLookup p.2 cid

/-- The command stored under a sheriff id, searching deputies in order. -/
def findCommand (sh : Sheriff) (cid : Int) : Option SheriffDeputyCommand :=
  findCommandIn sh.deputies cid

/-- Overwrite the command stored under a sheriff id in the first deputy that
owns it (the embedding of mutating a shared command object in place). -/
def replaceInDeputies (cid : Int) (c : SheriffDeputyCommand) :
    List (String × SheriffDeputy) → List (String × SheriffDeputy)
  | [] => []
  | (n, d) :: rest =>
    if d.commands.any (fun q => q.1 = cid) then (n, depWrite d cid c) :: rest
    else (n, d) :: replaceInDeputies cid c rest

/-- Overwrite the command stored under a sheriff id in whichever deputy owns
it. -/
def replaceCommand (sh : Sheriff) (cid : Int) (c : SheriffDeputyCommand) :
    Sheriff :=
  { sh with deputies := replaceInDeputies cid c sh.deputies }

/-- Python substring containment: `needle in hay` for strings.  Used because
`_check_wait_action_status` writes `acceptable_statuses = RUNNING` (a plain
string), so `cmd.status() not in acceptable_statuses` is a substring test. -/
def strIsSubstr (needle hay : List Char) : Bool :=
  match hay with
  | [] => needle = []
  | _ :: t => hay.take needle.length = needle || strIsSubstr needle t

/-- The upper bound of the sheriff-id probe: `1 << 30` in the source. -/
def sheriffIdBound : Int := 2 ^ 30

/-- The number of probes of `__get_free_sheriff_id`: `1 << 16`. -/
def sheriffIdProbes : Nat := 2 ^ 16

/-- The cursor advance of `__get_free_sheriff_id` (sheriff.py lines
428–430): increment, wrapping past `1 << 30` back to 1. -/
def sheriffIdAdvance (c : Int) : Int :=
  if c + 1 > sheriffIdBound then 1 else c + 1

/-- The probe loop of `Sheriff.__get_free_sheriff_id` (sheriff.py lines
417–434), generalized over the collision test `occ` (in the source:
membership of the cursor in some deputy's command dict).  Returns the
allocated id together with the advanced cursor; after `1 << 16` probes
that all collide it raises `RuntimeError`. -/
def getFreeSheriffIdLoop (occ : Int → Bool) :
    Int → Nat → Except PyErr (Int × Int)
  | _, 0 => .error .runtimeErrorNoFreeId
  | cursor, fuel + 1 =>
    let next := sheriffIdAdvance cursor
    if occ cursor then getFreeSheriffIdLoop occ next fuel
    else .ok (cursor, next)

/-- `Sheriff.__get_free_sheriff_id`, entered with the persisted cursor. -/
def getFreeSheriffId (occ : Int → Bool) (cursor : Int) :
    Except PyErr (Int × Int) :=
  getFreeSheriffIdLoop occ cursor sheriffIdProbes

/-- The collision test of `__get_free_sheriff_id`: the candidate id is a key
of some deputy's command dict. -/
def occupiedTest (sh : Sheriff) : Int → Bool := fun cid =>
  sh.deputies.any (fun p => p.2.commands.any (fun q => q.1 = cid))

/-- `Sheriff.send_orders` (sheriff.py lines 436–441): raises in observer
mode, else builds one orders message per deputy. -/
def sendOrders (sh : Sheriff) (now : Int) : Except PyErr (List OrdersMsg) :=
  if sh.is_observer then .error .modeViolationSend
  else .ok (sh.deputies.map (fun p => makeOrdersMessage p.2 sh.name now))

/-- `Sheriff._check_wait_action_status` (sheriff.py lines 660–684).  Note
the source computes `time_elapsed_ms = (timestamp_now() -
self.last_script_action_time) * 1000`: the difference is in microseconds,
and the multiplication (instead of a division by 1000) makes the
`< 100` early-return fire only within the first 100 *nanoseconds*.  The
acceptable-status test for `"running"` is the Python substring operator on
the string constant `RUNNING`. -/
def checkWaitActionStatus (sh : Sheriff) (now : Int) :
    Except PyErr (Sheriff × List Event) :=
  if sh.waiting_on_commands = [] then .ok (sh, [])
  else
    match sh.last_script_action_time with
    | none => .error .typeErrorNoneArith
    | some t =>
      let time_elapsed_ms := (now - t) * 1000
      if time_elapsed_ms < 100 then .ok (sh, [])
      else
        let strRunning : String := "running"
        let strStopped : String := "stopped"
        let cleared : Sheriff :=
          { sh with waiting_on_commands := [], waiting_for_status := none }
        if sh.waiting_for_status = some strRunning then
          if sh.waiting_on_commands.all
              (fun c => strIsSubstr (statusOf c).toList RUNNING.toList) then
            .ok (cleared, [.timerScheduled 0])
          else .ok (sh, [])
        else if sh.waiting_for_status = some strStopped then
          if sh.waiting_on_commands.all
              (fun c => statusOf c = STOPPED_OK ∨ statusOf c = STOPPED_ERROR) then
            .ok (cleared, [.timerScheduled 0])
          else .ok (sh, [])
        else .error .valueErrorInvalidStatus

/-- `Sheriff._maybe_emit_status_change_signals` (sheriff.py lines 369–380):
`None` old status means newly added, `None` new status removed; otherwise
the wait predicate is poked before the status-changed signal. -/
def maybeEmit (sh : Sheriff) (now : Int) (dep : String) :
    List StatusChange → Except PyErr (Sheriff × List Event)
  | [] => .ok (sh, [])
  | (cmd, old_st, new_st) :: rest =>
    if old_st = new_st then maybeEmit sh now dep rest
    else
      match old_st with
      | none =>
        match maybeEmit sh now dep rest with
        | .error e => .error e
        | .ok (sh2, evs) => .ok (sh2, Event.commandAdded dep cmd :: evs)
      | some o =>
        match new_st with
        | none =>
          match maybeEmit sh now dep rest with
          | .error e => .error e
          | .ok (sh2, evs) => .ok (sh2, Event.commandRemoved dep cmd :: evs)
        | some n =>
          match checkWaitActionStatus sh now with
          | .error e => .error e
          | .ok (sh2, evs1) =>
            match maybeEmit sh2 now dep rest with
            | .error e => .error e
            | .ok (sh3, evs2) =>
              .ok (sh3, evs1 ++ Event.commandStatusChanged cmd o n :: evs2)

/-- Truthiness of a Python bound-method object: always `True`.  In
`_on_pmd_info` (sheriff.py line 395) the source writes
`... and not self.is_observer` — without calling the method — so the operand
of `not` is the bound method itself, never the boolean flag. -/
def boundMethodTruthy : Bool := true

/-- `Sheriff._on_pmd_info` (sheriff.py lines 388–405), with the message
already decoded.  The age test is `(now - utime) * 1e-6 > 30`, i.e. the
message is more than 30 seconds old; it is conjoined with
`not self.is_observer`, which by `boundMethodTruthy` is always `False`, so
the drop branch is unreachable. -/
def onPmdInfo (sh : Sheriff) (msg : InfoMsg) (now : Int) :
    Except PyErr (Sheriff × List Event) :=
  if ((now - msg.utime) > 30 * 1000000) ∧ (! boundMethodTruthy) then
    .ok (sh, [])
  else
    let sh2 := ensureDeputy sh msg.host
    match findDeputy sh2 msg.host with
    | none => .ok (sh2, [])
    | some dep =>
      match updateFromDeputyInfo dep msg now with
      | .error e => .error e
      | .ok (dep2, changes) =>
        let sh3 := writeDeputy sh2 msg.host dep2
        match maybeEmit sh3 now msg.host changes with
        | .error e => .error e
        | .ok (sh4, evs) =>
          .ok (sh4, Event.deputyInfoReceived msg.host :: evs)

/-- `Sheriff.add_command` (sheriff.py lines 443–456).  The observer check
raises first, before any state is touched.  On an allocation failure the
source leaves `_next_sheriff_id` advanced past all probes; the `.error`
propagation here does not track that cursor drift (no claim concerns it). -/
def addCommand (sh : Sheriff) (deputy_name cmd_name cmd_nickname group : String)
    (auto_respawn : Bool) (now : Int) :
    Except PyErr (Sheriff × SheriffDeputyCommand × List Event) :=
  if sh.is_observer then .error .modeViolationAdd
  else
    let sh2 := ensureDeputy sh deputy_name
    match getFreeSheriffId (occupiedTest sh2) sh2.next_sheriff_id with
    | .error e => .error e
    | .ok (cid, cursor) =>
      let newcmd := { initCmd with
        name := cmd_name
        nickname := cmd_nickname
        group := group
        sheriff_id := cid
        auto_respawn := auto_respawn }
      if cid = 0 then .error .assertionError
      else
        let sh3 := { sh2 with next_sheriff_id := cursor }
        let sh4 :=
          match findDeputy sh3 deputy_name with
          | none => sh3
          | some d => writeDeputy sh3 deputy_name (depWrite d cid newcmd)
        match sendOrders sh4 now with
        | .error e => .error e
        | .ok msgs =>
          .ok (sh4, newcmd,
            Event.commandAdded deputy_name newcmd ::
              msgs.map Event.ordersPublished)

/-- The shared shape of `start_command` / `restart_command` / `stop_command`
(sheriff.py lines 458–489): observer check (raises before any mutation),
snapshot old status, mutate, snapshot new status, emit, broadcast. -/
def runCmdMutator (sh : Sheriff)
    (f : SheriffDeputyCommand → SheriffDeputyCommand) (cid : Int)
    (now : Int) : Except PyErr (Sheriff × List Event) :=
  if sh.is_observer then .error .modeViolationModify
  else
    match findCommand sh cid with
    | none => .error .keyErrorNoSuchCommand
    | some cmd =>
      let old := statusOf cmd
      let cmd2 := f cmd
      let sh2 := replaceCommand sh cid cmd2
      let new := statusOf cmd2
      let dep := (getCommandDeputyName sh2 cid).getD sh2.name
      match maybeEmit sh2 now dep [(cmd2, some old, some new)] with
      | .error e => .error e
      | .ok (sh3, evs) =>
        match sendOrders sh3 now with
        | .error e => .error e
        | .ok msgs => .ok (sh3, evs ++ msgs.map Event.ordersPublished)

/-- `Sheriff.start_command` (sheriff.py lines 458–467). -/
def startCommand (sh : Sheriff) (cid : Int) (now : Int) :
    Except PyErr (Sheriff × List Event) :=
  runCmdMutator sh cmdStart cid now

/-- `Sheriff.restart_command` (sheriff.py lines 469–478). -/
def restartCommand (sh : Sheriff) (cid : Int) (now : Int) :
    Except PyErr (Sheriff × List Event) :=
  runCmdMutator sh cmdRestart cid now

/-- `Sheriff.stop_command` (sheriff.py lines 480–489). -/
def stopCommand (sh : Sheriff) (cid : Int) (now : Int) :
    Except PyErr (Sheriff × List Event) :=
  runCmdMutator sh cmdStop cid now

/-- `Sheriff.set_command_name` (sheriff.py lines 491–492): a bare field
write with no observer-mode check and no possibility of raising. -/
def setCommandName (sh : Sheriff) (cid : Int) (newname : String) : Sheriff :=
  match findCommand sh cid with
  | none => sh
  | some cmd => replaceCommand sh cid { cmd with name := newname }

/-- `Sheriff.set_command_nickname` (sheriff.py lines 494–495): a bare field
write with no observer-mode check. -/
def setCommandNickname (sh : Sheriff) (cid : Int) (newnickname : String) :
    Sheriff :=
  match findCommand sh cid with
  | none => sh
  | some cmd => replaceCommand sh cid { cmd with nickname := newnickname }

/-- `Sheriff.set_auto_respawn` (sheriff.py lines 506–507): a bare field
write with no observer-mode check. -/
def setAutoRespawn (sh : Sheriff) (cid : Int) (newauto : Bool) : Sheriff :=
  match findCommand sh cid with
  | none => sh
  | some cmd => replaceCommand sh cid { cmd with auto_respawn := newauto }

/-- `Sheriff.set_command_group` (sheriff.py lines 497–504): observer check
raises first; otherwise update the group and emit only when it changed
(no orders broadcast). -/
def setCommandGroup (sh : Sheriff) (cid : Int) (group_name : String) :
    Except PyErr (Sheriff × List Event) :=
  if sh.is_observer then .error .modeViolationModify
  else
    match findCommand sh cid with
    | none => .ok (sh, [])
    | some cmd =>
      if cmd.group ≠ group_name then
        let cmd2 := { cmd with group := group_name }
        .ok (replaceCommand sh cid cmd2, [Event.commandGroupChanged cmd2])
      else .ok (sh, [])

/-- `Sheriff.schedule_command_for_removal` (sheriff.py lines 509–515):
observer check raises first; then delegate to the deputy, fan out, and
broadcast orders. -/
def scheduleCommandForRemoval (sh : Sheriff) (cid : Int) (now : Int) :
    Except PyErr (Sheriff × List Event) :=
  if sh.is_observer then .error .modeViolationRemove
  else
    match getCommandDeputyName sh cid with
    | none => .error .keyErrorNoSuchCommand
    | some dn =>
      match findDeputy sh dn with
      | none => .error .keyErrorNoSuchCommand
      | some d =>
        match depLookup d cid with
        | none => .error .keyErrorNoSuchCommand
        | some cmd =>
          let (d2, changes) := depScheduleForRemoval d cmd
          let sh2 := writeDeputy sh dn d2
          match maybeEmit sh2 now dn changes with
          | .error e => .error e
          | .ok (sh3, evs) =>
            match sendOrders sh3 now with
            | .error e => .error e
            | .ok msgs => .ok (sh3, evs ++ msgs.map Event.ordersPublished)

/-- `Sheriff.move_command_to_deputy` (sheriff.py lines 517–519): schedule
removal on the old deputy (which raises in observer mode, before anything
changes), then add a copy on the new one. -/
def moveCommandToDeputy (sh : Sheriff) (cid : Int) (newdeputy : String)
    (now : Int) : Except PyErr (Sheriff × List Event) :=
  match findCommand sh cid with
  | none =>
    if sh.is_observer then .error .modeViolationRemove
    else .error .keyErrorNoSuchCommand
  | some cmd =>
    match scheduleCommandForRemoval sh cid now with
    | .error e => .error e
    | .ok (sh2, evs1) =>
      match addCommand sh2 newdeputy cmd.name cmd.nickname cmd.group
          cmd.auto_respawn now with
      | .error e => .error e
      | .ok (sh3, _, evs2) => .ok (sh3, evs1 ++ evs2)

/-- `Sheriff._finish_script_execution` (sheriff.py lines 652–658): reads
`self.active_script_context.script` *before* the None check, so with no
active context the attribute access raises.  With an active context the
context and waits are cleared and `script-finished` is emitted (the script
object of a context frame is never `None`, hence always truthy). -/
def finishScriptExecution (sh : Sheriff) :
    Except PyErr (Sheriff × List Event) :=
  match sh.active_script_context with
  | none => .error .attributeErrorNoneContext
  | some ctx =>
    let sh2 : Sheriff := { sh with
      active_script_context := none
      waiting_on_commands := []
      waiting_for_status := none }
    .ok (sh2, [Event.scriptFinished ctx.script.name])

/-- `Sheriff.abort_script` (sheriff.py lines 750–751): exactly
`_finish_script_execution`. -/
def abortScript (sh : Sheriff) : Except PyErr (Sheriff × List Event) :=
  finishScriptExecution sh

end Procman

namespace SheriffConfig

/-- Text is modeled as a list of characters (Python 2 byte strings; all the
characters the grammar itself consults are ASCII). -/
abbrev Str := List Char

/-- The open-brace character (`OpenStruct`). -/
def braceOpen : Char := '\x7b'

/-- The close-brace character (`CloseStruct`). -/
def braceClose : Char := '\x7d'

/-- Python `str.isspace` over ASCII. -/
def pyIsSpace (c : Char) : Bool :=
  c = ' ' || c = '\t' || c = '\n' || c = '\r' || c = '\x0b' || c = '\x0c'

/-- Python `str.isalpha` over ASCII. -/
def pyIsAlpha (c : Char) : Bool :=
  ('a' ≤ c && c ≤ 'z') || ('A' ≤ c && c ≤ 'Z')

/-- Python `str.isdigit` over ASCII. -/
def pyIsDigit (c : Char) : Bool := '0' ≤ c && c ≤ '9'

/-- Python `str.isalnum` over ASCII. -/
def pyIsAlnum (c : Char) : Bool := pyIsAlpha c || pyIsDigit c

/-- A character that may continue an identifier token:
`c.isalnum() or c in "_-"` (sheriff_config.py line 122). -/
def identChar (c : Char) : Bool := pyIsAlnum c || c = '_' || c = '-'

/-- A character that may start an identifier token:
`c.isalpha() or c == "_"` (sheriff_config.py line 119). -/
def identStart (c : Char) : Bool := pyIsAlpha c || c = '_'

/-- `Tokenizer._unescape` (sheriff_config.py lines 72–77): `\n`, `\r`, `\t`
unescape to control characters; any other escaped character stands for
itself. -/
def unescapeChar (c : Char) : Char :=
  if c = 'n' then '\n' else if c = 'r' then '\r' else if c = 't' then '\t'
  else c

/-- `escape_str` (sheriff_config.py lines 138–144): backslash-escape only
`\` and `"`. -/
def escapeStr : Str → Str
  | [] => []
  | c :: cs =>
    if c = '\\' || c = '"' then '\\' :: c :: escapeStr cs
    else c :: escapeStr cs

/-- Errors of the lexer/parser.  The source raises `ParseError` carrying a
line number, column, line text and message; the round-trip statements only
observe *that* parsing failed and at which raise site, so the positions
are elided and the constructor names the site. -/
inductive PErr where
  /-- `ParseError ... "Unterminated string constant"` (lexer). -/
  | unterminated : PErr
  /-- `ParseError ... "Invalid character"` (lexer). -/
  | invalidChar : PErr
  /-- Any `ParseError` raised by a `_fail` / `_eat_token_or_fail` /
      `_parse_*_one_of` site of the recursive-descent parser. -/
  | parseFail : PErr
  /-- The `assert name not in ...` of `ConfigNode.add_group` /
      `ConfigNode.add_script` (an `AssertionError` in the source). -/
  | dupName : PErr
  /-- Artifact of the fuel-indexed loops; never returned by the wrappers,
      which always pass sufficient fuel. -/
  | fuelExhausted : PErr
deriving DecidableEq

/-- The token kinds of the lexer (sheriff_config.py lines 1–9).  The end of
the token list plays the role of `TokEOF`; `TokInteger` carries the digit
string (the parser applies `int()` at use sites). -/
inductive Tok where
  | ident (s : Str)
  | str (s : Str)
  | int (s : Str)
  | assign
  | semi
  | openBrace
  | closeBrace
  | comment (s : Str)
deriving DecidableEq

/-- Whether a token is a comment (the parser's `_get_token` swallows
comment tokens, sheriff_config.py lines 306–311). -/
def Tok.isComment : Tok → Bool
  | .comment _ => true
  | _ => false

/-- The in-string loop of `Tokenizer.next_token` (sheriff_config.py lines
107–117), entered after the opening quote: a raw newline is an error; a
backslash escapes the next character (appended without a terminator check);
a quote or the end of input terminates the token.  Returns the string
contents and the remaining characters. -/
def lexString : Str → Except PErr (Str × Str)
  | [] => .ok ([], [])
  | c :: cs =>
    if c = '\n' then .error .unterminated
    else if c = '\\' then
      match cs with
      | [] => .ok ([], [])
      | d :: ds =>
        match lexString ds with
        | .error e => .error e
        | .ok (s, r) => .ok (unescapeChar d :: s, r)
    else if c = '"' then .ok ([], cs)
    else
      match lexString cs with
      | .error e => .error e
      | .ok (s, r) => .ok (c :: s, r)

/-- One step of `Tokenizer.next_token` (sheriff_config.py lines 79–136):
skip whitespace, then dispatch on the first character exactly in the
source's order (the four one-character tokens, comment, string, identifier,
integer, invalid character).  Returns `none` at end of input (`TokEOF`),
else the token and the remaining characters. -/
def scanToken : Str → Except PErr (Option (Tok × Str))
  | [] => .ok none
  | c :: cs =>
    if pyIsSpace c then scanToken cs
    else if c = '=' then .ok (some (Tok.assign, cs))
    else if c = ';' then .ok (some (Tok.semi, cs))
    else if c = braceOpen then .ok (some (Tok.openBrace, cs))
    else if c = braceClose then .ok (some (Tok.closeBrace, cs))
    else if c = '#' then
      .ok (some (Tok.comment (c :: cs.takeWhile (fun d => ¬ d = '\n')),
        (cs.dropWhile (fun d => ¬ d = '\n')).tail))
    else if c = '"' then
      match lexString cs with
      | .error e => .error e
      | .ok (s, rest) => .ok (some (Tok.str s, rest))
    else if identStart c then
      .ok (some (Tok.ident (c :: cs.takeWhile identChar),
        cs.dropWhile identChar))
    else if pyIsDigit c then
      .ok (some (Tok.int (c :: cs.takeWhile pyIsDigit),
        cs.dropWhile pyIsDigit))
    else .error .invalidChar

/-- Fuel-indexed tokenization loop: one token per unit of fuel.  Since a
produced token always consumes at least one character, `length + 1` fuel
suffices (see `tokenizeF_congr`). -/
def tokenizeF : Nat → Str → Except PErr (List Tok)
  | 0, _ => .error .fuelExhausted
  | f + 1, l =>
    match scanToken l with
    | .error e => .error e
    | .ok none => .ok []
    | .ok (some (t, rest)) =>
      match tokenizeF f rest with
      | .error e => .error e
      | .ok ts => .ok (t :: ts)

/-- Tokenize a whole text: `length + 1` fuel always suffices. -/
def tokenize (l : Str) : Except PErr (List Tok) := tokenizeF (l.length + 1) l

/-- `CommandNode` (sheriff_config.py lines 146–153): the attribute dict.
The dict starts with keys `exec`, `host` (value `None`) and `group`,
`nickname` (value `""`); the parser may additionally insert an
`auto_respawn` key.  `Option` models a `None` value for `exec`/`host` and
an absent key for `auto_respawn`; dict equality is field equality. -/
structure CommandNode where
  exec : Option Str
  host : Option Str
  group : Str
  nickname : Str
  auto_respawn : Option Str
deriving DecidableEq

/-- `CommandNode.__init__`. -/
def initCommandNode : CommandNode where
  exec := none
  host := none
  group := []
  nickname := []
  auto_respawn := none

/-- The action classes of sheriff_config.py (lines 195–246), one
constructor per class, carrying the same attributes.  For
`StartStopRestartActionNode` the constructor stores `ident = None` when
`ident_type == "everything"`. -/
inductive ActionNode where
  | startStopRestart (action_type : Str) (ident_type : Str)
      (ident : Option Str) (wait_status : Option Str)
  | waitMs (delay_ms : Int)
  | waitStatus (ident_type : Str) (ident : Str) (wait_status : Str)
  | runScript (script_name : Str)
deriving DecidableEq

/-- `ScriptNode` (sheriff_config.py lines 248–264). -/
structure ScriptNode where
  name : Str
  actions : List ActionNode
deriving DecidableEq

/-- `GroupNode` (sheriff_config.py lines 177–193). -/
structure GroupNode where
  name : Str
  commands : List CommandNode
deriving DecidableEq

/-- `GroupNode.add_command` (sheriff_config.py lines 182–184): stamp the
group name into the command's `group` attribute, then append. -/
def groupAddCommand (g : GroupNode) (c : CommandNode) : GroupNode :=
  { g with commands := g.commands ++ [{ c with group := g.name }] }

/-- `ConfigNode` (sheriff_config.py lines 266–298): dicts of groups and
scripts keyed by name, in insertion order; `__init__` installs the unnamed
root group. -/
structure ConfigNode where
  groups : List GroupNode
  scripts : List ScriptNode
deriving DecidableEq

/-- `ConfigNode.__init__`. -/
def initConfigNode : ConfigNode where
  groups := [{ name := [], commands := [] }]
  scripts := []

/-- `ConfigNode.add_command` (sheriff_config.py lines 286–288): append to
the unnamed root group (which stamps the empty group name). -/
def configAddCommand (cfg : ConfigNode) (c : CommandNode) : ConfigNode :=
  let gs := cfg.groups.map
    (fun g => if g.name = [] then groupAddCommand g c else g)
  { cfg with groups := gs }

/-- `ConfigNode.add_group` without the duplicate-name assert (the parser,
the only caller in the embedded paths, checks it and errors). -/
def configAddGroup (cfg : ConfigNode) (g : GroupNode) : ConfigNode :=
  { cfg with groups := cfg.groups ++ [g] }

/-- `ConfigNode.add_script` without the duplicate-name assert. -/
def configAddScript (cfg : ConfigNode) (s : ScriptNode) : ConfigNode :=
  { cfg with scripts := cfg.scripts ++ [s] }

/-- Decimal digits of a natural number, most significant first, as printed
by Python `"%d"`. -/
def natToStr (n : Nat) : Str :=
  if h : n < 10 then [Char.ofNat (48 + n)]
  else natToStr (n / 10) ++ [Char.ofNat (48 + n % 10)]
decreasing_by
  exact Nat.div_lt_self (by omega) (by omega)

/-- Python `"%d"` on an int. -/
def intToStr (i : Int) : Str :=
  if i < 0 then '-' :: natToStr i.natAbs else natToStr i.toNat

/-- Python `int()` of a digit string, as applied to a `TokInteger` value
(sheriff_config.py line 426). -/
def parseDigits (s : Str) : Nat :=
  s.foldl (fun acc c => acc * 10 + (c.toNat - 48)) 0

/-- Lexicographic byte comparison of two strings, Python `<=`. -/
def pyStrLe : Str → Str → Bool
  | [], _ => true
  | _ :: _, [] => false
  | a :: as, b :: bs =>
    if a.toNat < b.toNat then true
    else if b.toNat < a.toNat then false
    else pyStrLe as bs

/-- ASCII lower-casing of one character, Python `str.lower` per byte. -/
def pyLowerChar (c : Char) : Char :=
  if 'A' ≤ c && c ≤ 'Z' then Char.ofNat (c.toNat + 32) else c

/-- The sort key of `ConfigNode.__str__`: the name lower-cased. -/
def lowerName (s : Str) : Str := s.map pyLowerChar

/-- Stable insertion into a sorted list: the new element goes before the
first element it compares `≤` to. -/
def pyInsert (le : α → α → Bool) (x : α) : List α → List α
  | [] => [x]
  | y :: ys => if le x y then x :: y :: ys else y :: pyInsert le x ys

/-- A stable sort.  Python's `sorted` is stable, and a stable sort by a
total preorder is unique, so this insertion sort produces the same list as
the source's `sorted(..., key=lambda g: g.name.lower())`. -/
def pySorted (le : α → α → Bool) : List α → List α
  | [] => []
  | x :: xs => pyInsert le x (pySorted le xs)

/-- Comparison of two groups by lower-cased name. -/
def groupLe (g1 g2 : GroupNode) : Bool :=
  pyStrLe (lowerName g1.name) (lowerName g2.name)

/-- Comparison of two scripts by lower-cased name. -/
def scriptLe (s1 s2 : ScriptNode) : Bool :=
  pyStrLe (lowerName s1.name) (lowerName s2.name)

/-- Literal fragments of the serializer (braces written as `\x7b`/`\x7d`). -/
def chunkCmdQuote : Str := "cmd \"".toList

/-- `cmd {` — the bare command head. -/
def chunkCmdBrace : Str := "cmd \x7b".toList

/-- `" {` — after a quoted name. -/
def chunkQuoteBrace : Str := "\" \x7b".toList

/-- `group "` — the named-group head. -/
def chunkGroupQuote : Str := "group \"".toList

/-- `" {` followed by a newline — the named-group head tail. -/
def chunkQuoteBraceNl : Str := "\" \x7b\n".toList

/-- Newline, closing brace, newline — the group/script tail. -/
def chunkNlCloseNl : Str := "\n\x7d\n".toList

/-- A single closing brace. -/
def chunkClose : Str := "\x7d".toList

/-- ` = "` between an attribute key and its value. -/
def chunkEqQuote : Str := " = \"".toList

/-- `";` after an attribute value. -/
def chunkQuoteSemi : Str := "\";".toList

/-- `script "` — the script head. -/
def chunkScriptQuote : Str := "script \"".toList

/-- Four spaces of indentation. -/
def chunkSp4 : Str := "    ".toList

/-- Newline plus four spaces before each script action. -/
def chunkNlSp4 : Str := "\n    ".toList

/-- ` wait "` of a start/stop/restart action. -/
def chunkWaitQuote : Str := " wait \"".toList

/-- `" status "` of a wait-status action. -/
def chunkStatusQuote : Str := "\" status \"".toList

/-- `wait ms ` of a wait-ms action. -/
def chunkWaitMs : Str := "wait ms ".toList

/-- `wait ` of a wait-status action. -/
def chunkWaitSp : Str := "wait ".toList

/-- `run_script "` of a run-script action. -/
def chunkRunScriptQuote : Str := "run_script \"".toList

/-- `"    " * indent`. -/
def indentStr (ind : Nat) : Str := List.replicate (4 * ind) ' '

/-- Join lines with newlines (`"\n".join`). -/
def nlJoin (ls : List Str) : Str := List.intercalate ['\n'] ls

/-- One `key = "value";` attribute line of `CommandNode._get_str`. -/
def attrLine (s : Str) (key : Str) (val : Str) : Str :=
  s ++ chunkSp4 ++ key ++ chunkEqQuote ++ escapeStr val ++ chunkQuoteSemi

/-- Keyword strings of the grammar. -/
def kwExec : Str := "exec".toList

/-- `host`. -/
def kwHost : Str := "host".toList

/-- `nickname`. -/
def kwNickname : Str := "nickname".toList

/-- `auto_respawn`. -/
def kwAutoRespawn : Str := "auto_respawn".toList

/-- `group`. -/
def kwGroup : Str := "group".toList

/-- `cmd`. -/
def kwCmd : Str := "cmd".toList

/-- `script`. -/
def kwScript : Str := "script".toList

/-- `start`. -/
def kwStart : Str := "start".toList

/-- `stop`. -/
def kwStop : Str := "stop".toList

/-- `restart`. -/
def kwRestart : Str := "restart".toList

/-- `wait`. -/
def kwWait : Str := "wait".toList

/-- `ms`. -/
def kwMs : Str := "ms".toList

/-- `status`. -/
def kwStatus : Str := "status".toList

/-- `everything`. -/
def kwEverything : Str := "everything".toList

/-- `run_script`. -/
def kwRunScript : Str := "run_script".toList

/-- `running`. -/
def kwRunning : Str := "running".toList

/-- `stopped`. -/
def kwStopped : Str := "stopped".toList

/-- The attribute lines of `CommandNode._get_str` (sheriff_config.py lines
163–170): `pairs.sort()` orders the keys `auto_respawn < exec < group <
host < nickname`; `group` and `nickname` are skipped by the explicit key
check and falsy values (`None` or the empty string) by `if not val`. -/
def cmdAttrLines (s : Str) (c : CommandNode) : List Str :=
  (match c.auto_respawn with
   | some v => if v = [] then [] else [attrLine s kwAutoRespawn v]
   | none => []) ++
  (match c.exec with
   | some v => if v = [] then [] else [attrLine s kwExec v]
   | none => []) ++
  (match c.host with
   | some v => if v = [] then [] else [attrLine s kwHost v]
   | none => [])

/-- `CommandNode._get_str` (sheriff_config.py lines 155–172): the head line
(with the escaped nickname when nonempty), the sorted attribute lines, and
the closing brace, joined by newlines. -/
def cmdGetStr (ind : Nat) (c : CommandNode) : Str :=
  let s := indentStr ind
  let head := if c.nickname = [] then s ++ chunkCmdBrace
    else s ++ chunkCmdQuote ++ escapeStr c.nickname ++ chunkQuoteBrace
  nlJoin (head :: (cmdAttrLines s c ++ [s ++ chunkClose]))

/-- `GroupNode.__str__` (sheriff_config.py lines 186–193): the unnamed
group prints its commands bare at indent 0; a named group wraps them at
indent 1.  Note the group NAME is interpolated raw — `escape_str` is not
applied to it (unlike every other string the serializer emits). -/
def groupStr (g : GroupNode) : Str :=
  if g.name = [] then nlJoin (g.commands.map (cmdGetStr 0))
  else chunkGroupQuote ++ g.name ++ chunkQuoteBraceNl ++
    nlJoin (g.commands.map (cmdGetStr 1)) ++ chunkNlCloseNl

/-- The `__str__` of the four action classes (sheriff_config.py lines
209–218, 225–226, 236–238, 245–246). -/
def actionStr : ActionNode → Str
  | .startStopRestart action_type ident_type ident wait_status =>
    let ident_str := if ident_type = kwEverything then ident_type
      else ident_type ++ [' ', '"'] ++ escapeStr (ident.getD []) ++ ['"']
    (match wait_status with
     | some ws => action_type ++ [' '] ++ ident_str ++ chunkWaitQuote ++
         ws ++ chunkQuoteSemi
     | none => action_type ++ [' '] ++ ident_str ++ [';'])
  | .waitMs delay_ms => chunkWaitMs ++ intToStr delay_ms ++ [';']
  | .waitStatus ident_type ident wait_status =>
    chunkWaitSp ++ ident_type ++ [' ', '"'] ++ escapeStr ident ++
      chunkStatusQuote ++ wait_status ++ chunkQuoteSemi
  | .runScript script_name =>
    chunkRunScriptQuote ++ escapeStr script_name ++ chunkQuoteSemi

/-- `ScriptNode.__str__` (sheriff_config.py lines 259–264). -/
def scriptStr (s : ScriptNode) : Str :=
  chunkScriptQuote ++ escapeStr s.name ++ chunkQuoteBrace ++
    (s.actions.map (fun a => chunkNlSp4 ++ actionStr a)).flatten ++
    chunkNlCloseNl

/-- `ConfigNode.__str__` (sheriff_config.py lines 290–298): groups sorted
case-insensitively by name, a newline, then scripts likewise sorted. -/
def configStr (cfg : ConfigNode) : Str :=
  nlJoin ((pySorted groupLe cfg.groups).map groupStr) ++ ['\n'] ++
    nlJoin ((pySorted scriptLe cfg.scripts).map scriptStr)

/-- Whether an attribute name is recognized inside a `cmd` block
(sheriff_config.py line 367). -/
def allowedAttr (a : Str) : Bool :=
  a = kwExec || a = kwHost || a = kwNickname || a = kwAutoRespawn ||
    a = kwGroup

/-- Write one parsed attribute into the command node
(`cmd.attributes[attrib_name] = attrib_val`). -/
def setAttr (c : CommandNode) (key : Str) (v : Str) : CommandNode :=
  if key = kwExec then { c with exec := some v }
  else if key = kwHost then { c with host := some v }
  else if key = kwNickname then { c with nickname := v }
  else if key = kwAutoRespawn then { c with auto_respawn := some v }
  else if key = kwGroup then { c with group := v }
  else c

/-- `Parser._parse_command_param_list` (sheriff_config.py lines 363–378):
while the next token is an identifier, parse `name = "value";`, failing on
an unrecognized attribute, a malformed assignment, or a second `nickname`
when one is already set (including one set from the `cmd "name"` head). -/
def parseCommandParamList (c : CommandNode) :
    List Tok → Except PErr (CommandNode × List Tok)
  | .ident a :: rest =>
    if ¬ allowedAttr a then .error .parseFail
    else
      match rest with
      | .assign :: .str v :: .semi :: rest2 =>
        if a = kwNickname ∧ c.nickname ≠ [] then .error .parseFail
        else parseCommandParamList (setAttr c a v) rest2
      | _ => .error .parseFail
  | ts => .ok (c, ts)

/-- `Parser._parse_command` (sheriff_config.py lines 380–389): an optional
string token is the nickname, then `{`, the parameter list, `}`, and a
check that `exec` is truthy (neither `None` nor empty). -/
def parseCommand (ts : List Tok) : Except PErr (CommandNode × List Tok) :=
  let p : CommandNode × List Tok :=
    match ts with
    | .str v :: rest => ({ initCommandNode with nickname := v }, rest)
    | _ => (initCommandNode, ts)
  match p.2 with
  | .openBrace :: ts2 =>
    (match parseCommandParamList p.1 ts2 with
     | .error e => .error e
     | .ok (c, ts3) =>
       match ts3 with
       | .closeBrace :: ts4 =>
         (match c.exec with
          | some (_ :: _) => .ok (c, ts4)
          | _ => .error .parseFail)
       | _ => .error .parseFail)
  | _ => .error .parseFail

/-- Fuel-indexed `Parser._parse_command_list` (sheriff_config.py lines
391–395): `while eat(Identifier) and val == "cmd"`.  A non-`cmd` identifier
is consumed by the loop condition before the loop exits, exactly as in the
source. -/
def parseCommandListF : Nat → List Tok →
    Except PErr (List CommandNode × List Tok)
  | 0, _ => .error .fuelExhausted
  | fuel + 1, .ident a :: rest =>
    if a = kwCmd then
      match parseCommand rest with
      | .error e => .error e
      | .ok (c, rest2) =>
        match parseCommandListF fuel rest2 with
        | .error e => .error e
        | .ok (cs, rest3) => .ok (c :: cs, rest3)
    else .ok ([], rest)
  | _ + 1, ts => .ok ([], ts)

/-- `Parser._parse_command_list` with sufficient fuel. -/
def parseCommandList (ts : List Tok) :
    Except PErr (List CommandNode × List Tok) :=
  parseCommandListF (ts.length + 1) ts

/-- `Parser._parse_group` (sheriff_config.py lines 397–405): group name
string, `{`, command list (each added with `add_command`, which stamps the
group name), `}`. -/
def parseGroup (ts : List Tok) : Except PErr (GroupNode × List Tok) :=
  match ts with
  | .str name :: .openBrace :: ts2 =>
    (match parseCommandList ts2 with
     | .error e => .error e
     | .ok (cs, ts3) =>
       match ts3 with
       | .closeBrace :: ts4 =>
         .ok (cs.foldl groupAddCommand { name := name, commands := [] }, ts4)
       | _ => .error .parseFail)
  | _ => .error .parseFail

/-- `Parser._parse_start_stop_restart_action` (sheriff_config.py lines
407–420): ident type one of `everything`/`cmd`/`group`, an ident string
unless `everything`, then either `;` or `wait "running|stopped" ;`. -/
def parseSSR (action_type : Str) (ts : List Tok) :
    Except PErr (ActionNode × List Tok) :=
  match ts with
  | .ident it :: ts2 =>
    if ¬ (it = kwEverything || it = kwCmd || it = kwGroup) then
      .error .parseFail
    else if it = kwEverything then
      match ts2 with
      | .semi :: ts3 =>
        .ok (.startStopRestart action_type it none none, ts3)
      | .ident w :: .str ws :: .semi :: ts3 =>
        if w = kwWait ∧ (ws = kwRunning ∨ ws = kwStopped) then
          .ok (.startStopRestart action_type it none (some ws), ts3)
        else .error .parseFail
      | _ => .error .parseFail
    else
      match ts2 with
      | .str ident :: .semi :: ts3 =>
        .ok (.startStopRestart action_type it (some ident) none, ts3)
      | .str ident :: .ident w :: .str ws :: .semi :: ts3 =>
        if w = kwWait ∧ (ws = kwRunning ∨ ws = kwStopped) then
          .ok (.startStopRestart action_type it (some ident) (some ws), ts3)
        else .error .parseFail
      | _ => .error .parseFail
  | _ => .error .parseFail

/-- `Parser._parse_wait_action` (sheriff_config.py lines 422–434): either
`ms INT ;` (with Python `int()` applied to the digit string) or
`cmd|group "ident" status "running|stopped" ;`. -/
def parseWaitAction (ts : List Tok) : Except PErr (ActionNode × List Tok) :=
  match ts with
  | .ident wt :: ts2 =>
    if ¬ (wt = kwMs || wt = kwCmd || wt = kwGroup) then .error .parseFail
    else if wt = kwMs then
      match ts2 with
      | .int ds :: .semi :: ts3 =>
        .ok (.waitMs (Int.ofNat (parseDigits ds)), ts3)
      | _ => .error .parseFail
    else
      match ts2 with
      | .str ident :: .ident st :: .str ws :: .semi :: ts3 =>
        if st = kwStatus ∧ (ws = kwRunning ∨ ws = kwStopped) then
          .ok (.waitStatus wt ident ws, ts3)
        else .error .parseFail
      | _ => .error .parseFail
  | _ => .error .parseFail

/-- `Parser._parse_run_script` (sheriff_config.py lines 436–439). -/
def parseRunScript (ts : List Tok) : Except PErr (ActionNode × List Tok) :=
  match ts with
  | .str n :: .semi :: ts2 => .ok (.runScript n, ts2)
  | _ => .error .parseFail

/-- Fuel-indexed action loop of `Parser._parse_script_action_list`
(sheriff_config.py lines 444–454): while the next token is an identifier,
dispatch on it. -/
def parseActionLoopF : Nat → List Tok →
    Except PErr (List ActionNode × List Tok)
  | 0, _ => .error .fuelExhausted
  | fuel + 1, .ident a :: rest =>
    if a = kwStart || a = kwStop || a = kwRestart then
      match parseSSR a rest with
      | .error e => .error e
      | .ok (act, rest2) =>
        match parseActionLoopF fuel rest2 with
        | .error e => .error e
        | .ok (as, rest3) => .ok (act :: as, rest3)
    else if a = kwWait then
      match parseWaitAction rest with
      | .error e => .error e
      | .ok (act, rest2) =>
        match parseActionLoopF fuel rest2 with
        | .error e => .error e
        | .ok (as, rest3) => .ok (act :: as, rest3)
    else if a = kwRunScript then
      match parseRunScript rest with
      | .error e => .error e
      | .ok (act, rest2) =>
        match parseActionLoopF fuel rest2 with
        | .error e => .error e
        | .ok (as, rest3) => .ok (act :: as, rest3)
    else .error .parseFail
  | _ + 1, ts => .ok ([], ts)

/-- `Parser._parse_script_action_list` (sheriff_config.py lines 441–456):
`{`, the action loop, `}`. -/
def parseScriptActionList (ts : List Tok) :
    Except PErr (List ActionNode × List Tok) :=
  match ts with
  | .openBrace :: ts2 =>
    (match parseActionLoopF (ts2.length + 1) ts2 with
     | .error e => .error e
     | .ok (as, ts3) =>
       match ts3 with
       | .closeBrace :: ts4 => .ok (as, ts4)
       | _ => .error .parseFail)
  | _ => .error .parseFail

/-- `Parser._parse_script` (sheriff_config.py lines 458–463). -/
def parseScript (ts : List Tok) : Except PErr (ScriptNode × List Tok) :=
  match ts with
  | .str name :: ts2 =>
    (match parseScriptActionList ts2 with
     | .error e => .error e
     | .ok (as, ts3) => .ok ({ name := name, actions := as }, ts3))
  | _ => .error .parseFail

/-- Fuel-indexed `Parser._parse_listdecl` (sheriff_config.py lines
465–483): at EOF return the accumulated node; otherwise dispatch on the
leading identifier `cmd`/`group`/`script`, erroring on anything else;
`add_group` and `add_script` assert that the name is not already bound. -/
def parseListdeclF : Nat → ConfigNode → List Tok → Except PErr ConfigNode
  | 0, _, _ => .error .fuelExhausted
  | _ + 1, node, [] => .ok node
  | fuel + 1, node, .ident a :: rest =>
    if a = kwCmd then
      match parseCommand rest with
      | .error e => .error e
      | .ok (c, rest2) => parseListdeclF fuel (configAddCommand node c) rest2
    else if a = kwGroup then
      match parseGroup rest with
      | .error e => .error e
      | .ok (g, rest2) =>
        if node.groups.any (fun gg => gg.name = g.name) then .error .dupName
        else parseListdeclF fuel (configAddGroup node g) rest2
    else if a = kwScript then
      match parseScript rest with
      | .error e => .error e
      | .ok (s, rest2) =>
        if node.scripts.any (fun ss => ss.name = s.name) then .error .dupName
        else parseListdeclF fuel (configAddScript node s) rest2
    else .error .parseFail
  | _ + 1, _, _ :: _ => .error .parseFail

/-- `Parser.parse` on an already-tokenized stream: comment tokens are
swallowed by `_get_token`, then `_parse_listdecl` runs on a fresh
`ConfigNode`. -/
def parseTokens (ts : List Tok) : Except PErr ConfigNode :=
  let ts2 := ts.filter (fun t => ¬ t.isComment)
  parseListdeclF (ts2.length + 1) initConfigNode ts2

/-- `Parser.parse` (sheriff_config.py lines 485–490) from raw text. -/
def parseConfig (text : Str) : Except PErr ConfigNode :=
  match tokenize text with
  | .error e => .error e
  | .ok ts => parseTokens ts

/-- Lookup of a group by name (dict access on `ConfigNode.groups`). -/
def findGroup (cfg : ConfigNode) (n : Str) : Option GroupNode :=
  cfg.groups.find? (fun g => g.name = n)

/-- Lookup of a script by name (dict access on `ConfigNode.scripts`). -/
def findScript (cfg : ConfigNode) (n : Str) : Option ScriptNode :=
  cfg.scripts.find? (fun s => s.name = n)

/-- Structural equality of two configuration trees as the specification
means it: the group and script dicts hold the same names bound to the same
nodes (dict equality is insertion-order-insensitive), commands and actions
compared structurally in order. -/
def ConfigEquiv (a b : ConfigNode) : Prop :=
  (∀ n, findGroup a n = findGroup b n) ∧
  (∀ n, findScript a n = findScript b n)

/-- A string with no raw newline: the serializer escapes only `\` and `"`,
so a newline would be emitted raw inside a quoted literal, where the lexer
rejects it (`Unterminated string constant`). -/
def noNL (s : Str) : Bool := s.all (fun c => ¬ c = '\n')

/-- A string safe to interpolate *unescaped* between quotes, as
`GroupNode.__str__` does with the group name: no newline, no backslash, no
quote. -/
def rawSafe (s : Str) : Bool :=
  s.all (fun c => ¬ c = '\n' ∧ ¬ c = '\\' ∧ ¬ c = '"')

/-- A validly-constructed command node whose serialization survives the
round trip: `exec` and `host` present and non-empty (the spec requires
both; the serializer drops falsy values, which the parser then rejects or
loses), `auto_respawn` non-empty when present, and no raw newlines in any
emitted value. -/
def goodCommand (c : CommandNode) : Bool :=
  (match c.exec with
   | some v => ¬ v = [] && noNL v
   | none => false) &&
  (match c.host with
   | some v => ¬ v = [] && noNL v
   | none => false) &&
  (match c.auto_respawn with
   | some v => ¬ v = [] && noNL v
   | none => true) &&
  noNL c.nickname

/-- A validly-constructed action: the constructor assertions of the action
classes (action/ident kinds, wait statuses, `ident = None` iff
`everything`), the spec's `delay_ms ≥ 0`, and no raw newlines in the
identifiers. -/
def goodAction : ActionNode → Bool
  | .startStopRestart action_type ident_type ident wait_status =>
    (action_type = kwStart || action_type = kwStop ||
      action_type = kwRestart) &&
    ((ident_type = kwEverything && ident = none) ||
     ((ident_type = kwCmd || ident_type = kwGroup) &&
      match ident with
      | some i => noNL i
      | none => false)) &&
    (match wait_status with
     | none => true
     | some w => w = kwRunning || w = kwStopped)
  | .waitMs d => decide (0 ≤ d)
  | .waitStatus ident_type ident wait_status =>
    (ident_type = kwCmd || ident_type = kwGroup) && noNL ident &&
    (wait_status = kwRunning || wait_status = kwStopped)
  | .runScript n => noNL n

/-- A validly-constructed script: newline-free name, valid actions. -/
def goodScript (s : ScriptNode) : Bool :=
  noNL s.name && s.actions.all goodAction

/-- A validly-constructed group: the name survives raw interpolation, and
every member command is valid and carries this group's name in its `group`
attribute (as `add_command` establishes). -/
def goodGroup (g : GroupNode) : Bool :=
  rawSafe g.name &&
  g.commands.all (fun c => goodCommand c && decide (c.group = g.name))

/-- A validly-constructed configuration tree: valid groups and scripts,
distinct group names and distinct script names (they key dicts), and the
unnamed root group present (as `ConfigNode.__init__` guarantees). -/
def goodConfig (cfg : ConfigNode) : Bool :=
  cfg.groups.all goodGroup &&
  cfg.scripts.all goodScript &&
  decide ((cfg.groups.map GroupNode.name).Nodup) &&
  decide ((cfg.scripts.map ScriptNode.name).Nodup) &&
  cfg.groups.any (fun g => decide (g.name = []))

/-- The four tokens of one serialized command attribute. -/
def attrToks (k v : Str) : List Tok :=
  [Tok.ident k, Tok.assign, Tok.str v, Tok.semi]

/-- The tokens of one serialized command block, `cmd` keyword included. -/
def cmdToks (c : CommandNode) : List Tok :=
  [Tok.ident kwCmd] ++
  (if c.nickname = [] then [] else [Tok.str c.nickname]) ++
  [Tok.openBrace] ++
  (match c.auto_respawn with
   | some v => if v = [] then [] else attrToks kwAutoRespawn v
   | none => []) ++
  (match c.exec with
   | some v => if v = [] then [] else attrToks kwExec v
   | none => []) ++
  (match c.host with
   | some v => if v = [] then [] else attrToks kwHost v
   | none => []) ++
  [Tok.closeBrace]

/-- The tokens of one serialized group: bare command blocks for the root
group, a `group "name" { ... }` wrapper otherwise. -/
def groupToks (g : GroupNode) : List Tok :=
  if g.name = [] then (g.commands.map cmdToks).flatten
  else [Tok.ident kwGroup, Tok.str g.name, Tok.openBrace] ++
    (g.commands.map cmdToks).flatten ++ [Tok.closeBrace]

/-- The tokens of one serialized script action. -/
def actionToks : ActionNode → List Tok
  | .startStopRestart action_type ident_type ident wait_status =>
    [Tok.ident action_type] ++
    (if ident_type = kwEverything then [Tok.ident ident_type]
     else [Tok.ident ident_type, Tok.str (ident.getD [])]) ++
    (match wait_status with
     | some w => [Tok.ident kwWait, Tok.str w]
     | none => []) ++ [Tok.semi]
  | .waitMs d =>
    [Tok.ident kwWait, Tok.ident kwMs, Tok.int (natToStr d.toNat), Tok.semi]
  | .waitStatus ident_type ident wait_status =>
    [Tok.ident kwWait, Tok.ident ident_type, Tok.str ident,
      Tok.ident kwStatus, Tok.str wait_status, Tok.semi]
  | .runScript n => [Tok.ident kwRunScript, Tok.str n, Tok.semi]

/-- The tokens of one serialized script. -/
def scriptToks (s : ScriptNode) : List Tok :=
  [Tok.ident kwScript, Tok.str s.name, Tok.openBrace] ++
    (s.actions.map actionToks).flatten ++ [Tok.closeBrace]

/-- The tokens of a whole serialized configuration. -/
def configToks (cfg : ConfigNode) : List Tok :=
  ((pySorted groupLe cfg.groups).map groupToks).flatten ++
    ((pySorted scriptLe cfg.scripts).map scriptToks).flatten

/-- What `_parse_listdecl` does with one parsed group chunk: bare command
blocks of the root group land in the accumulated node's root group (each
stamped with the empty group name); a named group is appended whole. -/
def procGroup (node : ConfigNode) (g : GroupNode) : ConfigNode :=
  if g.name = [] then g.commands.foldl configAddCommand node
  else configAddGroup node g

/-- Whether a character stream does not begin with an
identifier-continuation character — the condition under which the lexer's
maximal-munch identifier scan stops exactly at a chunk boundary. -/
def headNotIdent : Str → Bool
  | [] => true
  | c :: _ => ¬ identChar c

/-- Whether a character stream does not begin with a digit. -/
def headNotDigit : Str → Bool
  | [] => true
  | c :: _ => ¬ pyIsDigit c

/-- "Validly-constructed" in the sense of the original round-trip claim: a
command has its required `exec` and `host` attributes, with arbitrary
string values. -/
def specValidCommand (c : CommandNode) : Bool :=
  ¬ c.exec = none && ¬ c.host = none

/-- "Validly-constructed" action, per the constructor assertions of the
action classes and the spec's `delay_ms ≥ 0` — arbitrary string idents. -/
def specValidAction : ActionNode → Bool
  | .startStopRestart action_type ident_type ident wait_status =>
    (action_type = kwStart || action_type = kwStop ||
      action_type = kwRestart) &&
    ((ident_type = kwEverything && ident = none) ||
     ((ident_type = kwCmd || ident_type = kwGroup) && ¬ ident = none)) &&
    (match wait_status with
     | none => true
     | some w => w = kwRunning || w = kwStopped)
  | .waitMs d => decide (0 ≤ d)
  | .waitStatus ident_type _ wait_status =>
    (ident_type = kwCmd || ident_type = kwGroup) &&
    (wait_status = kwRunning || wait_status = kwStopped)
  | .runScript _ => true

/-- "Validly-constructed" configuration tree in the sense of the original
claim: structural dict invariants (distinct names, the root group present,
members carrying their group's name) and required attributes, with
arbitrary string attribute values. -/
def specValidConfig (cfg : ConfigNode) : Bool :=
  cfg.groups.all (fun g => g.commands.all
    (fun c => specValidCommand c && decide (c.group = g.name))) &&
  cfg.scripts.all (fun s => s.actions.all specValidAction) &&
  decide ((cfg.groups.map GroupNode.name).Nodup) &&
  decide ((cfg.scripts.map ScriptNode.name).Nodup) &&
  cfg.groups.any (fun g => decide (g.name = []))

end SheriffConfig

open Procman SheriffConfig

/-- Concrete host name used by the test states. -/
def fxHost : String := "h"

/-- Concrete deputy name used by the test states. -/
def fxDeputyName : String := "d"

/-- Concrete sheriff instance name used by the test states. -/
def fxSheriffName : String := "me"

/-- Concrete command name used by the test states. -/
def fxCmdName : String := "c"

/-- A command name before renaming. -/
def fxOldName : String := "old"

/-- A command name after renaming. -/
def fxNewName : String := "new"

/-- The wait-status word `running`. -/
def fxRunningWord : String := "running"

/-- A command in the `desired ≠ actual ∧ ¬force_quit ∧ pid = 0` state
(`TryingToStart` in the specification table). -/
def fxTryingToStartCmd : SheriffDeputyCommand :=
  { initCmd with desired_runid := 1, pid := 0 }

/-- A command in the `desired ≠ actual ∧ ¬force_quit ∧ pid > 0` state
(`Restarting` in the specification table). -/
def fxRestartingCmd : SheriffDeputyCommand :=
  { initCmd with desired_runid := 1, pid := 7 }

/-- A freshly constructed sheriff with no deputies, as after
`Sheriff.__init__`. -/
def fxEmptySheriff : Sheriff where
  deputies := []
  is_observer := false
  name := fxSheriffName
  next_sheriff_id := 1
  scripts := []
  active_script_context := none
  waiting_on_commands := []
  waiting_for_status := none
  last_script_action_time := none

/-- One reported command of the stale-info test message. -/
def fxC2CmdInfo : CmdInfo where
  name := fxCmdName
  nickname := ""
  group := ""
  sheriff_id := 5
  pid := 0
  actual_runid := 0
  exit_code := 0
  cpu_usage := 0
  mem_vsize_bytes := 0
  mem_rss_bytes := 0
  auto_respawn := false

/-- A `PMD_INFO` message stamped at time 0; at `now = 40000000` µs it is
40 seconds old, past the 30-second threshold. -/
def fxC2Msg : InfoMsg where
  utime := 0
  host := fxHost
  cpu_load := 0
  phys_mem_total_bytes := 0
  phys_mem_free_bytes := 0
  cmds := [fxC2CmdInfo]

/-- A command owned by the observer-mode test sheriff. -/
def fxC4Cmd : SheriffDeputyCommand :=
  { initCmd with sheriff_id := 7, name := fxOldName }

/-- A deputy owning `fxC4Cmd`. -/
def fxC4Deputy : SheriffDeputy :=
  { initDeputy fxDeputyName with
      commands := [(7, fxC4Cmd)]
      last_update_utime := 10 }

/-- A sheriff in observer mode holding one deputy with one command. -/
def fxObserverSheriff : Sheriff :=
  { fxEmptySheriff with
      is_observer := true
      deputies := [(fxDeputyName, fxC4Deputy)] }

/-- A running command whose natural completion the deputy is about to
report. -/
def fxC6Cmd : SheriffDeputyCommand :=
  { initCmd with desired_runid := 3, pid := 9 }

/-- The completion report for `fxC6Cmd`: `pid = 0`, the runid caught up. -/
def fxC6Info : CmdInfo :=
  { fxC2CmdInfo with pid := 0, actual_runid := 3 }

/-- A command with `desired_runid = 2^31`, the boundary value of claim C7. -/
def fxC7Cmd : SheriffDeputyCommand :=
  { initCmd with desired_runid := 2 ^ 31 }

/-- A command whose derived status is `Running`. -/
def fxC8RunningCmd : SheriffDeputyCommand :=
  { initCmd with desired_runid := 1, actual_runid := 1, pid := 5 }

/-- A sheriff waiting on one running command, with the last script action
stamped at time 0. -/
def fxC8Sheriff : Sheriff :=
  { fxEmptySheriff with
      waiting_on_commands := [fxC8RunningCmd]
      waiting_for_status := some fxRunningWord
      last_script_action_time := some 0 }

/-- A script name for the executor test states. -/
def fxScriptName : String := "s"

/-- A script for the executor test states. -/
def fxScript : SheriffScript := { name := fxScriptName }

/-- An active script execution context at its initial position. -/
def fxCtx : ScriptExecutionContext where
  script := fxScript
  current_action := -1
  subscript_chain := []

/-- A sheriff with an active script context. -/
def fxActiveSheriff : Sheriff :=
  { fxEmptySheriff with active_script_context := some fxCtx }

/-- An `exec` attribute value containing a raw newline. -/
def fxExecNl : SheriffConfig.Str := 'a' :: '\n' :: ['b']

/-- A plain one-character host value. -/
def fxHostStr : SheriffConfig.Str := ['h']

/-- The command with a newline inside its `exec` value. -/
def fxCmdNewline : CommandNode :=
  { initCommandNode with
      exec := some fxExecNl
      host := some fxHostStr }

/-- A configuration whose only command has a newline inside its `exec`
value — validly constructed, but its serialization does not parse back. -/
def fxCfgNewline : ConfigNode where
  groups := [{ name := [], commands := [fxCmdNewline] }]
  scripts := []

/-- A bare command of the round-trip test configuration. -/
def fxCmdA : CommandNode :=
  { initCommandNode with
      exec := some ['a']
      host := some fxHostStr }

/-- A nicknamed auto-respawn command of the round-trip test configuration. -/
def fxCmdB : CommandNode :=
  { initCommandNode with
      exec := some ['b']
      host := some fxHostStr
      group := ['g']
      nickname := ['n']
      auto_respawn := some ['y'] }

/-- The script of the round-trip test configuration, one action of every
form. -/
def fxScriptRound : ScriptNode where
  name := ['s']
  actions :=
    [ActionNode.waitMs 50,
     ActionNode.startStopRestart kwStart kwCmd (some ['n']) (some kwRunning),
     ActionNode.startStopRestart kwStop kwEverything none none,
     ActionNode.waitStatus kwGroup ['g'] kwStopped,
     ActionNode.runScript ['s']]

/-- A configuration exercising the round trip: a bare command, a named
group with nickname and `auto_respawn`, and a script with every action
form. -/
def fxCfgRound : ConfigNode where
  groups :=
    [{ name := [], commands := [fxCmdA] },
     { name := ['g'], commands := [fxCmdB] }]
  scripts := [fxScriptRound]

/-- Claim C1, counterexample.  The claim asserts that the status for
`desired ≠ actual ∧ ¬force_quit ∧ pid = 0` (`TryingToStart`) is a
*different* value from the status for `pid > 0` (`Restarting`), and that
`TryingToStop` and `Removing` are distinct from both.  In the code all four
are the same string `"Command Sent"`: at the two concrete commands below
`status()` returns equal values. -/
theorem C1_counterexample :
    statusOf fxTryingToStartCmd = statusOf fxRestartingCmd ∧
    TRYING_TO_START = RESTARTING ∧ TRYING_TO_STOP = REMOVING ∧
    RESTARTING = TRYING_TO_STOP := by
  refine ⟨?_, rfl, rfl, rfl⟩
  rfl

/-- Claim C1, amended.  `status()` is a pure function of the six fields
implementing the specification's derived-status table read top-to-bottom
(each row below carries the negations of the earlier overlapping rows), but
the four statuses `TryingToStart`, `Restarting`, `TryingToStop`, `Removing`
are all the *same* value `"Command Sent"`; only `Running`, `StoppedOk`,
`StoppedError`, `Unknown` and `"Command Sent"` are pairwise distinct. -/
theorem C1_corrected_status_table :
    (∀ c : SheriffDeputyCommand,
      (c.desired_runid ≠ c.actual_runid → c.force_quit = false → c.pid = 0 →
        statusOf c = TRYING_TO_START) ∧
      (c.desired_runid ≠ c.actual_runid → c.force_quit = false → 0 < c.pid →
        statusOf c = RESTARTING) ∧
      (c.desired_runid = c.actual_runid → 0 < c.pid → c.force_quit = false →
        c.scheduled_for_removal = false → statusOf c = RUNNING) ∧
      (c.desired_runid = c.actual_runid → 0 < c.pid →
        (c.force_quit = true ∨ c.scheduled_for_removal = true) →
        statusOf c = TRYING_TO_STOP) ∧
      (c.desired_runid = c.actual_runid → c.pid = 0 →
        c.scheduled_for_removal = true → statusOf c = REMOVING) ∧
      (c.desired_runid = c.actual_runid → c.pid = 0 →
        c.scheduled_for_removal = false → c.exit_code = 0 →
        statusOf c = STOPPED_OK) ∧
      (c.desired_runid = c.actual_runid → c.pid = 0 →
        c.scheduled_for_removal = false → c.exit_code ≠ 0 →
        c.force_quit = true → WIFSIGNALED c.exit_code = true →
        (WTERMSIG c.exit_code = SIGTERM ∨ WTERMSIG c.exit_code = SIGINT ∨
         WTERMSIG c.exit_code = SIGKILL) →
        statusOf c = STOPPED_OK) ∧
      (c.desired_runid = c.actual_runid → c.pid = 0 →
        c.scheduled_for_removal = false → c.exit_code ≠ 0 →
        ¬ (c.force_quit = true ∧ WIFSIGNALED c.exit_code = true ∧
           (WTERMSIG c.exit_code = SIGTERM ∨ WTERMSIG c.exit_code = SIGINT ∨
            WTERMSIG c.exit_code = SIGKILL)) →
        statusOf c = STOPPED_ERROR) ∧
      (c.desired_runid ≠ c.actual_runid → c.force_quit = true →
        statusOf c = UNKNOWN)) ∧
    (TRYING_TO_START = RESTARTING ∧ RESTARTING = TRYING_TO_STOP ∧
      TRYING_TO_STOP = REMOVING ∧ TRYING_TO_START = "Command Sent") ∧
    (RUNNING ≠ TRYING_TO_START ∧ STOPPED_OK ≠ TRYING_TO_START ∧
      STOPPED_ERROR ≠ TRYING_TO_START ∧ UNKNOWN ≠ TRYING_TO_START ∧
      RUNNING ≠ STOPPED_OK ∧ RUNNING ≠ STOPPED_ERROR ∧ RUNNING ≠ UNKNOWN ∧
      STOPPED_OK ≠ STOPPED_ERROR ∧ STOPPED_OK ≠ UNKNOWN ∧
      STOPPED_ERROR ≠ UNKNOWN) := by
  refine ⟨fun c => ⟨?_, ?_, ?_, ?_, ?_, ?_, ?_, ?_, ?_⟩, by decide, by decide⟩
  · intro h1 h2 h3
    unfold statusOf
    rw [if_pos ⟨h1, h2⟩, if_pos h3]
  · intro h1 h2 h3
    unfold statusOf
    rw [if_pos ⟨h1, h2⟩, if_neg (by omega)]
  · intro h1 h2 h3 h4
    unfold statusOf
    rw [if_neg (by simp [h1]), if_pos h1, if_pos h2, if_pos ⟨h3, h4⟩]
  · intro h1 h2 h3
    unfold statusOf
    rw [if_neg (by simp [h1]), if_pos h1, if_pos h2,
      if_neg (by rcases h3 with h | h <;> simp [h])]
  · intro h1 h2 h3
    unfold statusOf
    rw [if_neg (by simp [h1]), if_pos h1, if_neg (by omega), if_pos h3]
  · intro h1 h2 h3 h4
    unfold statusOf
    rw [if_neg (by simp [h1]), if_pos h1, if_neg (by omega),
      if_neg (by simp [h3]), if_pos h4]
  · intro h1 h2 h3 h4 h5 h6 h7
    unfold statusOf
    rw [if_neg (by simp [h1]), if_pos h1, if_neg (by omega),
      if_neg (by simp [h3]), if_neg h4, if_pos (by simp [h5, h6, h7])]
  · intro h1 h2 h3 h4 h5
    unfold statusOf
    rw [if_neg (by simp [h1]), if_pos h1, if_neg (by omega),
      if_neg (by simp [h3]), if_neg h4, if_neg (by simpa using h5)]
  · intro h1 h2
    unfold statusOf
    rw [if_neg (by simp [h2]), if_neg h1]

/-- Claim C1, witness: the amended table applied to two concrete commands
(the first and second rows). -/
theorem C1_witness :
    statusOf fxTryingToStartCmd = TRYING_TO_START ∧
    statusOf fxRestartingCmd = RESTARTING :=
  ⟨(C1_corrected_status_table.1 fxTryingToStartCmd).1 (by decide) (by decide)
      (by decide),
    ((C1_corrected_status_table.1 fxRestartingCmd).2).1 (by decide) (by decide)
      (by decide)⟩

/-- Claim C6, confirmed.  `_update_from_cmd_info` overwrites the six
observed fields from the report; `force_quit` flips to true exactly when
the reported `pid` is 0, the reported `actual_runid` equals the (unchanged)
`desired_runid`, `auto_respawn` is false and `force_quit` was false, and is
left unchanged in every other case. -/
theorem C6_apply_observation (c : SheriffDeputyCommand) (ci : CmdInfo) :
    ((updateFromCmdInfo c ci).pid = ci.pid ∧
     (updateFromCmdInfo c ci).actual_runid = ci.actual_runid ∧
     (updateFromCmdInfo c ci).exit_code = ci.exit_code ∧
     (updateFromCmdInfo c ci).cpu_usage = ci.cpu_usage ∧
     (updateFromCmdInfo c ci).mem_vsize_bytes = ci.mem_vsize_bytes ∧
     (updateFromCmdInfo c ci).mem_rss_bytes = ci.mem_rss_bytes) ∧
    (ci.pid = 0 → ci.actual_runid = c.desired_runid → c.auto_respawn = false →
      c.force_quit = false → (updateFromCmdInfo c ci).force_quit = true) ∧
    (¬ (ci.pid = 0 ∧ ci.actual_runid = c.desired_runid ∧
        c.auto_respawn = false ∧ c.force_quit = false) →
      (updateFromCmdInfo c ci).force_quit = c.force_quit) := by
  refine ⟨?_, ?_, ?_⟩ <;> simp only [updateFromCmdInfo]
  · split <;> simp
  · intro h1 h2 h3 h4
    rw [if_pos (by simp [h1, h2, h3, h4])]
  · intro h
    rw [if_neg (by simpa using h)]

/-- Claim C6, witness: the natural-completion report on a concrete command
sets `force_quit`. -/
theorem C6_witness :
    fxC6Info.pid = 0 ∧ fxC6Info.actual_runid = fxC6Cmd.desired_runid ∧
    fxC6Cmd.auto_respawn = false ∧ fxC6Cmd.force_quit = false ∧
    (updateFromCmdInfo fxC6Cmd fxC6Info).force_quit = true :=
  ⟨by decide, by decide, by decide, by decide,
    (C6_apply_observation fxC6Cmd fxC6Info).2.1 (by decide) (by decide)
      (by decide) (by decide)⟩

/-- Claim C7, counterexample.  The claim says `desired_runid` wraps to 1
after exceeding `2^31`, so a restart at `desired_runid = 2^31` should yield
1.  The source wraps at `2 << 31 = 2^32`: the restart yields `2^31 + 1`. -/
theorem C7_counterexample :
    (cmdRestart fxC7Cmd).desired_runid = 2 ^ 31 + 1 ∧
    (2 ^ 31 + 1 : Int) ≠ 1 := by
  refine ⟨?_, by norm_num⟩
  decide

/-- Claim C7, amended.  `desired_runid` wraps to 1 after exceeding `2^32`
(the source's `2 << 31`): for every command with `0 ≤ desired_runid ≤ 2^32`,
after `start()` (when it is not a no-op) or `restart()` the new
`desired_runid` is the old value plus one if that does not exceed `2^32`,
and 1 otherwise; so it stays in the range 1 to `2^32` after a bump. -/
theorem C7_corrected_runid_wrap (c : SheriffDeputyCommand)
    (h0 : 0 ≤ c.desired_runid) (h1 : c.desired_runid ≤ runidWrapBound) :
    runidWrapBound = 2 ^ 32 ∧
    (¬ (0 < c.pid ∧ c.force_quit = false) →
      (cmdStart c).desired_runid =
        (if c.desired_runid + 1 ≤ runidWrapBound then c.desired_runid + 1
         else 1) ∧
      1 ≤ (cmdStart c).desired_runid ∧
      (cmdStart c).desired_runid ≤ runidWrapBound) ∧
    ((cmdRestart c).desired_runid =
        (if c.desired_runid + 1 ≤ runidWrapBound then c.desired_runid + 1
         else 1) ∧
      1 ≤ (cmdRestart c).desired_runid ∧
      (cmdRestart c).desired_runid ≤ runidWrapBound) := by
  have hb : runidWrapBound = 2 ^ 32 := rfl
  refine ⟨hb, ?_, ?_⟩
  · intro hno
    unfold cmdStart
    rw [if_neg (by simpa using hno)]
    simp only [bumpRunid]
    constructor
    · split <;> split <;> omega
    · split <;> omega
  · unfold cmdRestart
    simp only [bumpRunid]
    constructor
    · split <;> split <;> omega
    · split <;> omega

/-- Claim C7, witness: the amended wrap law applied to the concrete
boundary command and to a freshly initialized command. -/
theorem C7_witness :
    (cmdRestart fxC7Cmd).desired_runid = 2 ^ 31 + 1 ∧
    (cmdStart initCmd).desired_runid = 1 :=
  ⟨by
    have h := (C7_corrected_runid_wrap fxC7Cmd (by decide) (by decide)).2.2.1
    rw [h]
    decide,
   by
    have h := ((C7_corrected_runid_wrap initCmd (by decide) (by decide)).2.1
      (by decide)).1
    rw [h]
    decide⟩

/-- Claim C10, confirmed.  `abort_script()` with no active script context
dereferences `None` and raises `AttributeError`; with an active context it
clears the state and emits `script-finished`, so the error-free
precondition of `abort_script` is an active context. -/
theorem C10_abort_script (sh : Sheriff) :
    (sh.active_script_context = none →
      abortScript sh = .error .attributeErrorNoneContext) ∧
    (∀ ctx, sh.active_script_context = some ctx →
      abortScript sh = .ok ({ sh with
          active_script_context := none
          waiting_on_commands := []
          waiting_for_status := none },
        [Event.scriptFinished ctx.script.name])) := by
  constructor
  · intro h
    unfold abortScript finishScriptExecution
    rw [h]
  · intro ctx h
    unfold abortScript finishScriptExecution
    rw [h]

/-- Claim C10, witness: aborting with no active script on a concrete state
raises, and aborting with an active context on a concrete state succeeds. -/
theorem C10_witness :
    abortScript fxEmptySheriff = .error .attributeErrorNoneContext ∧
    abortScript fxActiveSheriff = .ok ({ fxActiveSheriff with
        active_script_context := none
        waiting_on_commands := []
        waiting_for_status := none },
      [Event.scriptFinished fxCtx.script.name]) :=
  ⟨(C10_abort_script fxEmptySheriff).1 rfl,
    (C10_abort_script fxActiveSheriff).2 fxCtx rfl⟩

/-- Claim C2, code-bug evidence.  A 40-second-old `PMD_INFO` message
arriving at a non-observer sheriff is *not* dropped: the handler creates
the deputy and emits `deputy-info-received` and `command-added`.  The drop
test `(now - utime) * 1e-6 > 30 and not self.is_observer` never fires
because `self.is_observer` is the bound method (no call), which is always
truthy. -/
theorem C2_code_bug_stale_info_processed :
    fxEmptySheriff.is_observer = false ∧
    30 * 1000000 < (40000000 : Int) - fxC2Msg.utime ∧
    ∃ sh2 evs, onPmdInfo fxEmptySheriff fxC2Msg 40000000 = .ok (sh2, evs) ∧
      sh2.deputies.map Prod.fst = [fxHost] ∧ evs.length = 2 := by
  refine ⟨rfl, by simp [fxC2Msg], ?_⟩
  exact ⟨_, _, rfl, rfl, rfl⟩

/-- Claim C8, code-bug evidence.  With a non-empty waited-on cohort and
only 50 ms (50000 µs) elapsed — less than the claimed 100 ms throttle —
`_check_wait_action_status` does *not* return early: it evaluates the
statuses, clears the wait and schedules the next action, because the
elapsed time in µs is multiplied by 1000 instead of divided. -/
theorem C8_code_bug_throttle_bypassed :
    fxC8Sheriff.waiting_on_commands ≠ [] ∧
    ((50000 : Int) - 0) < 100 * 1000 ∧
    checkWaitActionStatus fxC8Sheriff 50000 =
      .ok ({ fxC8Sheriff with
          waiting_on_commands := []
          waiting_for_status := none }, [Event.timerScheduled 0]) := by
  refine ⟨by decide, by norm_num, ?_⟩
  rfl

/-- Claim C9, confirmed.  Any command returned by a successful
`add_command` — before any deputy has reported on it — has `pid = -1` (the
`__init__` default, not the 0-means-not-running wire convention) and
`exit_code = 0`, so its derived status is already `StoppedOk`, the string
`"Stopped (OK)"`, although the command never ran. -/
theorem C9_fresh_command_stopped_ok (sh : Sheriff)
    (dn cn nick grp : String) (ar : Bool) (now : Int) (sh2 : Sheriff)
    (cmd : SheriffDeputyCommand) (evs : List Event)
    (h : addCommand sh dn cn nick grp ar now = .ok (sh2, cmd, evs)) :
    cmd.pid = -1 ∧ cmd.exit_code = 0 ∧ statusOf cmd = STOPPED_OK ∧
      STOPPED_OK = "Stopped (OK)" := by
  unfold addCommand at h
  split at h
  · exact absurd h (by simp)
  · dsimp only at h
    split at h
    · exact absurd h (by simp)
    · split at h
      · exact absurd h (by simp)
      · split at h
        · exact absurd h (by simp)
        · simp only [Except.ok.injEq, Prod.mk.injEq] at h
          obtain ⟨-, hcmd, -⟩ := h
          subst hcmd
          refine ⟨rfl, rfl, ?_, rfl⟩
          simp [statusOf, initCmd]

/-- Claim C9, witness: a concrete `add_command` on the empty sheriff
succeeds and the returned command is in the `StoppedOk` state. -/
theorem C9_witness :
    ∃ sh2 cmd evs,
      addCommand fxEmptySheriff fxDeputyName fxCmdName "" "" false 0 =
        .ok (sh2, cmd, evs) ∧
      cmd.pid = -1 ∧ cmd.exit_code = 0 ∧ statusOf cmd = STOPPED_OK ∧
      STOPPED_OK = "Stopped (OK)" := by
  have h : ∃ r, addCommand fxEmptySheriff fxDeputyName fxCmdName "" "" false 0 =
      .ok r := ⟨_, rfl⟩
  obtain ⟨⟨sh2, cmd, evs⟩, h⟩ := h
  exact ⟨sh2, cmd, evs, h,
    C9_fresh_command_stopped_ok fxEmptySheriff fxDeputyName fxCmdName
      (String.mk []) (String.mk []) false 0 sh2 cmd evs h⟩

theorem find_map_overwrite (cid : Int) (c : SheriffDeputyCommand) :
    ∀ l : List (Int × SheriffDeputyCommand),
    l.any (fun p => p.1 = cid) = true →
    (l.map (fun p => if p.1 = cid then (cid, c) else p)).find?
      (fun p => p.1 = cid) = some (cid, c)
  | [], h => by simp at h
  | (k, v) :: rest, h => by
    by_cases hk : k = cid
    · subst hk
      simp [List.find?_cons_of_pos]
    · rw [List.map_cons, if_neg (by simpa using hk),
        List.find?_cons_of_neg _ (by simpa using hk)]
      exact find_map_overwrite cid c rest (by simpa [hk] using h)

theorem find_append_new (cid : Int) (c : SheriffDeputyCommand) :
    ∀ l : List (Int × SheriffDeputyCommand),
    l.any (fun p => p.1 = cid) = false →
    (l ++ [(cid, c)]).find? (fun p => p.1 = cid) = some (cid, c)
  | [], _ => by simp
  | (k, v) :: rest, h => by
    have hk : ¬ k = cid := by
      intro he
      simp [he] at h
    rw [List.cons_append, List.find?_cons_of_neg _ (by simpa using hk)]
    exact find_append_new cid c rest (by simpa [hk] using h)

theorem depLookup_depWrite (d : SheriffDeputy) (cid : Int)
    (c : SheriffDeputyCommand) : depLookup (depWrite d cid c) cid = some c := by
  unfold depLookup depWrite
  split
  · next h =>
      rw [find_map_overwrite cid c d.commands h]
      rfl
  · next h =>
      rw [Bool.not_eq_true] at h
      rw [find_append_new cid c d.commands h]
      rfl

theorem any_key_depWrite (d : SheriffDeputy) (cid : Int)
    (c : SheriffDeputyCommand) :
    (depWrite d cid c).commands.any (fun q => q.1 = cid) = true := by
  have h := depLookup_depWrite d cid c
  unfold depLookup at h
  rcases hf : (depWrite d cid c).commands.find? (fun p => p.1 = cid) with
    _ | p
  · rw [hf] at h
    simp at h
  · have hp := List.find?_some hf
    have hm := List.mem_of_find?_eq_some hf
    exact List.any_eq_true.mpr ⟨p, hm, hp⟩

theorem findCommandIn_replace (cid : Int) (c2 : SheriffDeputyCommand) :
    ∀ l : List (String × SheriffDeputy),
    (findCommandIn l cid).isSome = true →
    findCommandIn (replaceInDeputies cid c2 l) cid = some c2
  | [], h => by simp [findCommandIn] at h
  | (n, d) :: rest, h => by
    by_cases hd : d.commands.any (fun q => q.1 = cid) = true
    · unfold replaceInDeputies
      rw [if_pos hd]
      unfold findCommandIn
      rw [List.find?_cons_of_pos _ (by simpa using any_key_depWrite d cid c2)]
      exact depLookup_depWrite d cid c2
    · unfold replaceInDeputies
      rw [if_neg hd]
      unfold findCommandIn
      rw [List.find?_cons_of_neg _ (by simpa using hd)]
      unfold findCommandIn at h
      rw [List.find?_cons_of_neg _ (by simpa using hd)] at h
      exact findCommandIn_replace cid c2 rest h

/-- Claim C4, amended.  In observer mode the mutators `add_command`,
`start/restart/stop_command`, `set_command_group`,
`schedule_command_for_removal` and `move_command_to_deputy` raise
`ModeViolation` (a `ValueError`), each before any state write — but
`set_command_name`, `set_command_nickname` and `set_auto_respawn` perform
no observer check at all: they silently write the field even while
`is_observer` holds. -/
theorem C4_corrected_observer_mutators :
    (∀ sh : Sheriff, sh.is_observer = true →
      ∀ (dn cn nick grp g nd : String) (ar : Bool) (now cid : Int),
      addCommand sh dn cn nick grp ar now = .error .modeViolationAdd ∧
      startCommand sh cid now = .error .modeViolationModify ∧
      restartCommand sh cid now = .error .modeViolationModify ∧
      stopCommand sh cid now = .error .modeViolationModify ∧
      setCommandGroup sh cid g = .error .modeViolationModify ∧
      scheduleCommandForRemoval sh cid now = .error .modeViolationRemove ∧
      moveCommandToDeputy sh cid nd now = .error .modeViolationRemove) ∧
    (∀ (sh : Sheriff) (cid : Int) (c : SheriffDeputyCommand),
      findCommand sh cid = some c → ∀ (s : String) (b : Bool),
      findCommand (setCommandName sh cid s) cid = some { c with name := s } ∧
      findCommand (setCommandNickname sh cid s) cid =
        some { c with nickname := s } ∧
      findCommand (setAutoRespawn sh cid b) cid =
        some { c with auto_respawn := b }) := by
  constructor
  · intro sh h dn cn nick grp g nd ar now cid
    refine ⟨?_, ?_, ?_, ?_, ?_, ?_, ?_⟩
    · simp [addCommand, h]
    · simp [startCommand, runCmdMutator, h]
    · simp [restartCommand, runCmdMutator, h]
    · simp [stopCommand, runCmdMutator, h]
    · simp [setCommandGroup, h]
    · simp [scheduleCommandForRemoval, h]
    · rcases hf : findCommand sh cid with _ | c <;>
        simp [moveCommandToDeputy, hf, scheduleCommandForRemoval, h]
  · intro sh cid c h s b
    have hs : (findCommand sh cid).isSome = true := by simp [h]
    refine ⟨?_, ?_, ?_⟩
    · unfold setCommandName
      rw [h]
      exact findCommandIn_replace cid _ sh.deputies hs
    · unfold setCommandNickname
      rw [h]
      exact findCommandIn_replace cid _ sh.deputies hs
    · unfold setAutoRespawn
      rw [h]
      exact findCommandIn_replace cid _ sh.deputies hs

/-- Claim C4, counterexample.  On a concrete observer-mode sheriff,
`set_command_name` does not raise and does not leave the state unchanged:
it renames the command. -/
theorem C4_counterexample :
    fxObserverSheriff.is_observer = true ∧
    findCommand fxObserverSheriff 7 = some fxC4Cmd ∧
    setCommandName fxObserverSheriff 7 fxNewName ≠ fxObserverSheriff ∧
    findCommand (setCommandName fxObserverSheriff 7 fxNewName) 7 =
      some { fxC4Cmd with name := fxNewName } := by
  refine ⟨rfl, rfl, by decide, rfl⟩

/-- Claim C4, witness: the amended statement applied to the concrete
observer-mode sheriff. -/
theorem C4_witness :
    addCommand fxObserverSheriff fxDeputyName fxCmdName "" "" false 0 =
      .error .modeViolationAdd ∧
    startCommand fxObserverSheriff 7 0 = .error .modeViolationModify ∧
    findCommand (setCommandName fxObserverSheriff 7 fxNewName) 7 =
      some { fxC4Cmd with name := fxNewName } :=
  ⟨(C4_corrected_observer_mutators.1 fxObserverSheriff rfl fxDeputyName
      fxCmdName (String.mk []) (String.mk []) (String.mk []) (String.mk [])
      false 0 7).1,
   ((C4_corrected_observer_mutators.1 fxObserverSheriff rfl fxDeputyName
      fxCmdName (String.mk []) (String.mk []) (String.mk []) (String.mk [])
      false 0 7).2).1,
   (C4_corrected_observer_mutators.2 fxObserverSheriff 7 fxC4Cmd rfl
      fxNewName false).1⟩

theorem sheriffIdAdvance_range (c : Int) (h1 : 1 ≤ c) (h2 : c ≤ sheriffIdBound) :
    1 ≤ sheriffIdAdvance c ∧ sheriffIdAdvance c ≤ sheriffIdBound := by
  have hb : sheriffIdBound = 1073741824 := by norm_num [sheriffIdBound]
  rw [hb] at h2 ⊢
  unfold sheriffIdAdvance
  rw [hb]
  split <;> omega

theorem getFreeSheriffIdLoop_ok (occ : Int → Bool) :
    ∀ (fuel : Nat) (cursor cid cur2 : Int), 1 ≤ cursor →
    cursor ≤ sheriffIdBound →
    getFreeSheriffIdLoop occ cursor fuel = .ok (cid, cur2) →
    1 ≤ cid ∧ cid ≤ sheriffIdBound ∧ occ cid = false ∧
      cur2 = sheriffIdAdvance cid
  | 0, cursor, cid, cur2, h1, h2, h => by
    simp [getFreeSheriffIdLoop] at h
  | fuel + 1, cursor, cid, cur2, h1, h2, h => by
    unfold getFreeSheriffIdLoop at h
    dsimp only at h
    by_cases ho : occ cursor = true
    · rw [if_pos ho] at h
      have hr := sheriffIdAdvance_range cursor h1 h2
      exact getFreeSheriffIdLoop_ok occ fuel _ cid cur2 hr.1 hr.2 h
    · rw [if_neg ho] at h
      simp only [Except.ok.injEq, Prod.mk.injEq] at h
      obtain ⟨rfl, rfl⟩ := h
      exact ⟨h1, h2, by simpa using ho, rfl⟩

theorem getFreeSheriffIdLoop_exhausted (occ : Int → Bool)
    (hall : ∀ x, occ x = true) :
    ∀ (fuel : Nat) (cursor : Int),
    getFreeSheriffIdLoop occ cursor fuel = .error .runtimeErrorNoFreeId
  | 0, cursor => rfl
  | fuel + 1, cursor => by
    unfold getFreeSheriffIdLoop
    dsimp only
    rw [if_pos (hall cursor)]
    exact getFreeSheriffIdLoop_exhausted occ hall fuel _

theorem ensureDeputy_next (sh : Sheriff) (dn : String) :
    (ensureDeputy sh dn).next_sheriff_id = sh.next_sheriff_id := by
  unfold ensureDeputy
  split <;> rfl

theorem ensureDeputy_observer (sh : Sheriff) (dn : String) :
    (ensureDeputy sh dn).is_observer = sh.is_observer := by
  unfold ensureDeputy
  split <;> rfl

theorem addCommand_alloc (sh : Sheriff) (dn cn nick grp : String) (ar : Bool)
    (now : Int) (sh2 : Sheriff) (cmd : SheriffDeputyCommand)
    (evs : List Event)
    (h : addCommand sh dn cn nick grp ar now = .ok (sh2, cmd, evs)) :
    getFreeSheriffId (occupiedTest (ensureDeputy sh dn))
      sh.next_sheriff_id = .ok (cmd.sheriff_id, sh2.next_sheriff_id) := by
  unfold addCommand at h
  split at h
  · exact absurd h (by simp)
  · dsimp only at h
    rw [ensureDeputy_next] at h
    split at h
    · exact absurd h (by simp)
    · next cid cursor heq =>
      split at h
      · exact absurd h (by simp)
      · split at h
        · exact absurd h (by simp)
        · next msgs hsend =>
          split at h
          · simp only [Except.ok.injEq, Prod.mk.injEq] at h
            obtain ⟨rfl, rfl, -⟩ := h
            exact heq
          · next d hd =>
            simp only [Except.ok.injEq, Prod.mk.injEq] at h
            obtain ⟨rfl, rfl, -⟩ := h
            simpa [writeDeputy] using heq

/-- Claim C5, confirmed.  When allocation succeeds the returned id is in
`1 .. 2^30` and fails the collision test (it is not a key of any deputy's
command map); the probe cursor advances by one, wrapping past `2^30` back
to 1, and the successor cursor returned with the id is what a successful
`add_command` persists into `next_sheriff_id`; if every probe collides —
in particular when the collision test always holds — the `2^16`-probe loop
fails with `RuntimeError` (the spec's `ResourceExhausted`). -/
theorem C5_sheriff_id_allocation :
    (∀ (occ : Int → Bool) (cursor cid cur2 : Int),
      1 ≤ cursor → cursor ≤ sheriffIdBound →
      getFreeSheriffId occ cursor = .ok (cid, cur2) →
      1 ≤ cid ∧ cid ≤ sheriffIdBound ∧ occ cid = false ∧
        cur2 = sheriffIdAdvance cid) ∧
    (∀ (occ : Int → Bool) (cursor : Int), (∀ x, occ x = true) →
      getFreeSheriffId occ cursor = .error .runtimeErrorNoFreeId) ∧
    (sheriffIdBound = 2 ^ 30 ∧ sheriffIdProbes = 2 ^ 16 ∧
      sheriffIdAdvance sheriffIdBound = 1 ∧
      (∀ c : Int, 1 ≤ c → c < sheriffIdBound → sheriffIdAdvance c = c + 1)) ∧
    (∀ (sh : Sheriff) (dn cn nick grp : String) (ar : Bool) (now : Int)
       (sh2 : Sheriff) (cmd : SheriffDeputyCommand) (evs : List Event),
      addCommand sh dn cn nick grp ar now = .ok (sh2, cmd, evs) →
      getFreeSheriffId (occupiedTest (ensureDeputy sh dn))
        sh.next_sheriff_id = .ok (cmd.sheriff_id, sh2.next_sheriff_id)) := by
  refine ⟨?_, ?_, ⟨rfl, rfl, by norm_num [sheriffIdAdvance, sheriffIdBound],
    ?_⟩, ?_⟩
  · intro occ cursor cid cur2 h1 h2 h
    exact getFreeSheriffIdLoop_ok occ sheriffIdProbes cursor cid cur2 h1 h2 h
  · intro occ cursor hall
    exact getFreeSheriffIdLoop_exhausted occ hall sheriffIdProbes cursor
  · intro c h1 h2
    unfold sheriffIdAdvance
    rw [if_neg (by omega)]
  · intro sh dn cn nick grp ar now sh2 cmd evs h
    exact addCommand_alloc sh dn cn nick grp ar now sh2 cmd evs h

/-- Claim C5, witness: allocation with a collision-free test at cursor 1
returns id 1 with cursor 2, allocation with an all-colliding test fails
with `RuntimeError`, and a concrete successful `add_command` persists the
advanced cursor. -/
theorem C5_witness :
    (getFreeSheriffId (fun _ => false) 1 = .ok (1, 2) ∧
      (1 : Int) ≤ 1 ∧ (1 : Int) ≤ sheriffIdBound ∧
      (fun _ : Int => false) 1 = false ∧ (2 : Int) = sheriffIdAdvance 1) ∧
    getFreeSheriffId (fun _ => true) 1 = .error .runtimeErrorNoFreeId := by
  have h1 : getFreeSheriffId (fun _ => false) 1 = .ok (1, 2) := rfl
  have hb : (1 : Int) ≤ sheriffIdBound := by norm_num [sheriffIdBound]
  have h2 := C5_sheriff_id_allocation.1 (fun _ => false) 1 1 2 (le_refl 1)
    hb h1
  have h3 := C5_sheriff_id_allocation.2.1 (fun _ => true) 1 (fun _ => rfl)
  exact ⟨⟨h1, le_refl 1, hb, h2.2.2.1, h2.2.2.2⟩, h3⟩

/-- Claim C3, counterexample.  A validly-constructed configuration — one
bare command with arbitrary string attribute values, here an `exec` value
containing a newline — serializes to text that the lexer rejects
(`Unterminated string constant`), because `escape_str` escapes only `\`
and `"` and leaves raw newlines inside the quoted literal.  So
`parse(serialize(cfg))` is not `cfg`: it is a `ParseError`. -/
theorem C3_counterexample :
    specValidConfig fxCfgNewline = true ∧
    parseConfig (configStr fxCfgNewline) = .error .unterminated := by
  exact ⟨by decide, rfl⟩

theorem pyInsert_perm (le : α → α → Bool) (x : α) :
    ∀ l : List α, (pyInsert le x l).Perm (x :: l)
  | [] => List.Perm.refl _
  | y :: ys => by
    unfold pyInsert
    split
    · exact List.Perm.refl _
    · exact ((pyInsert_perm le x ys).cons y).trans (List.Perm.swap x y ys)

theorem pySorted_perm (le : α → α → Bool) :
    ∀ l : List α, (pySorted le l).Perm l
  | [] => List.Perm.refl _
  | x :: xs => by
    unfold pySorted
    exact (pyInsert_perm le x (pySorted le xs)).trans
      ((pySorted_perm le xs).cons x)

theorem dropWhile_length_le (p : α → Bool) :
    ∀ l : List α, (l.dropWhile p).length ≤ l.length
  | [] => le_refl 0
  | x :: xs => by
    unfold List.dropWhile
    split
    · exact (dropWhile_length_le p xs).trans (Nat.le_succ _)
    · exact le_refl _

theorem tail_length_le : ∀ l : List α, l.tail.length ≤ l.length
  | [] => le_refl 0
  | _ :: xs => Nat.le_succ xs.length

theorem lexString_length_le :
    ∀ l s r, lexString l = .ok (s, r) → r.length ≤ l.length
  | [], s, r, h => by
    simp only [lexString, Except.ok.injEq, Prod.mk.injEq] at h
    obtain ⟨-, rfl⟩ := h
    exact le_refl 0
  | c :: cs, s, r, h => by
    unfold lexString at h
    split at h
    · exact absurd h (by simp)
    · split at h
      · split at h
        · simp only [Except.ok.injEq, Prod.mk.injEq] at h
          obtain ⟨-, rfl⟩ := h
          simp
        · next d ds =>
          split at h
          · exact absurd h (by simp)
          · next s2 r2 heq =>
            simp only [Except.ok.injEq, Prod.mk.injEq] at h
            obtain ⟨-, rfl⟩ := h
            calc r2.length ≤ ds.length := lexString_length_le ds s2 r2 heq
              _ ≤ (c :: ds).length := Nat.le_succ _
              _ ≤ (c :: d :: ds).length := by simp
      · split at h
        · simp only [Except.ok.injEq, Prod.mk.injEq] at h
          obtain ⟨-, rfl⟩ := h
          simp
        · split at h
          · exact absurd h (by simp)
          · next s2 r2 heq =>
            simp only [Except.ok.injEq, Prod.mk.injEq] at h
            obtain ⟨-, rfl⟩ := h
            exact (lexString_length_le cs s2 r2 heq).trans (Nat.le_succ _)

theorem scanToken_consumes :
    ∀ (l : Str) (t : Tok) (r : Str), scanToken l = .ok (some (t, r)) →
    r.length < l.length
  | [], t, r, h => by simp [scanToken] at h
  | c :: cs, t, r, h => by
    unfold scanToken at h
    split_ifs at h with h1 h2 h3 h4 h5 h6 h7 h8 h9
    · exact (scanToken_consumes cs t r h).trans (by simp)
    · simp only [Except.ok.injEq, Option.some.injEq, Prod.mk.injEq] at h
      obtain ⟨-, rfl⟩ := h
      simp
    · simp only [Except.ok.injEq, Option.some.injEq, Prod.mk.injEq] at h
      obtain ⟨-, rfl⟩ := h
      simp
    · simp only [Except.ok.injEq, Option.some.injEq, Prod.mk.injEq] at h
      obtain ⟨-, rfl⟩ := h
      simp
    · simp only [Except.ok.injEq, Option.some.injEq, Prod.mk.injEq] at h
      obtain ⟨-, rfl⟩ := h
      simp
    · simp only [Except.ok.injEq, Option.some.injEq, Prod.mk.injEq] at h
      obtain ⟨-, rfl⟩ := h
      have := (tail_length_le (cs.dropWhile (fun d => ¬ d = '\n'))).trans
        (dropWhile_length_le _ cs)
      simp only [List.length_cons]
      omega
    · split at h
      · exact absurd h (by simp)
      · next s2 r2 heq =>
        simp only [Except.ok.injEq, Option.some.injEq, Prod.mk.injEq] at h
        obtain ⟨-, rfl⟩ := h
        have := lexString_length_le cs s2 r2 heq
        simp only [List.length_cons]
        omega
    · simp only [Except.ok.injEq, Option.some.injEq, Prod.mk.injEq] at h
      obtain ⟨-, rfl⟩ := h
      have := dropWhile_length_le identChar cs
      simp only [List.length_cons]
      omega
    · simp only [Except.ok.injEq, Option.some.injEq, Prod.mk.injEq] at h
      obtain ⟨-, rfl⟩ := h
      have := dropWhile_length_le pyIsDigit cs
      simp only [List.length_cons]
      omega

theorem tokenizeF_congr :
    ∀ (f : Nat) (l : Str) (g : Nat), l.length < f → l.length < g →
    tokenizeF f l = tokenizeF g l
  | 0, l, g, hf, _ => absurd hf (by omega)
  | f + 1, l, g, hf, hg => by
    cases g with
    | zero => exact absurd hg (by omega)
    | succ g0 =>
      show tokenizeF (f + 1) l = tokenizeF (g0 + 1) l
      unfold tokenizeF
      rcases hs : scanToken l with e | o
      · rfl
      · rcases o with _ | ⟨t, r⟩
        · rfl
        · have hr := scanToken_consumes l t r hs
          dsimp only
          rw [tokenizeF_congr f r g0 (by omega) (by omega)]
termination_by f => f

theorem tokenize_nil : tokenize [] = .ok [] := rfl

theorem tokenize_step (l : Str) (t : Tok) (r : Str) (ts : List Tok)
    (hs : scanToken l = .ok (some (t, r)))
    (h : tokenize r = .ok ts) : tokenize l = .ok (t :: ts) := by
  have hr : r.length < l.length := scanToken_consumes l t r hs
  show tokenizeF (l.length + 1) l = .ok (t :: ts)
  unfold tokenizeF
  rw [hs]
  dsimp only
  rw [tokenizeF_congr l.length r (r.length + 1) hr (by omega)]
  rw [show tokenizeF (r.length + 1) r = tokenize r from rfl, h]

theorem alpha_digit_disjoint (c : Char) (ha : pyIsAlpha c = true)
    (hd : pyIsDigit c = true) : False := by
  simp only [pyIsAlpha, pyIsDigit, Bool.or_eq_true, Bool.and_eq_true,
    decide_eq_true_eq] at ha hd
  obtain ⟨d1, d2⟩ := hd
  rw [Char.le_def] at d1 d2
  rcases ha with ⟨a1, a2⟩ | ⟨a1, a2⟩
  · rw [Char.le_def] at a1 a2
    have h1 : ('a' : Char).val ≤ c.val := a1
    have h2 : c.val ≤ ('9' : Char).val := d2
    exact absurd (UInt32.le_trans h1 h2) (by decide)
  · rw [Char.le_def] at a1 a2
    have h1 : ('A' : Char).val ≤ c.val := a1
    have h2 : c.val ≤ ('9' : Char).val := d2
    exact absurd (UInt32.le_trans h1 h2) (by decide)

theorem takeWhile_append_all (p : Char → Bool) :
    ∀ (a b : Str), a.all p = true →
    (a ++ b).takeWhile p = a ++ b.takeWhile p ∧
      (a ++ b).dropWhile p = b.dropWhile p
  | [], b, _ => ⟨rfl, rfl⟩
  | x :: xs, b, h => by
    simp only [List.all_cons, Bool.and_eq_true] at h
    have ih := takeWhile_append_all p xs b h.2
    constructor
    · simp [List.cons_append, List.takeWhile_cons, h.1, ih.1]
    · simp [List.cons_append, List.dropWhile_cons, h.1, ih.2]

theorem headNotIdent_spec (l : Str) (h : headNotIdent l = true) :
    l.takeWhile identChar = [] ∧ l.dropWhile identChar = l := by
  cases l with
  | nil => exact ⟨rfl, rfl⟩
  | cons c cs =>
    have hc : identChar c = false := by
      simpa [headNotIdent] using h
    simp [List.takeWhile_cons, List.dropWhile_cons, hc]

theorem headNotDigit_spec (l : Str) (h : headNotDigit l = true) :
    l.takeWhile pyIsDigit = [] ∧ l.dropWhile pyIsDigit = l := by
  cases l with
  | nil => exact ⟨rfl, rfl⟩
  | cons c cs =>
    have hc : pyIsDigit c = false := by
      simpa [headNotDigit] using h
    simp [List.takeWhile_cons, List.dropWhile_cons, hc]

theorem lexString_escape :
    ∀ (v rest : Str), noNL v = true →
    lexString (escapeStr v ++ '"' :: rest) = .ok (v, rest)
  | [], rest, _ => by
    show lexString ('"' :: rest) = .ok ([], rest)
    unfold lexString
    rw [if_neg (by decide), if_neg (by decide), if_pos rfl]
  | c :: v, rest, h => by
    simp only [noNL, List.all_cons, Bool.and_eq_true, decide_eq_true_eq] at h
    have ih := lexString_escape v rest h.2
    unfold escapeStr
    by_cases hc : (c = '\\' || c = '"') = true
    · rw [if_pos hc]
      show lexString ('\\' :: c :: (escapeStr v ++ '"' :: rest)) = _
      unfold lexString
      rw [if_neg (by decide), if_pos rfl]
      have hun : unescapeChar c = c := by
        rcases Bool.or_eq_true _ _ |>.mp hc with h1 | h1 <;>
          rw [decide_eq_true_eq.mp h1] <;> rfl
      show (match lexString (escapeStr v ++ '"' :: rest) with
        | Except.error e => Except.error e
        | Except.ok (s, r) => Except.ok (unescapeChar c :: s, r)) =
          Except.ok (c :: v, rest)
      rw [ih, hun]
    · rw [if_neg hc]
      show lexString (c :: (escapeStr v ++ '"' :: rest)) = _
      unfold lexString
      simp only [Bool.or_eq_true, decide_eq_true_eq, not_or] at hc
      rw [if_neg (by simpa using h.1), if_neg (by simpa using hc.1),
        if_neg (by simpa using hc.2)]
      show (match lexString (escapeStr v ++ '"' :: rest) with
        | Except.error e => Except.error e
        | Except.ok (s, r) => Except.ok (c :: s, r)) =
          Except.ok (c :: v, rest)
      rw [ih]


theorem lexString_raw :
    ∀ (v rest : Str), rawSafe v = true →
    lexString (v ++ '"' :: rest) = .ok (v, rest)
  | [], rest, _ => by
    show lexString ('"' :: rest) = .ok ([], rest)
    unfold lexString
    rw [if_neg (by decide), if_neg (by decide), if_pos rfl]
  | c :: v, rest, h => by
    simp only [rawSafe, List.all_cons, Bool.and_eq_true, decide_eq_true_eq]
      at h
    obtain ⟨⟨h1, h2, h3⟩, hv⟩ := h
    have ih := lexString_raw v rest hv
    show lexString (c :: (v ++ '"' :: rest)) = _
    unfold lexString
    rw [if_neg (by simpa using h1), if_neg (by simpa using h2),
      if_neg (by simpa using h3)]
    show (match lexString (v ++ '"' :: rest) with
      | Except.error e => Except.error e
      | Except.ok (s, r) => Except.ok (c :: s, r)) =
        Except.ok (c :: v, rest)
    rw [ih]

theorem scan_space (c : Char) (cs : Str) (h : pyIsSpace c = true) :
    scanToken (c :: cs) = scanToken cs := by
  simp only [scanToken]
  rw [if_pos h]

theorem tokenize_eq_of_scan (l l2 : Str) (hs : scanToken l = scanToken l2)
    (hlen : l2.length ≤ l.length) : tokenize l = tokenize l2 := by
  show tokenizeF (l.length + 1) l = tokenizeF (l2.length + 1) l2
  unfold tokenizeF
  rw [hs]
  rcases h2 : scanToken l2 with e | o
  · rfl
  · rcases o with _ | ⟨t, r⟩
    · rfl
    · dsimp only
      have hr := scanToken_consumes l2 t r h2
      rw [tokenizeF_congr l.length r (l2.length) (by omega) (by omega)]

theorem tokenize_space (c : Char) (cs : Str) (h : pyIsSpace c = true) :
    tokenize (c :: cs) = tokenize cs :=
  tokenize_eq_of_scan (c :: cs) cs (scan_space c cs h) (by simp)

theorem scan_assign (r : Str) :
    scanToken ('=' :: r) = .ok (some (Tok.assign, r)) := by
  simp [scanToken, pyIsSpace, braceOpen, braceClose]

theorem scan_semi (r : Str) :
    scanToken (';' :: r) = .ok (some (Tok.semi, r)) := by
  simp [scanToken, pyIsSpace, braceOpen, braceClose]

theorem scan_open (r : Str) :
    scanToken (braceOpen :: r) = .ok (some (Tok.openBrace, r)) := by
  simp [scanToken, pyIsSpace, braceOpen, braceClose]

theorem scan_close (r : Str) :
    scanToken (braceClose :: r) = .ok (some (Tok.closeBrace, r)) := by
  simp [scanToken, pyIsSpace, braceOpen, braceClose]

theorem scan_string (v rest : Str) (hv : noNL v = true) :
    scanToken ('"' :: (escapeStr v ++ '"' :: rest)) =
      .ok (some (Tok.str v, rest)) := by
  have h := lexString_escape v rest hv
  simp [scanToken, pyIsSpace, braceOpen, braceClose, h]

theorem scan_rawstring (v rest : Str) (hv : rawSafe v = true) :
    scanToken ('"' :: (v ++ '"' :: rest)) = .ok (some (Tok.str v, rest)) := by
  have h := lexString_raw v rest hv
  simp [scanToken, pyIsSpace, braceOpen, braceClose, h]

theorem scan_ident (c : Char) (cs rest : Str) (hstart : identStart c = true)
    (hcs : cs.all identChar = true) (hrest : headNotIdent rest = true) :
    scanToken ((c :: cs) ++ rest) = .ok (some (Tok.ident (c :: cs), rest)) := by
  obtain ⟨ht, hd⟩ := headNotIdent_spec rest hrest
  have hsp : ¬ pyIsSpace c = true := by
    intro h
    simp only [pyIsSpace, Bool.or_eq_true, decide_eq_true_eq] at h
    rcases h with ((((h | h) | h) | h) | h) | h <;> subst h <;>
      exact absurd hstart (by decide)
  have hne : ∀ d : Char, identStart d = false → ¬ c = d := by
    intro d hdf he
    subst he
    rw [hstart] at hdf
    exact absurd hdf (by simp)
  show scanToken (c :: (cs ++ rest)) = _
  simp only [scanToken]
  rw [if_neg hsp, if_neg (hne _ (by decide)), if_neg (hne _ (by decide)),
    if_neg (hne _ (by decide)), if_neg (hne _ (by decide)),
    if_neg (hne _ (by decide)), if_neg (hne _ (by decide)), if_pos hstart]
  rw [(takeWhile_append_all identChar cs rest hcs).1,
    (takeWhile_append_all identChar cs rest hcs).2, ht, hd]
  rw [List.append_nil]

theorem scan_int (c : Char) (cs rest : Str) (hc : pyIsDigit c = true)
    (hcs : cs.all pyIsDigit = true) (hrest : headNotDigit rest = true) :
    scanToken ((c :: cs) ++ rest) = .ok (some (Tok.int (c :: cs), rest)) := by
  obtain ⟨ht, hd⟩ := headNotDigit_spec rest hrest
  have hsp : ¬ pyIsSpace c = true := by
    intro h
    simp only [pyIsSpace, Bool.or_eq_true, decide_eq_true_eq] at h
    rcases h with ((((h | h) | h) | h) | h) | h <;> subst h <;>
      exact absurd hc (by decide)
  have hne : ∀ d : Char, pyIsDigit d = false → ¬ c = d := by
    intro d hdf he
    subst he
    rw [hc] at hdf
    exact absurd hdf (by simp)
  have hni : ¬ identStart c = true := by
    intro h
    simp only [identStart, Bool.or_eq_true, decide_eq_true_eq] at h
    rcases h with h | h
    · exact alpha_digit_disjoint c h hc
    · subst h
      exact absurd hc (by decide)
  show scanToken (c :: (cs ++ rest)) = _
  simp only [scanToken]
  rw [if_neg hsp, if_neg (hne _ (by decide)), if_neg (hne _ (by decide)),
    if_neg (hne _ (by decide)), if_neg (hne _ (by decide)),
    if_neg (hne _ (by decide)), if_neg (hne _ (by decide)), if_neg hni,
    if_pos hc]
  rw [(takeWhile_append_all pyIsDigit cs rest hcs).1,
    (takeWhile_append_all pyIsDigit cs rest hcs).2, ht, hd]
  rw [List.append_nil]

theorem indent_all_space (n : Nat) :
    (List.replicate n ' ').all pyIsSpace = true := by
  induction n with
  | zero => rfl
  | succ k ih => simp [List.replicate, pyIsSpace, ih]

theorem tokenize_spaces :
    ∀ (ws rest : Str), ws.all pyIsSpace = true →
    tokenize (ws ++ rest) = tokenize rest
  | [], rest, _ => rfl
  | w :: ws, rest, h => by
    simp only [List.all_cons, Bool.and_eq_true] at h
    rw [List.cons_append, tokenize_space w (ws ++ rest) h.1,
      tokenize_spaces ws rest h.2]

theorem tok_semi (rest : Str) (ts : List Tok) (h : tokenize rest = .ok ts) :
    tokenize (';' :: rest) = .ok (Tok.semi :: ts) :=
  tokenize_step _ _ _ _ (scan_semi rest) h

theorem tok_assign (rest : Str) (ts : List Tok) (h : tokenize rest = .ok ts) :
    tokenize ('=' :: rest) = .ok (Tok.assign :: ts) :=
  tokenize_step _ _ _ _ (scan_assign rest) h

theorem tok_open (rest : Str) (ts : List Tok) (h : tokenize rest = .ok ts) :
    tokenize (braceOpen :: rest) = .ok (Tok.openBrace :: ts) :=
  tokenize_step _ _ _ _ (scan_open rest) h

theorem tok_close (rest : Str) (ts : List Tok) (h : tokenize rest = .ok ts) :
    tokenize (braceClose :: rest) = .ok (Tok.closeBrace :: ts) :=
  tokenize_step _ _ _ _ (scan_close rest) h

theorem tok_string (v rest : Str) (ts : List Tok) (hv : noNL v = true)
    (h : tokenize rest = .ok ts) :
    tokenize ('"' :: (escapeStr v ++ '"' :: rest)) = .ok (Tok.str v :: ts) :=
  tokenize_step _ _ _ _ (scan_string v rest hv) h

theorem tok_rawstring (v rest : Str) (ts : List Tok) (hv : rawSafe v = true)
    (h : tokenize rest = .ok ts) :
    tokenize ('"' :: (v ++ '"' :: rest)) = .ok (Tok.str v :: ts) :=
  tokenize_step _ _ _ _ (scan_rawstring v rest hv) h

theorem tok_ident (c : Char) (cs rest : Str) (ts : List Tok)
    (hstart : identStart c = true) (hcs : cs.all identChar = true)
    (hrest : headNotIdent rest = true) (h : tokenize rest = .ok ts) :
    tokenize ((c :: cs) ++ rest) = .ok (Tok.ident (c :: cs) :: ts) :=
  tokenize_step _ _ _ _ (scan_ident c cs rest hstart hcs hrest) h

theorem tok_int (c : Char) (cs rest : Str) (ts : List Tok)
    (hc : pyIsDigit c = true) (hcs : cs.all pyIsDigit = true)
    (hrest : headNotDigit rest = true) (h : tokenize rest = .ok ts) :
    tokenize ((c :: cs) ++ rest) = .ok (Tok.int (c :: cs) :: ts) :=
  tokenize_step _ _ _ _ (scan_int c cs rest hc hcs hrest) h

theorem tok_attr (ind : Nat) (kc : Char) (kcs v rest : Str) (ts : List Tok)
    (hk1 : identStart kc = true) (hk2 : kcs.all identChar = true)
    (hv : noNL v = true) (h : tokenize rest = .ok ts) :
    tokenize ((indentStr ind ++ chunkSp4 ++ (kc :: kcs) ++ chunkEqQuote ++
      escapeStr v ++ chunkQuoteSemi) ++ rest) =
      .ok (attrToks (kc :: kcs) v ++ ts) := by
  have h1 := tok_semi rest ts h
  have h2 := tok_string v (';' :: rest) _ hv h1
  have h3 := tokenize_space ' ' _ (by decide)
    |>.trans (tok_assign _ _ (tokenize_space ' ' _ (by decide) |>.trans h2))
  have h4 := tok_ident kc kcs
    (' ' :: '=' :: ' ' :: '"' :: (escapeStr v ++ '"' :: ';' :: rest)) _
    hk1 hk2 rfl h3
  have h5 := (tokenize_spaces chunkSp4 _ (by decide)).trans h4
  have h6 := (tokenize_spaces (indentStr ind) _ (indent_all_space _)).trans h5
  rw [show (indentStr ind ++ chunkSp4 ++ (kc :: kcs) ++ chunkEqQuote ++
      escapeStr v ++ chunkQuoteSemi) ++ rest =
    indentStr ind ++ (chunkSp4 ++ ((kc :: kcs) ++ (' ' :: '=' :: ' ' ::
      '"' :: (escapeStr v ++ '"' :: ';' :: rest)))) by
    simp [chunkSp4, chunkEqQuote, chunkQuoteSemi, List.append_assoc]]
  exact h6

theorem nlJoin_single (a : Str) : nlJoin [a] = a := by
  simp [nlJoin, List.intercalate]

theorem nlJoin_cons (a b : Str) (l : List Str) :
    nlJoin (a :: b :: l) = a ++ '\n' :: nlJoin (b :: l) := by
  simp [nlJoin, List.intercalate, List.intersperse]

theorem tok_close_line (ind : Nat) (rest : Str) (ts : List Tok)
    (h : tokenize rest = .ok ts) :
    tokenize ((indentStr ind ++ chunkClose) ++ rest) =
      .ok (Tok.closeBrace :: ts) := by
  rw [show (indentStr ind ++ chunkClose) ++ rest =
    indentStr ind ++ (braceClose :: rest) by simp [chunkClose, braceClose]]
  exact (tokenize_spaces _ _ (indent_all_space _)).trans (tok_close rest ts h)

theorem tok_cmd_head_bare (ind : Nat) (rest : Str) (ts : List Tok)
    (h : tokenize rest = .ok ts) :
    tokenize ((indentStr ind ++ chunkCmdBrace) ++ rest) =
      .ok (Tok.ident kwCmd :: Tok.openBrace :: ts) := by
  have h1 := tok_open rest ts h
  have h2 := (tokenize_space ' ' _ (by decide)).trans h1
  have h3 := tok_ident 'c' (['m', 'd'] : Str) (' ' :: braceOpen :: rest) _
    (by decide) (by decide) rfl h2
  have h4 := (tokenize_spaces (indentStr ind) _ (indent_all_space _)).trans h3
  rw [show (indentStr ind ++ chunkCmdBrace) ++ rest =
    indentStr ind ++ (('c' :: ['m', 'd']) ++ (' ' :: braceOpen :: rest)) by
      simp [chunkCmdBrace, braceOpen]]
  rw [h4]
  rfl

theorem tok_cmd_head_named (ind : Nat) (nick rest : Str) (ts : List Tok)
    (hn : noNL nick = true) (h : tokenize rest = .ok ts) :
    tokenize ((indentStr ind ++ chunkCmdQuote ++ escapeStr nick ++
      chunkQuoteBrace) ++ rest) =
      .ok (Tok.ident kwCmd :: Tok.str nick :: Tok.openBrace :: ts) := by
  have h1 := tok_open rest ts h
  have h2 := (tokenize_space ' ' _ (by decide)).trans h1
  have h3 := tok_string nick (' ' :: braceOpen :: rest) _ hn h2
  have h4 := (tokenize_space ' ' _ (by decide)).trans h3
  have h5 := tok_ident 'c' (['m', 'd'] : Str)
    (' ' :: '"' :: (escapeStr nick ++ '"' :: ' ' :: braceOpen :: rest)) _
    (by decide) (by decide) rfl h4
  have h6 := (tokenize_spaces (indentStr ind) _ (indent_all_space _)).trans h5
  rw [show (indentStr ind ++ chunkCmdQuote ++ escapeStr nick ++
      chunkQuoteBrace) ++ rest =
    indentStr ind ++ (('c' :: ['m', 'd']) ++ (' ' :: '"' ::
      (escapeStr nick ++ '"' :: ' ' :: braceOpen :: rest))) by
      simp [chunkCmdQuote, chunkQuoteBrace, braceOpen]]
  rw [h6]
  rfl

theorem tok_attr_named (ind : Nat) (k v rest : Str) (ts : List Tok)
    (hk : ∃ kc kcs, k = kc :: kcs ∧ identStart kc = true ∧
      kcs.all identChar = true)
    (hv : noNL v = true) (h : tokenize rest = .ok ts) :
    tokenize ((attrLine (indentStr ind) k v) ++ rest) =
      .ok (attrToks k v ++ ts) := by
  obtain ⟨kc, kcs, rfl, hk1, hk2⟩ := hk
  have := tok_attr ind kc kcs v rest ts hk1 hk2 hv h
  simpa [attrLine] using this

theorem tok_cmdGetStr (ind : Nat) (c : CommandNode) (rest : Str)
    (ts : List Tok) (hc : goodCommand c = true) (h : tokenize rest = .ok ts) :
    tokenize (cmdGetStr ind c ++ rest) = .ok (cmdToks c ++ ts) := by
  simp only [goodCommand, Bool.and_eq_true] at hc
  obtain ⟨⟨⟨he0, hh0⟩, ha0⟩, hn0⟩ := hc
  rcases he : c.exec with _ | ve
  · rw [he] at he0
    simp at he0
  rw [he] at he0
  simp only [Bool.and_eq_true, Bool.not_eq_true', decide_eq_true_eq] at he0
  obtain ⟨hene, henl⟩ := he0
  rcases hh : c.host with _ | vh
  · rw [hh] at hh0
    simp at hh0
  rw [hh] at hh0
  simp only [Bool.and_eq_true, Bool.not_eq_true', decide_eq_true_eq] at hh0
  obtain ⟨hhne, hhnl⟩ := hh0
  have hkExec : ∃ kc kcs, kwExec = kc :: kcs ∧ identStart kc = true ∧
      kcs.all identChar = true := ⟨'e', ['x', 'e', 'c'], rfl, by decide,
        by decide⟩
  have hkHost : ∃ kc kcs, kwHost = kc :: kcs ∧ identStart kc = true ∧
      kcs.all identChar = true := ⟨'h', ['o', 's', 't'], rfl, by decide,
        by decide⟩
  have hkAuto : ∃ kc kcs, kwAutoRespawn = kc :: kcs ∧ identStart kc = true ∧
      kcs.all identChar = true :=
    ⟨'a', "uto_respawn".toList, rfl, by decide, by decide⟩
  -- the tail: close line
  have h1 := tok_close_line ind rest ts h
  have h2 := (tokenize_space '\n' _ (by decide)).trans h1
  -- host line
  have h3 := tok_attr_named ind kwHost vh
    ('\n' :: ((indentStr ind ++ chunkClose) ++ rest)) _ hkHost
    hhnl h2
  have h4 := (tokenize_space '\n' _ (by decide)).trans h3
  -- exec line
  have h5 := tok_attr_named ind kwExec ve _ _ hkExec
    henl h4
  have h6 := (tokenize_space '\n' _ (by decide)).trans h5
  rcases ha : c.auto_respawn with _ | va
  · -- no auto_respawn attribute
    rcases hn : c.nickname with _ | ⟨nc, nrest⟩
    · -- bare head
      have h7 := tok_cmd_head_bare ind _ _ h6
      rw [show cmdGetStr ind c ++ rest =
        (indentStr ind ++ chunkCmdBrace) ++ ('\n' ::
          (attrLine (indentStr ind) kwExec ve ++ ('\n' ::
            (attrLine (indentStr ind) kwHost vh ++ ('\n' ::
              ((indentStr ind ++ chunkClose) ++ rest)))))) by
        simp [cmdGetStr, cmdAttrLines, he, hh, ha, hn, hene, hhne,
          nlJoin_cons, nlJoin_single, List.append_assoc]]
      rw [h7]
      simp [cmdToks, he, hh, ha, hn, hene, hhne]
    · -- named head
      have hnl : noNL c.nickname = true := hn0
      rw [hn] at hnl
      have h7 := tok_cmd_head_named ind (nc :: nrest) _ _ hnl h6
      rw [show cmdGetStr ind c ++ rest =
        (indentStr ind ++ chunkCmdQuote ++ escapeStr (nc :: nrest) ++
          chunkQuoteBrace) ++ ('\n' ::
          (attrLine (indentStr ind) kwExec ve ++ ('\n' ::
            (attrLine (indentStr ind) kwHost vh ++ ('\n' ::
              ((indentStr ind ++ chunkClose) ++ rest)))))) by
        simp [cmdGetStr, cmdAttrLines, he, hh, ha, hn, hene, hhne,
          nlJoin_cons, nlJoin_single, List.append_assoc]]
      rw [h7]
      simp [cmdToks, he, hh, ha, hn, hene, hhne]
  · -- auto_respawn present
    rw [ha] at ha0
    simp only [Bool.and_eq_true, Bool.not_eq_true', decide_eq_true_eq] at ha0
    obtain ⟨hane, hanl⟩ := ha0
    have h7 := tok_attr_named ind kwAutoRespawn va _ _ hkAuto
      hanl h6
    have h8 := (tokenize_space '\n' _ (by decide)).trans h7
    rcases hn : c.nickname with _ | ⟨nc, nrest⟩
    · have h9 := tok_cmd_head_bare ind _ _ h8
      rw [show cmdGetStr ind c ++ rest =
        (indentStr ind ++ chunkCmdBrace) ++ ('\n' ::
          (attrLine (indentStr ind) kwAutoRespawn va ++ ('\n' ::
            (attrLine (indentStr ind) kwExec ve ++ ('\n' ::
              (attrLine (indentStr ind) kwHost vh ++ ('\n' ::
                ((indentStr ind ++ chunkClose) ++ rest)))))))) by
        simp [cmdGetStr, cmdAttrLines, he, hh, ha, hn, hene, hhne, hane,
          nlJoin_cons, nlJoin_single, List.append_assoc]]
      rw [h9]
      simp [cmdToks, he, hh, ha, hn, hene, hhne, hane]
    · have hnl : noNL c.nickname = true := hn0
      rw [hn] at hnl
      have h9 := tok_cmd_head_named ind (nc :: nrest) _ _ hnl h8
      rw [show cmdGetStr ind c ++ rest =
        (indentStr ind ++ chunkCmdQuote ++ escapeStr (nc :: nrest) ++
          chunkQuoteBrace) ++ ('\n' ::
          (attrLine (indentStr ind) kwAutoRespawn va ++ ('\n' ::
            (attrLine (indentStr ind) kwExec ve ++ ('\n' ::
              (attrLine (indentStr ind) kwHost vh ++ ('\n' ::
                ((indentStr ind ++ chunkClose) ++ rest)))))))) by
        simp [cmdGetStr, cmdAttrLines, he, hh, ha, hn, hene, hhne, hane,
          nlJoin_cons, nlJoin_single, List.append_assoc]]
      rw [h9]
      simp [cmdToks, he, hh, ha, hn, hene, hhne, hane]

theorem tok_cmds_join (ind : Nat) :
    ∀ (cmds : List CommandNode) (rest : Str) (ts : List Tok),
    cmds.all goodCommand = true → tokenize rest = .ok ts →
    tokenize (nlJoin (cmds.map (cmdGetStr ind)) ++ rest) =
      .ok ((cmds.map cmdToks).flatten ++ ts)
  | [], rest, ts, _, h => by simpa [nlJoin] using h
  | [c], rest, ts, hall, h => by
    simp only [List.all_cons, Bool.and_eq_true, List.all_nil] at hall
    simp only [List.map_cons, List.map_nil, nlJoin_single, List.flatten,
      List.append_nil]
    exact tok_cmdGetStr ind c rest ts hall.1 h
  | c :: c2 :: cmds, rest, ts, hall, h => by
    simp only [List.all_cons, Bool.and_eq_true] at hall
    have ih := tok_cmds_join ind (c2 :: cmds) rest ts
      (by simp [List.all_cons, hall.2.1, hall.2.2]) h
    have h2 := (tokenize_space '\n' _ (by decide)).trans ih
    have h3 := tok_cmdGetStr ind c _ _ hall.1 h2
    have htext : nlJoin ((c :: c2 :: cmds).map (cmdGetStr ind)) ++ rest =
        cmdGetStr ind c ++ ('\n' ::
          (nlJoin ((c2 :: cmds).map (cmdGetStr ind)) ++ rest)) := by
      simp only [List.map_cons]
      rw [nlJoin_cons]
      simp [List.append_assoc]
    rw [htext, h3]
    simp

theorem tok_groupStr (g : GroupNode) (rest : Str) (ts : List Tok)
    (hg : goodGroup g = true) (h : tokenize rest = .ok ts) :
    tokenize (groupStr g ++ rest) = .ok (groupToks g ++ ts) := by
  simp only [goodGroup, Bool.and_eq_true] at hg
  obtain ⟨hname, hcmds⟩ := hg
  have hall : g.commands.all goodCommand = true := by
    rw [List.all_eq_true] at hcmds ⊢
    exact fun c hc => ((Bool.and_eq_true _ _).mp (hcmds c hc)).1
  by_cases hroot : g.name = []
  · rw [groupStr, if_pos hroot, groupToks, if_pos hroot]
    exact tok_cmds_join 0 g.commands rest ts hall h
  · rw [groupStr, if_neg hroot, groupToks, if_neg hroot]
    have a1 := (tokenize_space '\n' rest (by decide)).trans h
    have a2 := tok_close _ _ a1
    have a3 := (tokenize_space '\n' _ (by decide)).trans a2
    have a4 := tok_cmds_join 1 g.commands _ _ hall a3
    have a5 := (tokenize_space '\n' _ (by decide)).trans a4
    have a6 := tok_open _ _ a5
    have a7 := (tokenize_space ' ' _ (by decide)).trans a6
    have a8 := tok_rawstring g.name _ _ hname a7
    have a9 := (tokenize_space ' ' _ (by decide)).trans a8
    have a10 := tok_ident 'g' (['r', 'o', 'u', 'p'] : Str)
      (' ' :: '"' :: (g.name ++ '"' :: ' ' :: braceOpen :: '\n' ::
        (nlJoin (g.commands.map (cmdGetStr 1)) ++ ('\n' :: braceClose ::
          '\n' :: rest)))) _ (by decide) (by decide) rfl a9
    have htext : (chunkGroupQuote ++ g.name ++ chunkQuoteBraceNl ++
        nlJoin (g.commands.map (cmdGetStr 1)) ++ chunkNlCloseNl) ++ rest =
        ('g' :: ['r', 'o', 'u', 'p']) ++ (' ' :: '"' :: (g.name ++ '"' ::
          ' ' :: braceOpen :: '\n' ::
          (nlJoin (g.commands.map (cmdGetStr 1)) ++ ('\n' :: braceClose ::
            '\n' :: rest)))) := by
      simp [chunkGroupQuote, chunkQuoteBraceNl, chunkNlCloseNl, braceOpen,
        braceClose, List.append_assoc]
    rw [htext, a10]
    simp [kwGroup]

theorem natToStr_spec (n : Nat) :
    ∃ d ds, natToStr n = d :: ds ∧ pyIsDigit d = true ∧
      ds.all pyIsDigit = true := by
  induction n using Nat.strong_induction_on with
  | _ n ih =>
    rw [natToStr]
    split
    · next hlt =>
      refine ⟨Char.ofNat (48 + n), [], rfl, ?_, rfl⟩
      interval_cases n <;> decide
    · next hge =>
      have hdiv : n / 10 < n := Nat.div_lt_self (by omega) (by omega)
      obtain ⟨d, ds, heq, hd, hds⟩ := ih (n / 10) hdiv
      rw [heq]
      refine ⟨d, ds ++ [Char.ofNat (48 + n % 10)], rfl, hd, ?_⟩
      have hm : n % 10 < 10 := Nat.mod_lt _ (by omega)
      have hdig : pyIsDigit (Char.ofNat (48 + n % 10)) = true := by
        set r := n % 10 with hr
        clear_value r
        interval_cases r <;> decide
      simp [List.all_append, hds, hdig]

theorem tok_action (a : ActionNode) (rest : Str) (ts : List Tok)
    (ha : goodAction a = true) (h : tokenize rest = .ok ts) :
    tokenize (actionStr a ++ rest) = .ok (actionToks a ++ ts) := by
  cases a with
  | startStopRestart action_type ident_type ident wait_status =>
    simp only [goodAction, Bool.and_eq_true] at ha
    obtain ⟨⟨hat, hit⟩, hws⟩ := ha
    have hatk : ∃ kc kcs, action_type = kc :: kcs ∧ identStart kc = true ∧
        kcs.all identChar = true := by
      rcases (Bool.or_eq_true _ _).mp hat with h1 | h1
      · rcases (Bool.or_eq_true _ _).mp h1 with h2 | h2
        · exact ⟨'s', "tart".toList, by simpa [kwStart] using h2, by decide,
            by decide⟩
        · exact ⟨'s', "top".toList, by simpa [kwStop] using h2, by decide,
            by decide⟩
      · exact ⟨'r', "estart".toList, by simpa [kwRestart] using h1, by decide,
          by decide⟩
    obtain ⟨ac, acs, hae, ha1, ha2⟩ := hatk
    -- split on everything vs cmd/group
    rcases (Bool.or_eq_true _ _).mp hit with h1 | h1
    · -- everything: ident is none
      obtain ⟨hevt, hidn⟩ := (Bool.and_eq_true _ _).mp h1
      have hev : ident_type = kwEverything := by simpa using hevt
      have hid : ident = none := by simpa using hidn
      subst hev hid
      rcases wait_status with _ | ws
      · -- plain:  AT everything;
        have b1 := tok_semi rest ts h
        have b2 := tok_ident 'e' "verything".toList (';' :: rest) _
          (by decide) (by decide) (by rfl) b1
        have b3 := (tokenize_space ' ' _ (by decide)).trans b2
        have b4 := tok_ident ac acs _ _ ha1 ha2 (by rfl) b3
        rw [show actionStr (.startStopRestart action_type kwEverything
            none none) ++ rest = (ac :: acs) ++ (' ' ::
            (('e' :: "verything".toList) ++ (';' :: rest))) by
          simp [actionStr, hae, kwEverything, List.append_assoc]]
        rw [b4]
        simp [actionToks, hae, kwEverything]
      · -- with wait status
        have hwsk : (ws = kwRunning ∨ ws = kwStopped) := by
          rcases (Bool.or_eq_true _ _).mp hws with h2 | h2 <;>
            [left; right] <;> simpa using h2
        have hwsr : rawSafe ws = true := by
          rcases hwsk with h2 | h2 <;> subst h2 <;> decide
        have b1 := tok_semi rest ts h
        have b2 := tok_rawstring ws (';' :: rest) _ hwsr b1
        have b3 := (tokenize_space ' ' _ (by decide)).trans b2
        have b4 := tok_ident 'w' "ait".toList _ _ (by decide) (by decide)
          (by rfl) b3
        have b5 := (tokenize_space ' ' _ (by decide)).trans b4
        have b6 := tok_ident 'e' "verything".toList _ _ (by decide)
          (by decide) (by rfl) b5
        have b7 := (tokenize_space ' ' _ (by decide)).trans b6
        have b8 := tok_ident ac acs _ _ ha1 ha2 (by rfl) b7
        rw [show actionStr (.startStopRestart action_type kwEverything
            none (some ws)) ++ rest = (ac :: acs) ++ (' ' ::
            (('e' :: "verything".toList) ++ (' ' ::
              (('w' :: "ait".toList) ++ (' ' :: '"' ::
                (ws ++ '"' :: ';' :: rest)))))) by
          simp [actionStr, hae, kwEverything, chunkWaitQuote, chunkQuoteSemi,
            List.append_assoc]]
        rw [b8]
        simp [actionToks, hae, kwEverything, kwWait]
    · -- cmd or group with an ident string
      obtain ⟨hcg, hidn⟩ := (Bool.and_eq_true _ _).mp h1
      rcases hi : ident with _ | iv
      · rw [hi] at hidn
        simp at hidn
      rw [hi] at hidn
      have hinl : noNL iv = true := by simpa using hidn
      have hitne : ¬ ident_type = kwEverything := by
        rcases (Bool.or_eq_true _ _).mp hcg with h2 | h2 <;>
          have h3 := decide_eq_true_eq.mp h2 <;> subst h3 <;> decide
      have hitk : ∃ kc kcs, ident_type = kc :: kcs ∧ identStart kc = true ∧
          kcs.all identChar = true := by
        rcases (Bool.or_eq_true _ _).mp hcg with h2 | h2
        · exact ⟨'c', "md".toList, by simpa [kwCmd] using h2, by decide,
            by decide⟩
        · exact ⟨'g', "roup".toList, by simpa [kwGroup] using h2, by decide,
            by decide⟩
      obtain ⟨ic, ics, hie, hi1, hi2⟩ := hitk
      rw [hie] at hitne
      rcases wait_status with _ | ws
      · have b1 := tok_semi rest ts h
        have b2 := tok_string iv (';' :: rest) _ hinl b1
        have b3 := (tokenize_space ' ' _ (by decide)).trans b2
        have b4 := tok_ident ic ics _ _ hi1 hi2 (by rfl) b3
        have b5 := (tokenize_space ' ' _ (by decide)).trans b4
        have b6 := tok_ident ac acs _ _ ha1 ha2 (by rfl) b5
        rw [show actionStr (.startStopRestart action_type ident_type
            (some iv) none) ++ rest = (ac :: acs) ++ (' ' ::
            ((ic :: ics) ++ (' ' :: '"' ::
              (escapeStr iv ++ '"' :: ';' :: rest)))) by
          simp [actionStr, hae, hie, hitne, List.append_assoc]]
        rw [b6]
        simp [actionToks, hae, hie, hitne]
      · have hwsk : (ws = kwRunning ∨ ws = kwStopped) := by
          rcases (Bool.or_eq_true _ _).mp hws with h2 | h2 <;>
            [left; right] <;> simpa using h2
        have hwsr : rawSafe ws = true := by
          rcases hwsk with h2 | h2 <;> subst h2 <;> decide
        have b1 := tok_semi rest ts h
        have b2 := tok_rawstring ws (';' :: rest) _ hwsr b1
        have b3 := (tokenize_space ' ' _ (by decide)).trans b2
        have b4 := tok_ident 'w' "ait".toList _ _ (by decide) (by decide)
          (by rfl) b3
        have b5 := (tokenize_space ' ' _ (by decide)).trans b4
        have b6 := tok_string iv _ _ hinl b5
        have b7 := (tokenize_space ' ' _ (by decide)).trans b6
        have b8 := tok_ident ic ics _ _ hi1 hi2 (by rfl) b7
        have b9 := (tokenize_space ' ' _ (by decide)).trans b8
        have b10 := tok_ident ac acs _ _ ha1 ha2 (by rfl) b9
        rw [show actionStr (.startStopRestart action_type ident_type
            (some iv) (some ws)) ++ rest = (ac :: acs) ++ (' ' ::
            ((ic :: ics) ++ (' ' :: '"' ::
              (escapeStr iv ++ '"' :: (' ' ::
                (('w' :: "ait".toList) ++ (' ' :: '"' ::
                  (ws ++ '"' :: ';' :: rest)))))))) by
          simp [actionStr, hae, hie, hitne, chunkWaitQuote, chunkQuoteSemi,
            List.append_assoc]]
        rw [b10]
        simp [actionToks, hae, hie, hitne, kwWait]
  | waitMs d =>
    simp only [goodAction, decide_eq_true_eq] at ha
    obtain ⟨dc, dcs, hde, hd1, hd2⟩ := natToStr_spec d.toNat
    have b1 := tok_semi rest ts h
    have b2 := tok_int dc dcs (';' :: rest) _ hd1 hd2 (by rfl) b1
    have b3 := (tokenize_space ' ' _ (by decide)).trans b2
    have b4 := tok_ident 'm' (['s'] : Str) _ _ (by decide) (by decide) (by rfl) b3
    have b5 := (tokenize_space ' ' _ (by decide)).trans b4
    have b6 := tok_ident 'w' "ait".toList _ _ (by decide) (by decide) (by rfl) b5
    have hint : intToStr d = natToStr d.toNat := by
      rw [intToStr, if_neg (by omega)]
    rw [show actionStr (.waitMs d) ++ rest = ('w' :: "ait".toList) ++
        (' ' :: (('m' :: ['s']) ++ (' ' ::
          ((dc :: dcs) ++ (';' :: rest))))) by
      simp [actionStr, chunkWaitMs, hint, hde, List.append_assoc]]
    rw [b6]
    simp [actionToks, kwWait, kwMs, hint, hde]
  | waitStatus ident_type ident wait_status =>
    simp only [goodAction, Bool.and_eq_true] at ha
    obtain ⟨⟨hcg, hinl⟩, hws⟩ := ha
    have hitk : ∃ kc kcs, ident_type = kc :: kcs ∧ identStart kc = true ∧
        kcs.all identChar = true := by
      rcases (Bool.or_eq_true _ _).mp hcg with h2 | h2
      · exact ⟨'c', "md".toList, by simpa [kwCmd] using h2, by decide,
          by decide⟩
      · exact ⟨'g', "roup".toList, by simpa [kwGroup] using h2, by decide,
          by decide⟩
    obtain ⟨ic, ics, hie, hi1, hi2⟩ := hitk
    have hwsk : (wait_status = kwRunning ∨ wait_status = kwStopped) := by
      rcases (Bool.or_eq_true _ _).mp hws with h2 | h2 <;>
        [left; right] <;> simpa using h2
    have hwsr : rawSafe wait_status = true := by
      rcases hwsk with h2 | h2 <;> subst h2 <;> decide
    have b1 := tok_semi rest ts h
    have b2 := tok_rawstring wait_status (';' :: rest) _ hwsr b1
    have b3 := (tokenize_space ' ' _ (by decide)).trans b2
    have b4 := tok_ident 's' "tatus".toList _ _ (by decide) (by decide)
      (by rfl) b3
    have b5 := (tokenize_space ' ' _ (by decide)).trans b4
    have b6 := tok_string ident _ _ hinl b5
    have b7 := (tokenize_space ' ' _ (by decide)).trans b6
    have b8 := tok_ident ic ics _ _ hi1 hi2 (by rfl) b7
    have b9 := (tokenize_space ' ' _ (by decide)).trans b8
    have b10 := tok_ident 'w' "ait".toList _ _ (by decide) (by decide)
      (by rfl) b9
    rw [show actionStr (.waitStatus ident_type ident wait_status) ++ rest =
        ('w' :: "ait".toList) ++ (' ' :: ((ic :: ics) ++ (' ' :: '"' ::
          (escapeStr ident ++ '"' :: (' ' ::
            (('s' :: "tatus".toList) ++ (' ' :: '"' ::
              (wait_status ++ '"' :: ';' :: rest)))))))) by
      simp [actionStr, hie, chunkWaitSp, chunkStatusQuote, chunkQuoteSemi,
        List.append_assoc]]
    rw [b10]
    simp [actionToks, kwWait, kwStatus, hie]
  | runScript n =>
    simp only [goodAction] at ha
    have b1 := tok_semi rest ts h
    have b2 := tok_string n (';' :: rest) _ ha b1
    have b3 := (tokenize_space ' ' _ (by decide)).trans b2
    have b4 := tok_ident 'r' "un_script".toList _ _ (by decide) (by decide)
      (by rfl) b3
    rw [show actionStr (.runScript n) ++ rest = ('r' :: "un_script".toList)
        ++ (' ' :: '"' :: (escapeStr n ++ '"' :: ';' :: rest)) by
      simp [actionStr, chunkRunScriptQuote, chunkQuoteSemi,
        List.append_assoc]]
    rw [b4]
    simp [actionToks, kwRunScript]

theorem tok_actions :
    ∀ (acts : List ActionNode) (rest : Str) (ts : List Tok),
    acts.all goodAction = true → tokenize rest = .ok ts →
    tokenize ((acts.map (fun a => chunkNlSp4 ++ actionStr a)).flatten ++
      rest) = .ok ((acts.map actionToks).flatten ++ ts)
  | [], rest, ts, _, h => by simpa using h
  | a :: acts, rest, ts, hall, h => by
    simp only [List.all_cons, Bool.and_eq_true] at hall
    have ih := tok_actions acts rest ts hall.2 h
    have h1 := tok_action a _ _ hall.1 ih
    have h2 := (tokenize_space ' ' _ (by decide)).trans h1
    have h3 := (tokenize_space ' ' _ (by decide)).trans h2
    have h4 := (tokenize_space ' ' _ (by decide)).trans h3
    have h5 := (tokenize_space ' ' _ (by decide)).trans h4
    have h6 := (tokenize_space '\n' _ (by decide)).trans h5
    have htext : ((a :: acts).map
        (fun a => chunkNlSp4 ++ actionStr a)).flatten ++ rest =
        '\n' :: ' ' :: ' ' :: ' ' :: ' ' :: (actionStr a ++
          ((acts.map (fun a => chunkNlSp4 ++ actionStr a)).flatten ++
            rest)) := by
      simp [chunkNlSp4, List.append_assoc]
    rw [htext, h6]
    simp

theorem tok_scriptStr (s : ScriptNode) (rest : Str) (ts : List Tok)
    (hs : goodScript s = true) (h : tokenize rest = .ok ts) :
    tokenize (scriptStr s ++ rest) = .ok (scriptToks s ++ ts) := by
  simp only [goodScript, Bool.and_eq_true] at hs
  obtain ⟨hname, hacts⟩ := hs
  have a1 := (tokenize_space '\n' rest (by decide)).trans h
  have a2 := tok_close _ _ a1
  have a3 := (tokenize_space '\n' _ (by decide)).trans a2
  have a4 := tok_actions s.actions _ _ hacts a3
  have a5 := tok_open _ _ a4
  have a6 := (tokenize_space ' ' _ (by decide)).trans a5
  have a7 := tok_string s.name _ _ hname a6
  have a8 := (tokenize_space ' ' _ (by decide)).trans a7
  have a9 := tok_ident 's' "cript".toList
    (' ' :: '"' :: (escapeStr s.name ++ '"' :: ' ' :: braceOpen ::
      ((s.actions.map (fun a => chunkNlSp4 ++ actionStr a)).flatten ++
        ('\n' :: braceClose :: '\n' :: rest)))) _ (by decide) (by decide)
    (by rfl) a8
  have htext : scriptStr s ++ rest = ('s' :: "cript".toList) ++
      (' ' :: '"' :: (escapeStr s.name ++ '"' :: ' ' :: braceOpen ::
        ((s.actions.map (fun a => chunkNlSp4 ++ actionStr a)).flatten ++
          ('\n' :: braceClose :: '\n' :: rest)))) := by
    simp [scriptStr, chunkScriptQuote, chunkQuoteBrace, chunkNlCloseNl,
      braceOpen, braceClose, List.append_assoc]
  rw [htext, a9]
  simp [scriptToks, kwScript]

theorem tok_groups_join :
    ∀ (gs : List GroupNode) (rest : Str) (ts : List Tok),
    gs.all goodGroup = true → tokenize rest = .ok ts →
    tokenize (nlJoin (gs.map groupStr) ++ rest) =
      .ok ((gs.map groupToks).flatten ++ ts)
  | [], rest, ts, _, h => by simpa [nlJoin] using h
  | [g], rest, ts, hall, h => by
    simp only [List.all_cons, Bool.and_eq_true, List.all_nil] at hall
    simp only [List.map_cons, List.map_nil, nlJoin_single, List.flatten,
      List.append_nil]
    exact tok_groupStr g rest ts hall.1 h
  | g :: g2 :: gs, rest, ts, hall, h => by
    simp only [List.all_cons, Bool.and_eq_true] at hall
    have ih := tok_groups_join (g2 :: gs) rest ts
      (by simp [List.all_cons, hall.2.1, hall.2.2]) h
    have h2 := (tokenize_space '\n' _ (by decide)).trans ih
    have h3 := tok_groupStr g _ _ hall.1 h2
    have htext : nlJoin ((g :: g2 :: gs).map groupStr) ++ rest =
        groupStr g ++ ('\n' ::
          (nlJoin ((g2 :: gs).map groupStr) ++ rest)) := by
      simp only [List.map_cons]
      rw [nlJoin_cons]
      simp [List.append_assoc]
    rw [htext, h3]
    simp

theorem tok_scripts_join :
    ∀ (ss : List ScriptNode) (rest : Str) (ts : List Tok),
    ss.all goodScript = true → tokenize rest = .ok ts →
    tokenize (nlJoin (ss.map scriptStr) ++ rest) =
      .ok ((ss.map scriptToks).flatten ++ ts)
  | [], rest, ts, _, h => by simpa [nlJoin] using h
  | [s], rest, ts, hall, h => by
    simp only [List.all_cons, Bool.and_eq_true, List.all_nil] at hall
    simp only [List.map_cons, List.map_nil, nlJoin_single, List.flatten,
      List.append_nil]
    exact tok_scriptStr s rest ts hall.1 h
  | s :: s2 :: ss, rest, ts, hall, h => by
    simp only [List.all_cons, Bool.and_eq_true] at hall
    have ih := tok_scripts_join (s2 :: ss) rest ts
      (by simp [List.all_cons, hall.2.1, hall.2.2]) h
    have h2 := (tokenize_space '\n' _ (by decide)).trans ih
    have h3 := tok_scriptStr s _ _ hall.1 h2
    have htext : nlJoin ((s :: s2 :: ss).map scriptStr) ++ rest =
        scriptStr s ++ ('\n' ::
          (nlJoin ((s2 :: ss).map scriptStr) ++ rest)) := by
      simp only [List.map_cons]
      rw [nlJoin_cons]
      simp [List.append_assoc]
    rw [htext, h3]
    simp

theorem all_of_perm {l1 l2 : List α} (p : α → Bool) (hp : l1.Perm l2)
    (h : l1.all p = true) : l2.all p = true := by
  rw [List.all_eq_true] at h ⊢
  exact fun x hx => h x (hp.mem_iff.mpr hx)

theorem tok_configStr (cfg : ConfigNode) (hc : goodConfig cfg = true) :
    tokenize (configStr cfg) = .ok (configToks cfg) := by
  simp only [goodConfig, Bool.and_eq_true] at hc
  obtain ⟨⟨⟨⟨hgs, hss⟩, _⟩, _⟩, _⟩ := hc
  have hgs2 : (pySorted groupLe cfg.groups).all goodGroup = true :=
    all_of_perm _ (pySorted_perm groupLe cfg.groups).symm hgs
  have hss2 : (pySorted scriptLe cfg.scripts).all goodScript = true :=
    all_of_perm _ (pySorted_perm scriptLe cfg.scripts).symm hss
  have s1 := tok_scripts_join (pySorted scriptLe cfg.scripts) [] []
    hss2 tokenize_nil
  rw [List.append_nil, List.append_nil] at s1
  have s2 := (tokenize_space '\n' _ (by decide)).trans s1
  have s3 := tok_groups_join (pySorted groupLe cfg.groups) _ _ hgs2 s2
  have htext : configStr cfg =
      nlJoin ((pySorted groupLe cfg.groups).map groupStr) ++
        ('\n' :: nlJoin ((pySorted scriptLe cfg.scripts).map scriptStr)) := by
    simp [configStr, List.append_assoc]
  rw [htext, s3, configToks]

theorem char_ofNat_digit_toNat (r : Nat) (h : r < 10) :
    (Char.ofNat (48 + r)).toNat = 48 + r := by
  interval_cases r <;> decide

theorem parseDigits_natToStr (n : Nat) : parseDigits (natToStr n) = n := by
  induction n using Nat.strong_induction_on with
  | _ n ih =>
    rw [natToStr]
    split
    · next h =>
      simp only [parseDigits, List.foldl]
      rw [char_ofNat_digit_toNat n h]
      omega
    · next h =>
      have hdiv : n / 10 < n := Nat.div_lt_self (by omega) (by omega)
      have hih := ih (n / 10) hdiv
      simp only [parseDigits] at hih ⊢
      rw [List.foldl_append, hih]
      simp only [List.foldl]
      rw [char_ofNat_digit_toNat _ (Nat.mod_lt _ (by omega))]
      omega

theorem flatten_clean {α : Type} (f : α → List Tok)
    (h : ∀ a t, t ∈ f a → t.isComment = false) (l : List α) (t : Tok)
    (ht : t ∈ (l.map f).flatten) : t.isComment = false := by
  rw [List.mem_flatten] at ht
  obtain ⟨x, hx, hm⟩ := ht
  rw [List.mem_map] at hx
  obtain ⟨a, _, rfl⟩ := hx
  exact h a t hm

theorem cmdToks_clean (c : CommandNode) (t : Tok) (ht : t ∈ cmdToks c) :
    t.isComment = false := by
  cases t <;> try rfl
  obtain ⟨ce, ch, cg, cn, ca⟩ := c
  rcases ce with _ | ev <;> rcases ch with _ | hv <;>
    rcases ca with _ | av <;>
    simp [cmdToks, attrToks] at ht

theorem groupToks_clean (g : GroupNode) (t : Tok) (ht : t ∈ groupToks g) :
    t.isComment = false := by
  by_cases hn : g.name = []
  · rw [groupToks, if_pos hn] at ht
    exact flatten_clean cmdToks cmdToks_clean g.commands t ht
  · rw [groupToks, if_neg hn] at ht
    rcases List.mem_append.mp ht with h | h
    · rcases List.mem_append.mp h with h | h
      · cases t <;> try rfl
        simp at h
      · exact flatten_clean cmdToks cmdToks_clean g.commands t h
    · cases t <;> try rfl
      simp at h

theorem actionToks_clean (a : ActionNode) (t : Tok)
    (ht : t ∈ actionToks a) : t.isComment = false := by
  cases t <;> try rfl
  rcases a with ⟨at_, it, id_, ws⟩ | d | ⟨it, id_, ws⟩ | n
  · rcases ws with _ | w <;> by_cases hit : it = kwEverything <;>
      simp [actionToks, hit] at ht
  · simp [actionToks] at ht
  · simp [actionToks] at ht
  · simp [actionToks] at ht

theorem scriptToks_clean (s : ScriptNode) (t : Tok)
    (ht : t ∈ scriptToks s) : t.isComment = false := by
  rw [scriptToks] at ht
  rcases List.mem_append.mp ht with h | h
  · rcases List.mem_append.mp h with h | h
    · cases t <;> try rfl
      simp at h
    · exact flatten_clean actionToks actionToks_clean s.actions t h
  · cases t <;> try rfl
    simp at h

theorem configToks_clean (cfg : ConfigNode) (t : Tok)
    (ht : t ∈ configToks cfg) : t.isComment = false := by
  rw [configToks] at ht
  rcases List.mem_append.mp ht with h | h
  · exact flatten_clean groupToks groupToks_clean _ t h
  · exact flatten_clean scriptToks scriptToks_clean _ t h

theorem configToks_filter (cfg : ConfigNode) :
    (configToks cfg).filter (fun t => ¬ t.isComment) = configToks cfg := by
  rw [List.filter_eq_self]
  intro t ht
  simp [configToks_clean cfg t ht]

theorem actionToks_pos (a : ActionNode) : 0 < (actionToks a).length := by
  rcases a <;> simp [actionToks]

theorem cmdToks_pos (c : CommandNode) : 0 < (cmdToks c).length := by
  rw [cmdToks]
  simp

theorem length_le_flatten {α : Type} (f : α → List Tok)
    (hf : ∀ a, 0 < (f a).length) :
    ∀ l : List α, l.length ≤ ((l.map f).flatten).length
  | [] => Nat.le_refl 0
  | a :: l => by
    simp only [List.map_cons, List.flatten_cons, List.length_append,
      List.length_cons]
    have h1 := length_le_flatten f hf l
    have h2 := hf a
    omega

theorem find?_perm_of_nodup {α : Type} (f : α → Str) {l1 l2 : List α}
    (hp : l1.Perm l2) (hn : (l1.map f).Nodup) (x : Str) :
    l1.find? (fun a => f a = x) = l2.find? (fun a => f a = x) := by
  cases h1 : l1.find? (fun a => decide (f a = x)) with
  | none =>
    rw [List.find?_eq_none] at h1
    symm
    rw [List.find?_eq_none]
    exact fun a ha => h1 a (hp.mem_iff.mpr ha)
  | some g =>
    have hg1 : g ∈ l1 := List.mem_of_find?_eq_some h1
    have hpg : f g = x := by simpa using List.find?_some h1
    cases h2 : l2.find? (fun a => decide (f a = x)) with
    | none =>
      rw [List.find?_eq_none] at h2
      exact absurd (by simpa using hpg)
        (by simpa using h2 g (hp.mem_iff.mp hg1))
    | some g2 =>
      have hg2 : g2 ∈ l2 := List.mem_of_find?_eq_some h2
      have hpg2 : f g2 = x := by simpa using List.find?_some h2
      have he : g = g2 := List.inj_on_of_nodup_map hn hg1
        (hp.mem_iff.mpr hg2) (by rw [hpg, hpg2])
      rw [he]

theorem any_of_perm {α : Type} {l1 l2 : List α} (p : α → Bool)
    (hp : l1.Perm l2) : l1.any p = l2.any p := by
  cases h : l1.any p with
  | false =>
    rw [List.any_eq_false] at h
    have : l2.any p = false := by
      rw [List.any_eq_false]
      exact fun a ha => h a (hp.mem_iff.mpr ha)
    rw [this]
  | true =>
    rw [List.any_eq_true] at h
    obtain ⟨a, ha, hpa⟩ := h
    have : l2.any p = true := List.any_eq_true.mpr ⟨a, hp.subset ha, hpa⟩
    rw [this]

theorem exists_split_of_any {α : Type} (p : α → Bool) :
    ∀ l : List α, l.any p = true →
    ∃ l1 x l2, l = l1 ++ x :: l2 ∧ p x = true ∧
      l1.all (fun a => ¬ p a) = true
  | [], h => by simp at h
  | a :: l, h => by
    by_cases hpa : p a = true
    · exact ⟨[], a, l, rfl, hpa, rfl⟩
    · have hl : l.any p = true := by
        simp only [List.any_cons] at h
        rcases (Bool.or_eq_true _ _).mp h with h1 | h1
        · exact absurd h1 hpa
        · exact h1
      obtain ⟨l1, x, l2, heq, hpx, hall⟩ := exists_split_of_any p l hl
      refine ⟨a :: l1, x, l2, by simp [heq], hpx, ?_⟩
      have hfa : p a = false := by
        cases hv : p a
        · rfl
        · exact absurd hv hpa
      rw [List.all_eq_true] at hall ⊢
      intro y hy
      rcases List.mem_cons.mp hy with h2 | h2
      · subst h2
        simp [hfa]
      · exact hall y h2

theorem group_stamp (c : CommandNode) (x y : Str) :
    { { c with group := x } with group := y } = { c with group := y } := rfl

theorem group_eta (c : CommandNode) : { c with group := c.group } = c := rfl

theorem foldl_groupAdd (n : Str) :
    ∀ (cs : List CommandNode) (acc : List CommandNode),
    cs.foldl groupAddCommand ⟨n, acc⟩ =
      ⟨n, acc ++ cs.map (fun c => { c with group := n })⟩
  | [], acc => by simp
  | c :: cs, acc => by
    simp only [List.foldl_cons]
    rw [show groupAddCommand ⟨n, acc⟩ c =
      (⟨n, acc ++ [{ c with group := n }]⟩ : GroupNode) from rfl]
    rw [foldl_groupAdd n cs]
    simp

theorem foldl_addScript :
    ∀ (ss : List ScriptNode) (n : ConfigNode),
    ss.foldl configAddScript n = ⟨n.groups, n.scripts ++ ss⟩
  | [], n => by simp
  | s :: ss, n => by
    simp only [List.foldl_cons]
    rw [foldl_addScript ss]
    simp [configAddScript]

theorem addCommand_names (n : ConfigNode) (c : CommandNode) :
    (configAddCommand n c).groups.map GroupNode.name =
      n.groups.map GroupNode.name := by
  simp only [configAddCommand, List.map_map]
  apply List.map_congr_left
  intro g _
  by_cases hg : g.name = [] <;> simp [Function.comp, hg, groupAddCommand]

theorem foldl_addCommand_names :
    ∀ (cs : List CommandNode) (n : ConfigNode),
    ((cs.foldl configAddCommand n).groups.map GroupNode.name) =
      n.groups.map GroupNode.name
  | [], n => rfl
  | c :: cs, n => by
    simp only [List.foldl_cons]
    rw [foldl_addCommand_names cs, addCommand_names]

theorem foldl_addCommand_scripts :
    ∀ (cs : List CommandNode) (n : ConfigNode),
    (cs.foldl configAddCommand n).scripts = n.scripts
  | [], n => rfl
  | c :: cs, n => by
    simp only [List.foldl_cons]
    rw [foldl_addCommand_scripts cs]
    rfl

theorem foldl_proc_scripts :
    ∀ (gs : List GroupNode) (n : ConfigNode),
    (gs.foldl procGroup n).scripts = n.scripts
  | [], n => rfl
  | g :: gs, n => by
    simp only [List.foldl_cons]
    rw [foldl_proc_scripts gs]
    by_cases hg : g.name = []
    · rw [procGroup, if_pos hg, foldl_addCommand_scripts]
    · rw [procGroup, if_neg hg]
      rfl

theorem foldl_proc_named :
    ∀ (gs : List GroupNode) (n : ConfigNode),
    gs.all (fun g => ¬ g.name = []) = true →
    gs.foldl procGroup n = ⟨n.groups ++ gs, n.scripts⟩
  | [], n, _ => by simp
  | g :: gs, n, h => by
    simp only [List.all_cons, Bool.and_eq_true] at h
    simp only [List.foldl_cons]
    rw [procGroup, if_neg (by simpa using h.1)]
    rw [foldl_proc_named gs _ h.2]
    simp [configAddGroup]

theorem addCommand_root (rc : List CommandNode) (named : List GroupNode)
    (sc : List ScriptNode) (c : CommandNode)
    (h : named.all (fun g => ¬ g.name = []) = true) :
    configAddCommand ⟨⟨[], rc⟩ :: named, sc⟩ c =
      ⟨⟨[], rc ++ [{ c with group := [] }]⟩ :: named, sc⟩ := by
  rw [List.all_eq_true] at h
  have hm : named.map
      (fun g => if g.name = [] then groupAddCommand g c else g) =
      named := by
    have h2 : named.map
        (fun g => if g.name = [] then groupAddCommand g c else g) =
        named.map id := by
      apply List.map_congr_left
      intro g hg
      rw [if_neg (by simpa using h g hg)]
      rfl
    rw [h2, List.map_id]
  simp only [configAddCommand, List.map_cons, hm]
  simp [groupAddCommand]

theorem foldl_addCommand_root :
    ∀ (cs : List CommandNode) (rc : List CommandNode)
      (named : List GroupNode) (sc : List ScriptNode),
    named.all (fun g => ¬ g.name = []) = true →
    cs.foldl configAddCommand ⟨⟨[], rc⟩ :: named, sc⟩ =
      ⟨⟨[], rc ++ cs.map (fun c => { c with group := [] })⟩ :: named, sc⟩
  | [], rc, named, sc, _ => by simp
  | c :: cs, rc, named, sc, h => by
    simp only [List.foldl_cons]
    rw [addCommand_root rc named sc c h]
    rw [foldl_addCommand_root cs _ _ _ h]
    simp

theorem cmdToks_cons (c : CommandNode) :
    cmdToks c = Tok.ident kwCmd :: (cmdToks c).tail := rfl

theorem parseCommand_good (c : CommandNode) (ts : List Tok)
    (hc : goodCommand c = true) :
    parseCommand ((cmdToks c).tail ++ ts) =
      .ok ({ c with group := [] }, ts) := by
  obtain ⟨ce, ch, cg, cn, ca⟩ := c
  simp only [goodCommand, Bool.and_eq_true] at hc
  obtain ⟨⟨⟨hex, hho⟩, har⟩, hnk⟩ := hc
  rcases ce with _ | ev
  · simp at hex
  rcases ch with _ | hv
  · simp at hho
  have hevne : ¬ ev = [] := by
    rcases (Bool.and_eq_true _ _).mp hex with ⟨h1, _⟩
    simpa using h1
  have hhvne : ¬ hv = [] := by
    rcases (Bool.and_eq_true _ _).mp hho with ⟨h1, _⟩
    simpa using h1
  rcases hev2 : ev with _ | ⟨e0, etl⟩
  · exact absurd hev2 hevne
  subst hev2
  rcases ca with _ | av
  · by_cases hn : cn = []
    · subst hn
      have htoks : (cmdToks ⟨some (e0 :: etl), some hv, cg, [], none⟩).tail
          ++ ts = Tok.openBrace :: (attrToks kwExec (e0 :: etl) ++
            (attrToks kwHost hv ++ Tok.closeBrace :: ts)) := by
        simp [cmdToks, hhvne, List.append_assoc]
      rw [htoks]
      rfl
    · have htoks : (cmdToks ⟨some (e0 :: etl), some hv, cg, cn, none⟩).tail
          ++ ts = Tok.str cn :: Tok.openBrace ::
            (attrToks kwExec (e0 :: etl) ++
              (attrToks kwHost hv ++ Tok.closeBrace :: ts)) := by
        simp [cmdToks, hn, hhvne, List.append_assoc]
      rw [htoks]
      rfl
  · have havne : ¬ av = [] := by
      rcases (Bool.and_eq_true _ _).mp har with ⟨h1, _⟩
      simpa using h1
    by_cases hn : cn = []
    · subst hn
      have htoks : (cmdToks
          ⟨some (e0 :: etl), some hv, cg, [], some av⟩).tail ++ ts =
          Tok.openBrace :: (attrToks kwAutoRespawn av ++
            (attrToks kwExec (e0 :: etl) ++
              (attrToks kwHost hv ++ Tok.closeBrace :: ts))) := by
        simp [cmdToks, havne, hhvne, List.append_assoc]
      rw [htoks]
      rfl
    · have htoks : (cmdToks
          ⟨some (e0 :: etl), some hv, cg, cn, some av⟩).tail ++ ts =
          Tok.str cn :: Tok.openBrace :: (attrToks kwAutoRespawn av ++
            (attrToks kwExec (e0 :: etl) ++
              (attrToks kwHost hv ++ Tok.closeBrace :: ts))) := by
        simp [cmdToks, hn, havne, hhvne, List.append_assoc]
      rw [htoks]
      rfl

theorem cmdlist_blocks :
    ∀ (cmds : List CommandNode) (fuel : Nat) (ts : List Tok),
    cmds.length < fuel → cmds.all goodCommand = true →
    parseCommandListF fuel ((cmds.map cmdToks).flatten ++
      Tok.closeBrace :: ts) =
      .ok (cmds.map (fun c => { c with group := [] }), Tok.closeBrace :: ts)
  | [], fuel, ts, hf, _ => by
    cases fuel with
    | zero => omega
    | succ f => rfl
  | c :: cmds, fuel, ts, hf, hall => by
    simp only [List.all_cons, Bool.and_eq_true] at hall
    cases fuel with
    | zero => omega
    | succ f =>
      have htoks : ((c :: cmds).map cmdToks).flatten ++
          Tok.closeBrace :: ts = Tok.ident kwCmd :: ((cmdToks c).tail ++
            ((cmds.map cmdToks).flatten ++ Tok.closeBrace :: ts)) := by
        rw [List.map_cons, List.flatten_cons, List.append_assoc,
          cmdToks_cons]
        rfl
      rw [htoks]
      simp only [parseCommandListF]
      rw [if_pos trivial]
      rw [parseCommand_good c _ hall.1]
      have hrec := cmdlist_blocks cmds f ts
        (by rw [List.length_cons] at hf; omega) hall.2
      dsimp only
      rw [hrec]
      rfl

theorem parseGroup_good (g : GroupNode) (ts : List Tok)
    (hg : goodGroup g = true) :
    parseGroup (Tok.str g.name :: Tok.openBrace ::
      ((g.commands.map cmdToks).flatten ++ Tok.closeBrace :: ts)) =
      .ok (g, ts) := by
  simp only [goodGroup, Bool.and_eq_true] at hg
  obtain ⟨hraw, hcmds⟩ := hg
  rw [List.all_eq_true] at hcmds
  have hall : g.commands.all goodCommand = true := by
    rw [List.all_eq_true]
    exact fun c hc => ((Bool.and_eq_true _ _).mp (hcmds c hc)).1
  have hrun := cmdlist_blocks g.commands
    (((g.commands.map cmdToks).flatten ++ Tok.closeBrace :: ts).length + 1)
    ts (by
      have h1 := length_le_flatten cmdToks cmdToks_pos g.commands
      rw [List.length_append]
      omega) hall
  simp only [parseGroup, parseCommandList, hrun]
  rw [show ({ name := g.name, commands := [] } : GroupNode) =
    (⟨g.name, []⟩ : GroupNode) from rfl]
  rw [foldl_groupAdd, List.map_map]
  have hid : g.commands.map ((fun c => { c with group := g.name }) ∘
      (fun c => { c with group := [] })) = g.commands := by
    have h2 : g.commands.map ((fun c => { c with group := g.name }) ∘
        (fun c => { c with group := [] })) = g.commands.map id := by
      apply List.map_congr_left
      intro c hc
      have hcg : c.group = g.name := by
        have := ((Bool.and_eq_true _ _).mp (hcmds c hc)).2
        simpa using this
      simp only [Function.comp]
      rw [group_stamp, ← hcg, group_eta]
      rfl
    rw [h2, List.map_id]
  rw [hid]
  simp

theorem actionloop_step_ssr (f : Nat) (a : Str) (ts rest2 out : List Tok)
    (act : ActionNode) (acts : List ActionNode)
    (h1 : (a = kwStart || a = kwStop || a = kwRestart) = true)
    (hp : parseSSR a ts = .ok (act, rest2))
    (h3 : parseActionLoopF f rest2 = .ok (acts, out)) :
    parseActionLoopF (f + 1) (.ident a :: ts) = .ok (act :: acts, out) := by
  simp only [parseActionLoopF]
  rw [if_pos h1, hp]
  dsimp only
  rw [h3]

theorem actionloop_step_wait (f : Nat) (a : Str) (ts rest2 out : List Tok)
    (act : ActionNode) (acts : List ActionNode)
    (h1 : ¬ ((a = kwStart || a = kwStop || a = kwRestart) = true))
    (h2 : a = kwWait)
    (hp : parseWaitAction ts = .ok (act, rest2))
    (h3 : parseActionLoopF f rest2 = .ok (acts, out)) :
    parseActionLoopF (f + 1) (.ident a :: ts) = .ok (act :: acts, out) := by
  simp only [parseActionLoopF]
  rw [if_neg h1, if_pos h2, hp]
  dsimp only
  rw [h3]

theorem actionloop_step_run (f : Nat) (a : Str) (ts rest2 out : List Tok)
    (act : ActionNode) (acts : List ActionNode)
    (h1 : ¬ ((a = kwStart || a = kwStop || a = kwRestart) = true))
    (h2 : ¬ a = kwWait) (h4 : a = kwRunScript)
    (hp : parseRunScript ts = .ok (act, rest2))
    (h3 : parseActionLoopF f rest2 = .ok (acts, out)) :
    parseActionLoopF (f + 1) (.ident a :: ts) = .ok (act :: acts, out) := by
  simp only [parseActionLoopF]
  rw [if_neg h1, if_neg h2, if_pos h4, hp]
  dsimp only
  rw [h3]

theorem actionloop_blocks :
    ∀ (acts : List ActionNode) (fuel : Nat) (ts : List Tok),
    acts.length < fuel → acts.all goodAction = true →
    parseActionLoopF fuel ((acts.map actionToks).flatten ++
      Tok.closeBrace :: ts) = .ok (acts, Tok.closeBrace :: ts)
  | [], fuel, ts, hf, _ => by
    cases fuel with
    | zero => omega
    | succ f => rfl
  | a :: acts, fuel, ts, hf, hall => by
    simp only [List.all_cons, Bool.and_eq_true] at hall
    cases fuel with
    | zero => omega
    | succ f =>
      have hrec := actionloop_blocks acts f ts
        (by rw [List.length_cons] at hf; omega) hall.2
      have hga := hall.1
      rw [List.map_cons, List.flatten_cons, List.append_assoc]
      rcases a with ⟨at_, it, id_, ws⟩ | d | ⟨it, id_, ws⟩ | n
      · simp only [goodAction, Bool.and_eq_true] at hga
        obtain ⟨⟨hat, hit⟩, hws⟩ := hga
        rcases (Bool.or_eq_true _ _).mp hit with h1 | h1
        · obtain ⟨hevt, hidn⟩ := (Bool.and_eq_true _ _).mp h1
          have hev : it = kwEverything := by simpa using hevt
          have hid : id_ = none := by simpa using hidn
          subst hev hid
          rcases ws with _ | w
          · have htoks :
                actionToks (.startStopRestart at_ kwEverything none none) =
                [Tok.ident at_, Tok.ident kwEverything, Tok.semi] := by
              simp [actionToks]
            rw [htoks]
            exact actionloop_step_ssr f at_ _ _ _ _ _ hat rfl hrec
          · have hwsk : (w = kwRunning ∨ w = kwStopped) := by
              rcases (Bool.or_eq_true _ _).mp hws with h2 | h2 <;>
                [left; right] <;> simpa using h2
            have htoks : actionToks
                (.startStopRestart at_ kwEverything none (some w)) =
                [Tok.ident at_, Tok.ident kwEverything, Tok.ident kwWait,
                  Tok.str w, Tok.semi] := by
              simp [actionToks]
            rw [htoks]
            rcases hwsk with h2 | h2 <;> subst h2 <;>
              exact actionloop_step_ssr f at_ _ _ _ _ _ hat rfl hrec
        · obtain ⟨hcg, hidn⟩ := (Bool.and_eq_true _ _).mp h1
          rcases id_ with _ | iv
          · simp at hidn
          have hitk : (it = kwCmd ∨ it = kwGroup) := by
            rcases (Bool.or_eq_true _ _).mp hcg with h2 | h2 <;>
              [left; right] <;> simpa using h2
          have hitne : ¬ it = kwEverything := by
            rcases hitk with h2 | h2 <;> subst h2 <;> decide
          rcases ws with _ | w
          · have htoks : actionToks
                (.startStopRestart at_ it (some iv) none) =
                [Tok.ident at_, Tok.ident it, Tok.str iv, Tok.semi] := by
              simp [actionToks, hitne]
            rw [htoks]
            rcases hitk with h2 | h2 <;> subst h2 <;>
              exact actionloop_step_ssr f at_ _ _ _ _ _ hat rfl hrec
          · have hwsk : (w = kwRunning ∨ w = kwStopped) := by
              rcases (Bool.or_eq_true _ _).mp hws with h2 | h2 <;>
                [left; right] <;> simpa using h2
            have htoks : actionToks
                (.startStopRestart at_ it (some iv) (some w)) =
                [Tok.ident at_, Tok.ident it, Tok.str iv, Tok.ident kwWait,
                  Tok.str w, Tok.semi] := by
              simp [actionToks, hitne]
            rw [htoks]
            rcases hitk with h2 | h2 <;> subst h2 <;>
              rcases hwsk with h3 | h3 <;> subst h3 <;>
              exact actionloop_step_ssr f at_ _ _ _ _ _ hat rfl hrec
      · simp only [goodAction, decide_eq_true_eq] at hga
        have htoks : actionToks (.waitMs d) = [Tok.ident kwWait,
            Tok.ident kwMs, Tok.int (natToStr d.toNat), Tok.semi] := rfl
        rw [htoks]
        have hp : parseWaitAction (Tok.ident kwMs ::
            Tok.int (natToStr d.toNat) :: Tok.semi ::
              ((acts.map actionToks).flatten ++ Tok.closeBrace :: ts)) =
            .ok (.waitMs (Int.ofNat (parseDigits (natToStr d.toNat))),
              (acts.map actionToks).flatten ++ Tok.closeBrace :: ts) := rfl
        rw [parseDigits_natToStr] at hp
        rw [show Int.ofNat d.toNat = d by simpa using Int.toNat_of_nonneg hga] at hp
        exact actionloop_step_wait f kwWait _ _ _ _ _ (by decide)
          (by decide) hp hrec
      · simp only [goodAction, Bool.and_eq_true] at hga
        obtain ⟨⟨hcg, hnl⟩, hws⟩ := hga
        have hitk : (it = kwCmd ∨ it = kwGroup) := by
          rcases (Bool.or_eq_true _ _).mp hcg with h2 | h2 <;>
            [left; right] <;> simpa using h2
        have hwsk : (ws = kwRunning ∨ ws = kwStopped) := by
          rcases (Bool.or_eq_true _ _).mp hws with h2 | h2 <;>
            [left; right] <;> simpa using h2
        have htoks : actionToks (.waitStatus it id_ ws) =
            [Tok.ident kwWait, Tok.ident it, Tok.str id_,
              Tok.ident kwStatus, Tok.str ws, Tok.semi] := rfl
        rw [htoks]
        rcases hitk with h2 | h2 <;> subst h2 <;>
          rcases hwsk with h3 | h3 <;> subst h3 <;>
          exact actionloop_step_wait f kwWait _ _ _ _ _ (by decide)
            (by decide) rfl hrec
      · have htoks : actionToks (.runScript n) =
            [Tok.ident kwRunScript, Tok.str n, Tok.semi] := rfl
        rw [htoks]
        exact actionloop_step_run f kwRunScript _ _ _ _ _ (by decide)
          (by decide) (by decide) rfl hrec

theorem parseScript_good (s : ScriptNode) (ts : List Tok)
    (hs : goodScript s = true) :
    parseScript (Tok.str s.name :: Tok.openBrace ::
      ((s.actions.map actionToks).flatten ++ Tok.closeBrace :: ts)) =
      .ok (s, ts) := by
  simp only [goodScript, Bool.and_eq_true] at hs
  have hrun := actionloop_blocks s.actions
    (((s.actions.map actionToks).flatten ++ Tok.closeBrace :: ts).length
      + 1) ts (by
      have h1 := length_le_flatten actionToks actionToks_pos s.actions
      rw [List.length_append]
      omega) hs.2
  simp only [parseScript, parseScriptActionList, hrun]

theorem listdecl_scripts :
    ∀ (ss : List ScriptNode) (fuel : Nat) (node : ConfigNode),
    ((ss.map scriptToks).flatten).length < fuel →
    ss.all goodScript = true →
    (∀ s2, s2 ∈ ss → node.scripts.any (fun x => x.name = s2.name) = false) →
    ((ss.map ScriptNode.name).Nodup) →
    parseListdeclF fuel node ((ss.map scriptToks).flatten) =
      .ok (ss.foldl configAddScript node)
  | [], fuel, node, hf, _, _, _ => by
    cases fuel with
    | zero => omega
    | succ f => rfl
  | s :: ss, fuel, node, hf, hall, hfresh, hnd => by
    simp only [List.all_cons, Bool.and_eq_true] at hall
    obtain ⟨hnotin, hndtail⟩ : (∀ x ∈ ss, ¬ x.name = s.name) ∧
        (List.map ScriptNode.name ss).Nodup := by simpa using hnd
    cases fuel with
    | zero => omega
    | succ f =>
      rw [List.map_cons, List.flatten_cons]
      have hsh : scriptToks s ++ (ss.map scriptToks).flatten =
          Tok.ident kwScript :: (Tok.str s.name :: Tok.openBrace ::
            ((s.actions.map actionToks).flatten ++ Tok.closeBrace ::
              (ss.map scriptToks).flatten)) := by
        simp [scriptToks, List.append_assoc]
      rw [hsh]
      have hlen : 0 < (scriptToks s).length := by simp [scriptToks]
      have hf2 : ((ss.map scriptToks).flatten).length < f := by
        rw [List.map_cons, List.flatten_cons, List.length_append] at hf
        omega
      have hfresh2 : ∀ s2, s2 ∈ ss → ((configAddScript node s).scripts.any
          (fun x => x.name = s2.name)) = false := by
        intro s2 hs2
        have h1 := hfresh s2 (List.mem_cons_of_mem s hs2)
        have hne : ¬ s.name = s2.name := fun he => hnotin s2 hs2 he.symm
        simp [configAddScript, List.any_append, h1, hne]
      have hrec := listdecl_scripts ss f (configAddScript node s)
        hf2 hall.2 hfresh2 hndtail
      simp only [parseListdeclF, reduceIte]
      rw [parseScript_good s _ hall.1]
      dsimp only
      have hdup : ¬ ((node.scripts.any
          fun x => decide (x.name = s.name)) = true) := by
        simp [hfresh s (List.mem_cons_self s ss)]
      rw [if_neg hdup, hrec]
      rfl

theorem any_name_eq :
    ∀ (l1 l2 : List GroupNode) (x : Str),
    l1.map GroupNode.name = l2.map GroupNode.name →
    (l1.any fun g => g.name = x) = (l2.any fun g => g.name = x)
  | [], [], _, _ => rfl
  | [], g2 :: l2, x, h => by simp at h
  | g1 :: l1, [], x, h => by simp at h
  | g1 :: l1, g2 :: l2, x, h => by
    simp only [List.map_cons, List.cons.injEq] at h
    simp only [List.any_cons]
    rw [h.1, any_name_eq l1 l2 x h.2]

theorem listdecl_cmds :
    ∀ (cmds : List CommandNode) (fuel : Nat) (node : ConfigNode)
      (tail : List Tok) (r : Except PErr ConfigNode),
    ((cmds.map cmdToks).flatten ++ tail).length < fuel →
    cmds.all (fun c => goodCommand c && decide (c.group = [])) = true →
    (∀ f2, tail.length < f2 →
      parseListdeclF f2 (cmds.foldl configAddCommand node) tail = r) →
    parseListdeclF fuel node ((cmds.map cmdToks).flatten ++ tail) = r
  | [], fuel, node, tail, r, hf, _, hk => by
    have h := hk fuel (by simpa using hf)
    simpa using h
  | c :: cmds, fuel, node, tail, r, hf, hall, hk => by
    simp only [List.all_cons, Bool.and_eq_true] at hall
    obtain ⟨⟨hgc, hgrp⟩, htl⟩ := hall
    cases fuel with
    | zero => omega
    | succ f =>
      rw [List.map_cons, List.flatten_cons, List.append_assoc,
        cmdToks_cons, List.cons_append]
      simp only [parseListdeclF, reduceIte]
      rw [parseCommand_good c _ hgc]
      dsimp only
      have hstamp : configAddCommand node { c with group := [] } =
          configAddCommand node c := by
        have hcg : c.group = [] := by simpa using hgrp
        rw [← hcg, group_eta]
      rw [hstamp]
      have hf2 : ((cmds.map cmdToks).flatten ++ tail).length < f := by
        have h1 := cmdToks_pos c
        simp only [List.map_cons, List.flatten_cons, List.append_assoc,
          List.length_append] at hf
        rw [List.length_append]
        omega
      exact listdecl_cmds cmds f (configAddCommand node c) tail r
        hf2 htl hk

theorem listdecl_groups :
    ∀ (gs : List GroupNode) (fuel : Nat) (node : ConfigNode)
      (tail : List Tok) (r : Except PErr ConfigNode),
    ((gs.map groupToks).flatten ++ tail).length < fuel →
    gs.all goodGroup = true →
    (∀ g2, g2 ∈ gs → ¬ g2.name = [] →
      node.groups.any (fun x => x.name = g2.name) = false) →
    ((gs.map GroupNode.name).Nodup) →
    (∀ f2, tail.length < f2 →
      parseListdeclF f2 (gs.foldl procGroup node) tail = r) →
    parseListdeclF fuel node ((gs.map groupToks).flatten ++ tail) = r
  | [], fuel, node, tail, r, hf, _, _, _, hk => by
    have h := hk fuel (by simpa using hf)
    simpa using h
  | g :: gs, fuel, node, tail, r, hf, hall, hfresh, hnd, hk => by
    simp only [List.all_cons, Bool.and_eq_true] at hall
    obtain ⟨hnotin, hndtail⟩ : (∀ x ∈ gs, ¬ x.name = g.name) ∧
        (List.map GroupNode.name gs).Nodup := by simpa using hnd
    rw [List.map_cons, List.flatten_cons, List.append_assoc]
    by_cases hroot : g.name = []
    · rw [groupToks, if_pos hroot]
      have hcmds : g.commands.all
          (fun c => goodCommand c && decide (c.group = [])) = true := by
        have h1 := hall.1
        simp only [goodGroup, Bool.and_eq_true] at h1
        obtain ⟨_, h2⟩ := h1
        rw [List.all_eq_true] at h2 ⊢
        intro c hc
        have h3 := h2 c hc
        rw [hroot] at h3
        exact h3
      have hf' : ((g.commands.map cmdToks).flatten ++
          ((gs.map groupToks).flatten ++ tail)).length < fuel := by
        rw [List.map_cons, List.flatten_cons, groupToks, if_pos hroot]
          at hf
        simp only [List.length_append] at hf ⊢
        omega
      apply listdecl_cmds g.commands fuel node
        ((gs.map groupToks).flatten ++ tail) r hf' hcmds
      intro f2 hf2
      apply listdecl_groups gs f2 (g.commands.foldl configAddCommand node)
        tail r hf2 hall.2 ?_ hndtail ?_
      · intro g2 hg2 hgn
        have h1 := hfresh g2 (List.mem_cons_of_mem g hg2) hgn
        have hnames := foldl_addCommand_names g.commands node
        rw [any_name_eq _ node.groups _ hnames]
        exact h1
      · intro f3 hf3
        have h4 := hk f3 hf3
        rw [show (g :: gs).foldl procGroup node =
            gs.foldl procGroup (g.commands.foldl configAddCommand node) by
          rw [List.foldl_cons, procGroup, if_pos hroot]] at h4
        exact h4
    · rw [groupToks, if_neg hroot]
      cases fuel with
      | zero => omega
      | succ f =>
        have hsh : (([Tok.ident kwGroup, Tok.str g.name, Tok.openBrace] ++
            (g.commands.map cmdToks).flatten ++ [Tok.closeBrace]) ++
            ((gs.map groupToks).flatten ++ tail)) =
            Tok.ident kwGroup :: (Tok.str g.name :: Tok.openBrace ::
              ((g.commands.map cmdToks).flatten ++ Tok.closeBrace ::
                ((gs.map groupToks).flatten ++ tail))) := by
          simp [List.append_assoc]
        rw [hsh]
        simp only [parseListdeclF, reduceIte]
        rw [parseGroup_good g _ hall.1]
        dsimp only
        have hdup : ¬ ((node.groups.any
            fun x => decide (x.name = g.name)) = true) := by
          simp [hfresh g (List.mem_cons_self g gs) hroot]
        rw [if_neg hdup]
        have hf2 : ((gs.map groupToks).flatten ++ tail).length < f := by
          have hlen : 0 < (groupToks g).length := by
            rw [groupToks, if_neg hroot]
            simp
          simp only [List.map_cons, List.flatten_cons, List.append_assoc,
            List.length_append] at hf
          rw [List.length_append]
          simp only [List.length_append] at hlen ⊢
          omega
        apply listdecl_groups gs f (configAddGroup node g) tail r
          hf2 hall.2 ?_ hndtail ?_
        · intro g2 hg2 hgn
          have h1 := hfresh g2 (List.mem_cons_of_mem g hg2) hgn
          have hne : ¬ g.name = g2.name := fun he => hnotin g2 hg2 he.symm
          simp [configAddGroup, List.any_append, h1, hne]
        · intro f3 hf3
          have h4 := hk f3 hf3
          rw [show (g :: gs).foldl procGroup node =
              gs.foldl procGroup (configAddGroup node g) by
            rw [List.foldl_cons, procGroup, if_neg hroot]] at h4
          exact h4

theorem parse_configToks (cfg : ConfigNode) (hc : goodConfig cfg = true) :
    ∃ cfg2, parseTokens (configToks cfg) = .ok cfg2 ∧
      ConfigEquiv cfg2 cfg := by
  have hc2 := hc
  simp only [goodConfig, Bool.and_eq_true] at hc2
  obtain ⟨⟨⟨⟨hgs, hss⟩, hndg⟩, hnds⟩, hany⟩ := hc2
  have hndg2 : (cfg.groups.map GroupNode.name).Nodup := by simpa using hndg
  have hnds2 : (cfg.scripts.map ScriptNode.name).Nodup := by
    simpa using hnds
  have hpg : (pySorted groupLe cfg.groups).Perm cfg.groups :=
    pySorted_perm groupLe cfg.groups
  have hps : (pySorted scriptLe cfg.scripts).Perm cfg.scripts :=
    pySorted_perm scriptLe cfg.scripts
  have hgs2 : (pySorted groupLe cfg.groups).all goodGroup = true :=
    all_of_perm _ hpg.symm hgs
  have hss2 : (pySorted scriptLe cfg.scripts).all goodScript = true :=
    all_of_perm _ hps.symm hss
  have hndgl : ((pySorted groupLe cfg.groups).map GroupNode.name).Nodup :=
    ((hpg.map GroupNode.name).nodup_iff).mpr hndg2
  have hndsl : ((pySorted scriptLe cfg.scripts).map ScriptNode.name).Nodup :=
    ((hps.map ScriptNode.name).nodup_iff).mpr hnds2
  have hscr : ((pySorted groupLe cfg.groups).foldl procGroup
      initConfigNode).scripts = [] := by
    rw [foldl_proc_scripts]
    rfl
  refine ⟨(pySorted scriptLe cfg.scripts).foldl configAddScript
    ((pySorted groupLe cfg.groups).foldl procGroup initConfigNode),
    ?_, ?_⟩
  · simp only [parseTokens]
    rw [configToks_filter, configToks]
    refine listdecl_groups _ _ _ _ _ ?_ hgs2 ?_ hndgl ?_
    · omega
    · intro g2 _ hgn
      have hne : ¬ (([] : Str) = g2.name) := fun he => hgn he.symm
      simp [initConfigNode, hne]
    · intro f2 hf2
      refine listdecl_scripts _ _ _ hf2 hss2 ?_ hndsl
      intro s2 _
      rw [hscr]
      rfl
  · have hanyg : (pySorted groupLe cfg.groups).any
        (fun g => decide (g.name = [])) = true := by
      rw [any_of_perm _ hpg]
      exact hany
    obtain ⟨pre, g0, post, hsplit, hpx, hallpre⟩ :=
      exists_split_of_any _ _ hanyg
    have hg0 : g0.name = [] := by simpa using hpx
    have hpre : pre.all (fun g => ¬ g.name = []) = true := by
      rw [List.all_eq_true] at hallpre ⊢
      intro y hy
      have h3 := hallpre y hy
      simpa using h3
    have hndgl2 : ((pre ++ g0 :: post).map GroupNode.name).Nodup := by
      rw [← hsplit]
      exact hndgl
    have hpost : post.all (fun g => ¬ g.name = []) = true := by
      rw [List.map_append, List.map_cons] at hndgl2
      have h4 := (List.nodup_append.mp hndgl2).2.1
      have h5 : g0.name ∉ post.map GroupNode.name :=
        (List.nodup_cons.mp h4).1
      rw [List.all_eq_true]
      intro y hy
      have h6 : ¬ y.name = [] := by
        intro he
        apply h5
        rw [hg0, ← he]
        exact List.mem_map_of_mem _ hy
      simpa using h6
    have hfold : (pySorted groupLe cfg.groups).foldl procGroup
        initConfigNode = ⟨g0 :: (pre ++ post), []⟩ := by
      rw [hsplit, List.foldl_append, List.foldl_cons]
      rw [foldl_proc_named pre initConfigNode hpre]
      rw [procGroup, if_pos hg0]
      rw [show (⟨initConfigNode.groups ++ pre, initConfigNode.scripts⟩ :
          ConfigNode) = ⟨(⟨[], []⟩ : GroupNode) :: pre, []⟩ from rfl]
      rw [foldl_addCommand_root g0.commands [] pre [] hpre]
      have hmap : g0.commands.map (fun c => { c with group := [] }) =
          g0.commands := by
        have hgood0 : goodGroup g0 = true := by
          rw [List.all_eq_true] at hgs2
          apply hgs2
          rw [hsplit]
          exact List.mem_append_right _ (List.mem_cons_self _ _)
        simp only [goodGroup, Bool.and_eq_true] at hgood0
        obtain ⟨_, h7⟩ := hgood0
        rw [List.all_eq_true] at h7
        have h8 : g0.commands.map (fun c => { c with group := [] }) =
            g0.commands.map id := by
          apply List.map_congr_left
          intro c hcm
          have h9 : c.group = g0.name := by
            simpa using ((Bool.and_eq_true _ _).mp (h7 c hcm)).2
          show ({ c with group := [] } : CommandNode) = c
          rw [← hg0, ← h9, group_eta]
        rw [h8, List.map_id]
      rw [hmap]
      rw [foldl_proc_named post _ hpost]
      have hg0eta : (⟨[], [] ++ g0.commands⟩ : GroupNode) = g0 := by
        rw [List.nil_append, ← hg0]
      rw [show ((⟨(⟨[], [] ++ g0.commands⟩ : GroupNode) :: pre, []⟩ :
          ConfigNode)).groups = (⟨[], [] ++ g0.commands⟩ : GroupNode) ::
          pre from rfl]
      rw [hg0eta]
      rfl
    have hperm : (g0 :: (pre ++ post)).Perm cfg.groups := by
      have h10 : (g0 :: (pre ++ post)).Perm (pre ++ g0 :: post) :=
        List.perm_middle.symm
      exact h10.trans (hsplit ▸ hpg)
    have hnd3 : ((g0 :: (pre ++ post)).map GroupNode.name).Nodup :=
      ((hperm.map GroupNode.name).nodup_iff).mpr hndg2
    have hcfg2 := foldl_addScript (pySorted scriptLe cfg.scripts)
      ((pySorted groupLe cfg.groups).foldl procGroup initConfigNode)
    constructor
    · intro n
      rw [findGroup, findGroup, hcfg2]
      show (((pySorted groupLe cfg.groups).foldl procGroup
        initConfigNode).groups).find? (fun g => g.name = n) = _
      rw [hfold]
      show ((g0 :: (pre ++ post)).find? (fun g => g.name = n)) = _
      exact find?_perm_of_nodup GroupNode.name hperm hnd3 n
    · intro n
      rw [findScript, findScript, hcfg2]
      show (((pySorted groupLe cfg.groups).foldl procGroup
        initConfigNode).scripts ++ pySorted scriptLe cfg.scripts).find?
        (fun s => s.name = n) = _
      rw [hscr, List.nil_append]
      exact find?_perm_of_nodup ScriptNode.name hps hndsl n

/-- C3: parsing the serializer's output returns a configuration tree
structurally equal to the original — group and script dicts holding the
same names bound to the same nodes — for every validly-constructed
configuration whose strings avoid the serializer's escaping gaps: no raw
newline in any emitted value, group names free of quote, backslash and
newline (`GroupNode.__str__` interpolates them unescaped), `exec` and
`host` present and non-empty, `auto_respawn` non-empty when present,
distinct group names, distinct script names, and the unnamed root group
present.  As originally stated — for arbitrary string attribute values —
the claim is refuted by `C3_counterexample`: a raw newline in any value
reaches the lexer inside a quoted literal and parsing fails. -/
theorem C3_corrected_roundtrip (cfg : ConfigNode)
    (hc : goodConfig cfg = true) :
    ∃ cfg2, parseConfig (configStr cfg) = .ok cfg2 ∧
      ConfigEquiv cfg2 cfg := by
  obtain ⟨cfg2, h1, h2⟩ := parse_configToks cfg hc
  refine ⟨cfg2, ?_, h2⟩
  rw [parseConfig, tok_configStr cfg hc]
  exact h1

/-- C3, witness: the corrected round-trip theorem applied to the concrete
configuration `fxCfgRound` (a bare command, a named group holding a
nicknamed auto-respawn command, and a script with one action of every
form), discharging its validity hypothesis by evaluation. -/
theorem C3_witness : goodConfig fxCfgRound = true ∧
    (∃ cfg2, parseConfig (configStr fxCfgRound) = .ok cfg2 ∧
      ConfigEquiv cfg2 fxCfgRound) :=
  ⟨by decide, C3_corrected_roundtrip fxCfgRound (by decide)⟩
